import Mathlib

/-!
# BGZF block codec (`Src/Compression/BGZF.c`, `BGZF.h`)

A shallow embedding of `CompressBlock`, `UncompressBlock`, `PackUnsignedInt`
and `PackUnsignedShort`.

* A C buffer is a `Mem`: a map from the byte offset relative to the pointer the
  function received (an `Int`, since the code indexes with signed values) to the
  byte stored there, a number below 256.
* `unsigned int` values are `Nat`s kept in range by `toU32`; `int` values are
  `Int`s in the range of `int`. A conversion to `int` is `wrap32`, and the two
  assignments that compute on `int`s in the loop, `inputLength -= 1024` and
  `compressedLength += 26`, wrap around as well, as the 32-bit two's complement
  arithmetic of the compiled code does.
* zlib (`deflateInit2`/`deflate`/`deflateEnd`, `inflateInit2`/`inflate`/
  `inflateEnd`, `crc32`) is an external library: it is the parameter `Zlib`.
-/

namespace BGZF

/-! ## Constants of `BGZF.h` -/

def GZIP_ID1 : Nat := 31
def GZIP_ID2 : Nat := 139
def CM_DEFLATE : Nat := 8
def FLG_FEXTRA : Nat := 4
def OS_UNKNOWN : Nat := 255
def MAX_BLOCK_SIZE : Int := 65536
def BGZF_XLEN : Nat := 6
def BGZF_ID1 : Nat := 66
def BGZF_ID2 : Nat := 67
def BGZF_LEN : Nat := 2
def BLOCK_HEADER_LENGTH : Int := 18
def BLOCK_FOOTER_LENGTH : Int := 8

/-- Status `Z_OK` of zlib.h. -/
def Z_OK : Int := 0
/-- Status `Z_STREAM_END` of zlib.h. -/
def Z_STREAM_END : Int := 1

/-! ## Machine integers and memory -/

/-- Conversion to `int` (32 bits, two's complement). -/
def wrap32 (x : Int) : Int := (x + 2147483648) % 4294967296 - 2147483648

/-- Conversion to `unsigned int` (32 bits). -/
def toU32 (x : Int) : Nat := (x % 4294967296).toNat

/-- Conversion to `unsigned short` (16 bits). -/
def toU16 (x : Int) : Nat := (x % 65536).toNat

/-- Bytes of a buffer, by offset from the pointer. -/
abbrev Mem := Int → Nat

/-- Store the byte `v` at offset `i`. -/
def Mem.store (m : Mem) (i : Int) (v : Nat) : Mem :=
  fun j => if j = i then v else m j

/-- The assignment `m[i] = (char)v`: the low eight bits of `v` are stored. -/
def Mem.set (m : Mem) (i : Int) (v : Nat) : Mem :=
  m.store i (v % 256)

/-- The `n` bytes of `m` from offset `off` on. -/
def readBytes (m : Mem) (off : Int) (n : Nat) : List Nat :=
  (List.range n).map (fun (k : Nat) => m (off + (k : Int)))

/-- Store the bytes `bs` in `m` from offset `off` on. -/
def writeBytes (m : Mem) (off : Int) (bs : List Nat) : Mem :=
  fun j => if off ≤ j ∧ j < off + (bs.length : Int) then bs.getD (j - off).toNat 0 else m j

/-- The call `memset(m, c, n)`. -/
def memset (m : Mem) (c : Nat) (n : Nat) : Mem :=
  fun j => if 0 ≤ j ∧ j < (n : Int) then c % 256 else m j

/-- The call `memcpy(m + dst, m + src, n)` as a forward byte-by-byte copy. -/
def memcpy (m : Mem) (dst src : Int) (n : Nat) : Mem :=
  (List.range n).foldl
    (fun (acc : Mem) (k : Nat) => acc.store (dst + (k : Int)) (acc (src + (k : Int)))) m

/-! ## zlib, the external engine -/

/-- What one `deflateInit2`, `deflate(Z_FINISH)`, `deflateEnd` sequence reports:
the three return values and the bytes stored at `next_out`, whose number is
`total_out`. When `initStatus` is not `Z_OK` nothing else has happened. -/
structure DeflateResult where
  initStatus : Int
  status : Int
  out : List Nat
  endStatus : Int

/-- What one `inflateInit2`, `inflate(Z_FINISH)`, `inflateEnd` sequence reports. -/
structure InflateResult where
  initStatus : Int
  status : Int
  out : List Nat
  endStatus : Int

/-- The zlib functions the codec calls. `deflate level input avail_out` is given
the compression level, the `avail_in` bytes at `next_in` and the output space;
`inflate input avail_out` the `avail_in` bytes at `next_in` and the output
space; `crc32Null` is `crc32(0, NULL, 0)` and `crc32 crc bytes` is
`crc32(crc, buf, len)` over the `len` bytes at `buf`. -/
structure Zlib where
  deflate : Int → List Nat → Nat → DeflateResult
  inflate : List Nat → Nat → InflateResult
  crc32Null : Nat
  crc32 : Nat → List Nat → Nat

/-! ## `PackUnsignedInt`, `PackUnsignedShort` -/

/-- Function `PackUnsignedInt(buffer + off, value)`. -/
def PackUnsignedInt (buffer : Mem) (off : Int) (value : Nat) : Mem :=
  let b0 := buffer.set off value
  let b1 := b0.set (off + 1) (value >>> 8)
  let b2 := b1.set (off + 2) (value >>> 16)
  b2.set (off + 3) (value >>> 24)

/-- Function `PackUnsignedShort(buffer + off, value)`. -/
def PackUnsignedShort (buffer : Mem) (off : Int) (value : Nat) : Mem :=
  let b0 := buffer.set off value
  b0.set (off + 1) (value >>> 8)

/-! ## `CompressBlock` -/

/-- The failure exits of `CompressBlock`, one for each message it prints. -/
inductive CompressError where
  | initFailed        -- "zlib deflate initialization failed."
  | reductionFailed   -- "input reduction failed."
  | deflateFailed     -- "zlib deflate failed."
  | endFailed         -- "deflate end failed."
  | overflow          -- "deflate overflow."
  | remainderTooLarge -- "remainder too large."
  deriving DecidableEq, Repr

/-- The header bytes written before the loop (lines 22 to 31). -/
def initHeader (buffer : Mem) : Mem :=
  let b := memset buffer 0 18
  let b := b.set 0 GZIP_ID1
  let b := b.set 1 GZIP_ID2
  let b := b.set 2 CM_DEFLATE
  let b := b.set 3 FLG_FEXTRA
  let b := b.set 9 OS_UNKNOWN
  let b := b.set 10 BGZF_XLEN
  let b := b.set 12 BGZF_ID1
  let b := b.set 13 BGZF_ID2
  b.set 14 BGZF_LEN

/-- The output space offered to the engine, `bufferSize - BLOCK_HEADER_LENGTH -
BLOCK_FOOTER_LENGTH` in `unsigned int` arithmetic. -/
def availOut (bufferSize : Nat) : Nat :=
  toU32 ((bufferSize : Int) - BLOCK_HEADER_LENGTH - BLOCK_FOOTER_LENGTH)

/-- How the `while(1)` loop ends: in a failure or with the final `inputLength`
and `compressedLength` (`ret`), with the output buffer as the attempts left it
(`buffer`). `attempts` is a ghost record of the `inputLength` of every pass
through the loop body, in order. -/
structure LoopResult where
  ret : Except CompressError (Int × Int)
  buffer : Mem
  attempts : List Int

/-- The `while(1)` loop (lines 34 to 85), entered with the current output buffer
and `inputLength`, and allowed at most `fuel` passes through its body (the
branch for no fuel left is never taken from `compressLoop`, see
`compressLoop_unfold`). -/
def compressLoopFuel (z : Zlib) (level : Int) (uncompressedBlock : Mem) (bufferSize : Nat) :
    Nat → Mem → Int → LoopResult
  | 0, buffer, _ => { ret := .error .reductionFailed, buffer := buffer, attempts := [] }
  | fuel + 1, buffer, inputLength =>
    let r := z.deflate level (readBytes uncompressedBlock 0 (toU32 inputLength))
      (availOut bufferSize)
    if r.initStatus ≠ Z_OK then
      { ret := .error .initFailed, buffer := buffer, attempts := [inputLength] }
    else
      let buffer1 := writeBytes buffer BLOCK_HEADER_LENGTH r.out
      if r.status ≠ Z_STREAM_END then
        if r.status = Z_OK then
          if wrap32 (inputLength - 1024) < 0 then
            { ret := .error .reductionFailed, buffer := buffer1, attempts := [inputLength] }
          else
            let rest := compressLoopFuel z level uncompressedBlock bufferSize fuel buffer1
              (wrap32 (inputLength - 1024))
            { rest with attempts := inputLength :: rest.attempts }
        else { ret := .error .deflateFailed, buffer := buffer1, attempts := [inputLength] }
      else if r.endStatus ≠ Z_OK then
        { ret := .error .endFailed, buffer := buffer1, attempts := [inputLength] }
      else
        let compressedLength :=
          wrap32 (wrap32 (r.out.length : Int) + (BLOCK_HEADER_LENGTH + BLOCK_FOOTER_LENGTH))
        if compressedLength > MAX_BLOCK_SIZE then
          { ret := .error .overflow, buffer := buffer1, attempts := [inputLength] }
        else
          { ret := .ok (inputLength, compressedLength), buffer := buffer1,
            attempts := [inputLength] }

/-- Measure that decreases at each retry of the loop: the `inputLength` itself,
and 2^31 for a negative one (from which one retry can lead to a value below
2^31, when the subtraction wraps around). -/
def loopMeasure (inputLength : Int) : Nat :=
  if wrap32 inputLength < 0 then 2147483648 else (wrap32 inputLength).toNat

/-- The `while(1)` loop (lines 34 to 85): one pass through the body, and one
more for each 1024 bytes that can be taken off `inputLength`. -/
def compressLoop (z : Zlib) (level : Int) (uncompressedBlock : Mem) (bufferSize : Nat)
    (buffer : Mem) (inputLength : Int) : LoopResult :=
  compressLoopFuel z level uncompressedBlock bufferSize (loopMeasure inputLength / 1024 + 1)
    buffer inputLength

/-- State after a call of `CompressBlock`: the returned value (`ret`, the block
length, or the failure taken, for which the C function returns -1), the two
buffers, `*pUncompressLen`, and two ghost records: the attempted lengths, and
the `memcpy` of line 103 when the call has executed it (`shift`, its source
offset `inputLength` and its byte count `remaining`). -/
structure CompressResult where
  ret : Except CompressError Int
  uncompressedBlock : Mem
  uncompressLen : Nat
  compressedBlock : Mem
  attempts : List Int
  shift : Option (Int × Int)

/-- The `int` returned by the C function. -/
def CompressResult.value (r : CompressResult) : Int :=
  match r.ret with
  | .ok n => n
  | .error _ => -1

/-- The part of `CompressBlock` after the loop (lines 87 to 107): on a failure
of the loop the call returns at once; otherwise the block length, the checksum
and the consumed length are packed, the remainder is checked and moved to the
front, and `*pUncompressLen` is updated. -/
def finishBlock (z : Zlib) (uncompressedBlock : Mem) (uncompressLen : Nat) (l : LoopResult) :
    CompressResult :=
  match l.ret with
  | .error e =>
      { ret := .error e, uncompressedBlock := uncompressedBlock,
        uncompressLen := uncompressLen, compressedBlock := l.buffer, attempts := l.attempts,
        shift := none }
  | .ok (inputLength, compressedLength) =>
      let buffer := PackUnsignedShort l.buffer 16 (toU16 (compressedLength - 1))
      let crc := z.crc32Null
      let crc := z.crc32 crc (readBytes uncompressedBlock 0 (toU32 inputLength)) % 4294967296
      let buffer := PackUnsignedInt buffer (compressedLength - 8) crc
      let buffer := PackUnsignedInt buffer (compressedLength - 4) (toU32 inputLength)
      let remaining := wrap32 ((toU32 ((uncompressLen : Int) - inputLength) : Nat) : Int)
      if remaining > 0 then
        if remaining > inputLength then
          { ret := .error .remainderTooLarge, uncompressedBlock := uncompressedBlock,
            uncompressLen := uncompressLen, compressedBlock := buffer, attempts := l.attempts,
            shift := none }
        else
          { ret := .ok compressedLength,
            uncompressedBlock := memcpy uncompressedBlock 0 inputLength remaining.toNat,
            uncompressLen := toU32 remaining, compressedBlock := buffer,
            attempts := l.attempts, shift := some (inputLength, remaining) }
      else
        { ret := .ok compressedLength, uncompressedBlock := uncompressedBlock,
          uncompressLen := toU32 remaining, compressedBlock := buffer, attempts := l.attempts,
          shift := none }

/-- Function `CompressBlock(uncompressedBlock, pUncompressLen, compressedBlock,
compressedLen, compressionLevel)`, with `uncompressLen` the value of
`*pUncompressLen` at entry: the header, the loop, then `finishBlock`. -/
def CompressBlock (z : Zlib) (uncompressedBlock : Mem) (uncompressLen : Nat)
    (compressedBlock : Mem) (compressedLen : Nat) (compressionLevel : Int) : CompressResult :=
  finishBlock z uncompressedBlock uncompressLen
    (compressLoop z compressionLevel uncompressedBlock compressedLen
      (initHeader compressedBlock) (wrap32 (uncompressLen : Int)))

/-! ## `UncompressBlock` -/

/-- The input length handed to the inflate engine, `compressedLen - 16` in
`unsigned int` arithmetic. -/
def availIn (compressedLen : Nat) : Nat :=
  toU32 ((compressedLen : Int) - 16)

/-- State after a call of `UncompressBlock`: the returned value (`none` for the
failure value -1) and the output buffer. -/
structure UncompressResult where
  ret : Option Int
  uncompressedBlock : Mem

/-- Function `UncompressBlock(compressedBlock, compressedLen, uncompressedBlock,
uncompressedLen)`. -/
def UncompressBlock (z : Zlib) (compressedBlock : Mem) (compressedLen : Nat)
    (uncompressedBlock : Mem) (uncompressedLen : Nat) : UncompressResult :=
  let r := z.inflate (readBytes compressedBlock 18 (availIn compressedLen)) uncompressedLen
  if r.initStatus ≠ Z_OK then { ret := none, uncompressedBlock := uncompressedBlock }
  else
    let out := writeBytes uncompressedBlock 0 r.out
    if r.status ≠ Z_STREAM_END then { ret := none, uncompressedBlock := out }
    else if r.endStatus ≠ Z_OK then { ret := none, uncompressedBlock := out }
    else { ret := some (wrap32 (r.out.length : Int)), uncompressedBlock := out }

/-- The `int` returned by the C function `UncompressBlock`. -/
def UncompressResult.value (r : UncompressResult) : Int :=
  match r.ret with
  | some n => n
  | none => -1

/-! ## Notions used in the statements -/

/-- The attempt on the first `c` input bytes terminates the stream and
gives a block of length `N` that passes the `MAX_BLOCK_SIZE` test. -/
def FinalAttempt (z : Zlib) (lvl : Int) (ub : Mem) (cap : Nat) (c : Nat) (N : Int) : Prop :=
  (z.deflate lvl (readBytes ub 0 c) (availOut cap)).initStatus = Z_OK ∧
  (z.deflate lvl (readBytes ub 0 c) (availOut cap)).status = Z_STREAM_END ∧
  (z.deflate lvl (readBytes ub 0 c) (availOut cap)).endStatus = Z_OK ∧
  N = wrap32 (wrap32 ((z.deflate lvl (readBytes ub 0 c) (availOut cap)).out.length : Int) + 26) ∧
  N ≤ 65536

/-- The output buffer once the block length `N`, the checksum of the `c`
consumed bytes and `c` itself have been packed into `buf` (lines 88 to 94). -/
def packBlock (z : Zlib) (ub : Mem) (buf : Mem) (c : Nat) (N : Int) : Mem :=
  PackUnsignedInt
    (PackUnsignedInt
      (PackUnsignedShort buf 16 (toU16 (N - 1)))
      (N - 8) (z.crc32 z.crc32Null (readBytes ub 0 c) % 4294967296))
    (N - 4) c

/-- The overlap-safe move the specification speaks of ("overlapping-safe copy"),
as `memmove(m + dst, m + src, n)` does it: the `n` source bytes are all read
before the first one is stored. -/
def overlapSafeMove (m : Mem) (dst src : Int) (n : Nat) : Mem :=
  writeBytes m dst (readBytes m src n)

/-! ## A sequence of calls -/

/-- One successful call of a sequence: the bytes it consumed and the block it
produced. -/
structure ChainStep where
  consumed : List Nat
  block : Mem
  blockLen : Int

/-- Modelled from the spec: the caller of `CompressBlock`, which is not in this
source ("calling compress repeatedly, each time feeding back the remainder plus
freshly appended bytes"). Before each call it appends the next chunk after the
`len` bytes left at the front of the uncompressed buffer and calls
`CompressBlock` on the whole; it goes on with the buffers and the length the
call leaves. The result is `none` when a length does not fit `unsigned int` or
a call fails, and otherwise the steps in order, the uncompressed buffer and the
length left after the last call. -/
def chain (z : Zlib) (lvl : Int) (cap : Nat) :
    List (List Nat) → Mem → Nat → Mem → Option (List ChainStep × Mem × Nat)
  | [], ub, len, _ => some ([], ub, len)
  | chunk :: rest, ub, len, cb =>
    if len + chunk.length < 4294967296 then
      match (CompressBlock z (writeBytes ub len chunk) (len + chunk.length) cb cap lvl).ret with
      | .error _ => none
      | .ok N =>
        match chain z lvl cap rest
            (CompressBlock z (writeBytes ub len chunk) (len + chunk.length) cb cap
              lvl).uncompressedBlock
            (CompressBlock z (writeBytes ub len chunk) (len + chunk.length) cb cap
              lvl).uncompressLen
            (CompressBlock z (writeBytes ub len chunk) (len + chunk.length) cb cap
              lvl).compressedBlock with
        | none => none
        | some (steps, ubF, lenF) =>
          some ({ consumed := readBytes (writeBytes ub len chunk) 0
                    (len + chunk.length
                      - (CompressBlock z (writeBytes ub len chunk) (len + chunk.length) cb cap
                          lvl).uncompressLen),
                  block := (CompressBlock z (writeBytes ub len chunk) (len + chunk.length) cb cap
                    lvl).compressedBlock,
                  blockLen := N } :: steps, ubF, lenF)
    else none

/-! ## A storing engine, to run the codec on concrete inputs -/

/-- Four little-endian bytes of a number. -/
def le32 (n : Nat) : List Nat :=
  [n % 256, n / 256 % 256, n / 65536 % 256, n / 16777216 % 256]

/-- An engine that does not compress: when the output space allows, the stream
is the input length in four bytes followed by the input; otherwise it reports
that it needs more output (`Z_OK`, with -3, `Z_DATA_ERROR`, from `deflateEnd`). -/
def storeDeflate (_level : Int) (input : List Nat) (avail_out : Nat) : DeflateResult :=
  if input.length + 4 ≤ avail_out then
    { initStatus := Z_OK, status := Z_STREAM_END, out := le32 input.length ++ input,
      endStatus := Z_OK }
  else
    { initStatus := Z_OK, status := Z_OK, out := [], endStatus := -3 }

/-- The inverse of `storeDeflate`: it reads the length, then gives that many
bytes back, ignoring what follows them; a short stream or output space is an
error (-5, `Z_BUF_ERROR`). -/
def storeInflate (input : List Nat) (avail_out : Nat) : InflateResult :=
  match input with
  | a :: b :: c :: d :: rest =>
    if a + 256 * b + 65536 * c + 16777216 * d ≤ rest.length ∧
        a + 256 * b + 65536 * c + 16777216 * d ≤ avail_out then
      { initStatus := Z_OK, status := Z_STREAM_END,
        out := rest.take (a + 256 * b + 65536 * c + 16777216 * d), endStatus := Z_OK }
    else
      { initStatus := Z_OK, status := -5, out := [], endStatus := -3 }
  | _ => { initStatus := Z_OK, status := -5, out := [], endStatus := -3 }

/-- The storing engine with a checksum that adds the bytes up. -/
def storeZlib : Zlib :=
  { deflate := storeDeflate, inflate := storeInflate, crc32Null := 0,
    crc32 := fun crc bytes => (crc + bytes.sum) % 4294967296 }

/-- A buffer with the bytes 0, 1, ..., 250, 0, 1, ... -/
def ramp : Mem := fun j => (j % 251).toNat

/-- A buffer of zero bytes. -/
def zeros : Mem := fun _ => 0

/-- A run-length engine for buffers of zero bytes: the stream is the input
length in four bytes; with fewer than four bytes of output space it reports
that it needs more output. -/
def runDeflate (_level : Int) (input : List Nat) (avail_out : Nat) : DeflateResult :=
  if 4 ≤ avail_out then
    { initStatus := Z_OK, status := Z_STREAM_END, out := le32 input.length, endStatus := Z_OK }
  else
    { initStatus := Z_OK, status := Z_OK, out := [], endStatus := -3 }

/-- The inverse of `runDeflate`: it reads the length and gives that many zero
bytes, ignoring what follows the four bytes. -/
def runInflate (input : List Nat) (avail_out : Nat) : InflateResult :=
  match input with
  | a :: b :: c :: d :: _ =>
    if a + 256 * b + 65536 * c + 16777216 * d ≤ avail_out then
      { initStatus := Z_OK, status := Z_STREAM_END,
        out := List.replicate (a + 256 * b + 65536 * c + 16777216 * d) 0, endStatus := Z_OK }
    else
      { initStatus := Z_OK, status := -5, out := [], endStatus := -3 }
  | _ => { initStatus := Z_OK, status := -5, out := [], endStatus := -3 }

/-- The run-length engine, with a checksum that adds the bytes up. -/
def runZlib : Zlib :=
  { deflate := runDeflate, inflate := runInflate, crc32Null := 0,
    crc32 := fun crc bytes => (crc + bytes.sum) % 4294967296 }

/-- An engine that pads: the stream is 65511 zero bytes whatever the input, and
its inflate side gives the empty sequence. -/
def padZlib : Zlib :=
  { deflate := fun _ _ _ =>
      { initStatus := Z_OK, status := Z_STREAM_END, out := List.replicate 65511 0,
        endStatus := Z_OK },
    inflate := fun _ _ =>
      { initStatus := Z_OK, status := Z_STREAM_END, out := [], endStatus := Z_OK },
    crc32Null := 0,
    crc32 := fun crc bytes => (crc + bytes.sum) % 4294967296 }

/-- An engine that copies: its inflate side gives back the input it is offered,
as far as the output space allows, and its deflate side does the same. -/
def echoZlib : Zlib :=
  { deflate := fun _ input avail_out =>
      { initStatus := Z_OK, status := Z_STREAM_END, out := input.take avail_out,
        endStatus := Z_OK },
    inflate := fun input avail_out =>
      { initStatus := Z_OK, status := Z_STREAM_END, out := input.take avail_out,
        endStatus := Z_OK },
    crc32Null := 0,
    crc32 := fun crc bytes => (crc + bytes.sum) % 4294967296 }

/-- An engine that fills: the stream is 65511 zero bytes whatever the input, or
as many as the output space allows when that is less. -/
def fillZlib : Zlib :=
  { deflate := fun _ _ avail_out =>
      { initStatus := Z_OK, status := Z_STREAM_END,
        out := List.replicate (min avail_out 65511) 0, endStatus := Z_OK },
    inflate := fun _ _ =>
      { initStatus := Z_OK, status := Z_STREAM_END, out := [], endStatus := Z_OK },
    crc32Null := 0,
    crc32 := fun crc bytes => (crc + bytes.sum) % 4294967296 }

/-- A block buffer whose payload, from offset 18 on, is the stream of the
storing engine for the two bytes 7, 9. -/
def twoByteStream : Mem := writeBytes zeros 18 [2, 0, 0, 0, 7, 9]

/-- A block buffer whose payload, from offset 18 on, is the stream of the
run-length engine for 4294967295 zero bytes. -/
def longRunStream : Mem := writeBytes zeros 18 [255, 255, 255, 255]

instance instDecidableEqExcept {ε α : Type} [DecidableEq ε] [DecidableEq α] :
    DecidableEq (Except ε α)
  | .ok a, .ok b => if h : a = b then isTrue (by rw [h]) else isFalse (fun h1 => h (by cases h1; rfl))
  | .error a, .error b =>
    if h : a = b then isTrue (by rw [h]) else isFalse (fun h1 => h (by cases h1; rfl))
  | .ok _, .error _ => isFalse (fun h1 => by cases h1)
  | .error _, .ok _ => isFalse (fun h1 => by cases h1)

/-! ## Machine-integer lemmas -/

theorem wrap32_eq_self {x : Int} (h1 : -2147483648 ≤ x) (h2 : x < 2147483648) :
    wrap32 x = x := by
  unfold wrap32; omega

theorem wrap32_lower (x : Int) : -2147483648 ≤ wrap32 x := by
  unfold wrap32; omega

theorem wrap32_upper (x : Int) : wrap32 x < 2147483648 := by
  unfold wrap32; omega

theorem toU32_natCast {n : Nat} (h : n < 4294967296) : toU32 (n : Int) = n := by
  unfold toU32; omega

theorem toU32_wrap32 (x : Int) : toU32 (wrap32 x) = toU32 x := by
  unfold toU32 wrap32; omega

theorem toU32_lt (x : Int) : toU32 x < 4294967296 := by
  unfold toU32; omega

theorem toU32_of_nonneg {x : Int} (h1 : 0 ≤ x) (h2 : x < 4294967296) :
    (toU32 x : Int) = x := by
  unfold toU32; omega

/-! ## Memory lemmas -/

@[simp] theorem Mem.store_apply (m : Mem) (i : Int) (v : Nat) (j : Int) :
    m.store i v j = if j = i then v else m j := rfl

@[simp] theorem Mem.set_apply (m : Mem) (i : Int) (v : Nat) (j : Int) :
    m.set i v j = if j = i then v % 256 else m j := rfl

@[simp] theorem readBytes_length (m : Mem) (off : Int) (n : Nat) :
    (readBytes m off n).length = n := by
  unfold readBytes
  rw [List.length_map, List.length_range]

theorem readBytes_getElem (m : Mem) (off : Int) (n k : Nat) (h : k < (readBytes m off n).length) :
    (readBytes m off n)[k] = m (off + (k : Int)) := by
  unfold readBytes
  rw [List.getElem_map, List.getElem_range]

theorem readBytes_congr {m1 m2 : Mem} {off1 off2 : Int} {n : Nat}
    (h : ∀ k : Nat, k < n → m1 (off1 + (k : Int)) = m2 (off2 + (k : Int))) :
    readBytes m1 off1 n = readBytes m2 off2 n := by
  apply List.ext_getElem
  · simp
  · intro k h1 h2
    rw [readBytes_getElem, readBytes_getElem]
    exact h k (by simpa using h1)

theorem readBytes_add (m : Mem) (off : Int) (a b : Nat) :
    readBytes m off (a + b) = readBytes m off a ++ readBytes m (off + (a : Int)) b := by
  apply List.ext_getElem
  · simp
  · intro k h1 h2
    rw [readBytes_getElem]
    by_cases hk : k < a
    · rw [List.getElem_append_left (by simpa using hk), readBytes_getElem]
    · rw [List.getElem_append_right (by simpa using hk), readBytes_getElem]
      simp only [readBytes_length]
      congr 1
      omega

theorem writeBytes_apply_in (m : Mem) (off : Int) (bs : List Nat) (k : Nat) (h : k < bs.length) :
    writeBytes m off bs (off + (k : Int)) = bs[k] := by
  unfold writeBytes
  have h1 : off ≤ off + (k : Int) ∧ off + (k : Int) < off + (bs.length : Int) := by omega
  rw [if_pos h1]
  have h2 : (off + (k : Int) - off).toNat = k := by omega
  rw [h2]
  simp [List.getD_eq_getElem?_getD, List.getElem?_eq_getElem h]

theorem writeBytes_apply_out (m : Mem) (off : Int) (bs : List Nat) (j : Int)
    (h : j < off ∨ off + (bs.length : Int) ≤ j) : writeBytes m off bs j = m j := by
  unfold writeBytes
  rw [if_neg (by omega)]

theorem readBytes_writeBytes (m : Mem) (off : Int) (bs : List Nat) :
    readBytes (writeBytes m off bs) off bs.length = bs := by
  apply List.ext_getElem
  · simp
  · intro k h1 h2
    rw [readBytes_getElem, writeBytes_apply_in]

theorem memcpy_succ (m : Mem) (dst src : Int) (n : Nat) :
    memcpy m dst src (n + 1)
      = (memcpy m dst src n).store (dst + (n : Int)) (memcpy m dst src n (src + (n : Int))) := by
  simp [memcpy, List.range_succ, List.foldl_append]

/-- When the source lies wholly after the destination, the forward copy moves
`n` bytes and changes nothing else. -/
theorem memcpy_apply (m : Mem) (dst src : Int) (n : Nat) (hsep : dst + (n : Int) ≤ src) (j : Int) :
    memcpy m dst src n j
      = if dst ≤ j ∧ j < dst + (n : Int) then m (src + (j - dst)) else m j := by
  induction n generalizing j with
  | zero =>
    have h0 : ¬ (dst ≤ j ∧ j < dst + ((0 : Nat) : Int)) := by omega
    rw [if_neg h0]
    rfl
  | succ n ih =>
    rw [memcpy_succ]
    have hsep1 : dst + (n : Int) ≤ src := by omega
    simp only [Mem.store_apply]
    rw [ih hsep1, ih hsep1]
    have h0 : ¬ (dst ≤ src + (n : Int) ∧ src + (n : Int) < dst + (n : Int)) := by omega
    rw [if_neg h0]
    by_cases hj : j = dst + (n : Int)
    · subst hj
      have h1 : dst ≤ dst + (n : Int) ∧ dst + (n : Int) < dst + ((n + 1 : Nat) : Int) := by omega
      rw [if_pos rfl, if_pos h1]
      congr 1
      omega
    · rw [if_neg hj]
      by_cases h2 : dst ≤ j ∧ j < dst + (n : Int)
      · have h3 : dst ≤ j ∧ j < dst + ((n + 1 : Nat) : Int) := by omega
        rw [if_pos h2, if_pos h3]
      · have h3 : ¬ (dst ≤ j ∧ j < dst + ((n + 1 : Nat) : Int)) := by omega
        rw [if_neg h2, if_neg h3]

theorem PackUnsignedInt_apply (b : Mem) (off : Int) (v : Nat) (j : Int) :
    PackUnsignedInt b off v j
      = if j = off + 3 then (v >>> 24) % 256
        else if j = off + 2 then (v >>> 16) % 256
        else if j = off + 1 then (v >>> 8) % 256
        else if j = off then v % 256 else b j := by
  simp [PackUnsignedInt]

theorem PackUnsignedShort_apply (b : Mem) (off : Int) (v : Nat) (j : Int) :
    PackUnsignedShort b off v j
      = if j = off + 1 then (v >>> 8) % 256
        else if j = off then v % 256 else b j := by
  simp [PackUnsignedShort]

/-! ## The retry loop -/

theorem loopMeasure_decreases (inputLength : Int) (h : ¬ wrap32 (inputLength - 1024) < 0) :
    loopMeasure (wrap32 (inputLength - 1024)) < loopMeasure inputLength := by
  unfold loopMeasure wrap32 at *
  split_ifs <;> omega

theorem fuel_retry (x : Int) (h : ¬ wrap32 (x - 1024) < 0) :
    loopMeasure (wrap32 (x - 1024)) / 1024 + 1 ≤ loopMeasure x / 1024 := by
  unfold loopMeasure wrap32 at *
  split_ifs <;> omega

/-- A retry takes 1024 off the number of bytes attempted, which was below
`2^31 + 1024`. -/
theorem retry_unsigned (x : Int) (h : ¬ wrap32 (x - 1024) < 0) :
    toU32 (wrap32 (x - 1024)) + 1024 = toU32 x ∧ toU32 x < 2147483648 + 1024 := by
  unfold toU32 wrap32 at *
  omega

/-- A retry from a non-negative `inputLength` in the range of `int` goes on
with the exact difference. -/
theorem retry_exact (x : Int) (h0 : 0 ≤ x) (h1 : x < 2147483648) :
    wrap32 (x - 1024) = x - 1024 := by
  unfold wrap32
  omega

/-- Any two allowances that cover the retries give the loop the same result. -/
theorem compressLoopFuel_indep (z : Zlib) (lvl : Int) (ub : Mem) (cap : Nat) :
    ∀ (f1 f2 : Nat) (buf : Mem) (x : Int), loopMeasure x / 1024 + 1 ≤ f1 →
      loopMeasure x / 1024 + 1 ≤ f2 →
      compressLoopFuel z lvl ub cap f1 buf x = compressLoopFuel z lvl ub cap f2 buf x := by
  intro f1
  induction f1 with
  | zero =>
    intro f2 buf x h
    omega
  | succ f1 ih =>
    intro f2 buf x h1 h2
    cases f2 with
    | zero => omega
    | succ f2 =>
      rw [compressLoopFuel, compressLoopFuel]
      simp only []
      split_ifs with c1 c2 c3 c4 c5 c6
      all_goals first
        | rfl
        | (have hf := fuel_retry x c4
           rw [ih f2 _ _ (by omega) (by omega)])

/-- The loop equation: `compressLoop` is one pass through the body of the
`while(1)` loop followed, on a retry, by `compressLoop` again; the fuel never
runs out. -/
theorem compressLoop_unfold (z : Zlib) (level : Int) (uncompressedBlock : Mem) (bufferSize : Nat)
    (buffer : Mem) (inputLength : Int) :
    compressLoop z level uncompressedBlock bufferSize buffer inputLength
      = (let r := z.deflate level (readBytes uncompressedBlock 0 (toU32 inputLength))
            (availOut bufferSize)
         if r.initStatus ≠ Z_OK then
           { ret := .error .initFailed, buffer := buffer, attempts := [inputLength] }
         else
           let buffer1 := writeBytes buffer BLOCK_HEADER_LENGTH r.out
           if r.status ≠ Z_STREAM_END then
             if r.status = Z_OK then
               if wrap32 (inputLength - 1024) < 0 then
                 { ret := .error .reductionFailed, buffer := buffer1, attempts := [inputLength] }
               else
                 let rest := compressLoop z level uncompressedBlock bufferSize buffer1
                   (wrap32 (inputLength - 1024))
                 { rest with attempts := inputLength :: rest.attempts }
             else { ret := .error .deflateFailed, buffer := buffer1, attempts := [inputLength] }
           else if r.endStatus ≠ Z_OK then
             { ret := .error .endFailed, buffer := buffer1, attempts := [inputLength] }
           else
             let compressedLength :=
               wrap32 (wrap32 (r.out.length : Int) + (BLOCK_HEADER_LENGTH + BLOCK_FOOTER_LENGTH))
             if compressedLength > MAX_BLOCK_SIZE then
               { ret := .error .overflow, buffer := buffer1, attempts := [inputLength] }
             else
               { ret := .ok (inputLength, compressedLength), buffer := buffer1,
                 attempts := [inputLength] }) := by
  unfold compressLoop
  rw [compressLoopFuel]
  simp only []
  split_ifs with h1 h2 h3 h4 h5 h6
  all_goals first
    | rfl
    | (have hf := fuel_retry inputLength h4
       rw [compressLoopFuel_indep z level uncompressedBlock bufferSize
         (loopMeasure inputLength / 1024)
         (loopMeasure (wrap32 (inputLength - 1024)) / 1024 + 1) _ _ (by omega) (le_refl _)])

/-- One unfolding of the loop when the attempt terminates the stream. -/
theorem compressLoop_stream_end (z : Zlib) (lvl : Int) (ub : Mem) (cap : Nat) (buf : Mem) (x : Int)
    (h1 : (z.deflate lvl (readBytes ub 0 (toU32 x)) (availOut cap)).initStatus = Z_OK)
    (h2 : (z.deflate lvl (readBytes ub 0 (toU32 x)) (availOut cap)).status = Z_STREAM_END)
    (h3 : (z.deflate lvl (readBytes ub 0 (toU32 x)) (availOut cap)).endStatus = Z_OK)
    (h4 : wrap32 (wrap32
      ((z.deflate lvl (readBytes ub 0 (toU32 x)) (availOut cap)).out.length : Int) + 26)
      ≤ 65536) :
    compressLoop z lvl ub cap buf x
      = { ret := .ok (x, wrap32 (wrap32
            ((z.deflate lvl (readBytes ub 0 (toU32 x)) (availOut cap)).out.length : Int) + 26)),
          buffer := writeBytes buf 18 (z.deflate lvl (readBytes ub 0 (toU32 x)) (availOut cap)).out,
          attempts := [x] } := by
  rw [compressLoop_unfold]
  simp only [h1, h2, h3, ne_eq, not_true_eq_false, if_false, BLOCK_HEADER_LENGTH,
    BLOCK_FOOTER_LENGTH, MAX_BLOCK_SIZE]
  norm_num
  intro h
  omega

/-- One unfolding of the loop when the attempt needs more output space. -/
theorem compressLoop_retry (z : Zlib) (lvl : Int) (ub : Mem) (cap : Nat) (buf : Mem) (x : Int)
    (h1 : (z.deflate lvl (readBytes ub 0 (toU32 x)) (availOut cap)).initStatus = Z_OK)
    (h2 : (z.deflate lvl (readBytes ub 0 (toU32 x)) (availOut cap)).status = Z_OK) :
    compressLoop z lvl ub cap buf x
      = if wrap32 (x - 1024) < 0 then
          { ret := .error .reductionFailed,
            buffer := writeBytes buf 18 (z.deflate lvl (readBytes ub 0 (toU32 x)) (availOut cap)).out,
            attempts := [x] }
        else
          { compressLoop z lvl ub cap
              (writeBytes buf 18 (z.deflate lvl (readBytes ub 0 (toU32 x)) (availOut cap)).out)
              (wrap32 (x - 1024)) with
            attempts := x :: (compressLoop z lvl ub cap
              (writeBytes buf 18 (z.deflate lvl (readBytes ub 0 (toU32 x)) (availOut cap)).out)
              (wrap32 (x - 1024))).attempts } := by
  rw [compressLoop_unfold]
  simp only [h1, h2, ne_eq, not_true_eq_false, if_false, BLOCK_HEADER_LENGTH, Z_OK, Z_STREAM_END]
  norm_num

/-- The outcome of the loop when the attempt needs more output and a retry is
possible. -/
theorem compressLoop_retry_ret (z : Zlib) (lvl : Int) (ub : Mem) (cap : Nat) (buf : Mem) (x : Int)
    (h1 : (z.deflate lvl (readBytes ub 0 (toU32 x)) (availOut cap)).initStatus = Z_OK)
    (h2 : (z.deflate lvl (readBytes ub 0 (toU32 x)) (availOut cap)).status = Z_OK)
    (h3 : ¬ wrap32 (x - 1024) < 0) :
    (compressLoop z lvl ub cap buf x).ret
      = (compressLoop z lvl ub cap
          (writeBytes buf 18 (z.deflate lvl (readBytes ub 0 (toU32 x)) (availOut cap)).out)
          (wrap32 (x - 1024))).ret := by
  rw [compressLoop_retry z lvl ub cap buf x h1 h2, if_neg h3]

/-- No attempt touches the eighteen header bytes. -/
theorem compressLoop_buffer_low (z : Zlib) (lvl : Int) (ub : Mem) (cap : Nat) (j : Int)
    (hj : j < 18) :
    ∀ (n : Nat) (buf : Mem) (x : Int), loopMeasure x = n →
      (compressLoop z lvl ub cap buf x).buffer j = buf j := by
  intro n
  induction n using Nat.strong_induction_on with
  | _ n ih =>
    intro buf x hx
    rw [compressLoop_unfold]
    simp only []
    split_ifs with h1 h2 h3 h4 h5 h6
    · rfl
    · exact writeBytes_apply_out _ _ _ _ (Or.inl hj)
    · show (compressLoop z lvl ub cap _ (wrap32 (x - 1024))).buffer j = buf j
      rw [ih _ (by rw [← hx]; exact loopMeasure_decreases x h4) _ _ rfl]
      exact writeBytes_apply_out _ _ _ _ (Or.inl hj)
    · exact writeBytes_apply_out _ _ _ _ (Or.inl hj)
    · exact writeBytes_apply_out _ _ _ _ (Or.inl hj)
    · exact writeBytes_apply_out _ _ _ _ (Or.inl hj)
    · exact writeBytes_apply_out _ _ _ _ (Or.inl hj)

/-- What a loop that ends with `inputLength = c` and `compressedLength = N`
guarantees: `c` is the entry value or, after `k ≥ 1` retries, a non-negative
value with `1024 k` bytes fewer than at entry, where fewer than `2^31 + 1024`
bytes were attempted; the attempt on `c` is the final one; the buffer holds
its payload from offset 18 on, over a buffer whose header bytes are untouched. -/
theorem compressLoop_ok (z : Zlib) (lvl : Int) (ub : Mem) (cap : Nat) :
    ∀ (n : Nat) (buf : Mem) (x c N : Int), loopMeasure x = n →
      (compressLoop z lvl ub cap buf x).ret = .ok (c, N) →
      (c = x ∨ (0 ≤ c ∧ c < 2147483648 ∧
        ∃ k : Nat, 1 ≤ k ∧ toU32 c + 1024 * k = toU32 x ∧ toU32 x < 2147483648 + 1024)) ∧
      FinalAttempt z lvl ub cap (toU32 c) N ∧
      (compressLoop z lvl ub cap buf x).attempts.getLast? = some c ∧
      ∃ prev : Mem, (∀ j : Int, j < 18 → prev j = buf j) ∧
        (compressLoop z lvl ub cap buf x).buffer
          = writeBytes prev 18 (z.deflate lvl (readBytes ub 0 (toU32 c)) (availOut cap)).out := by
  intro n
  induction n using Nat.strong_induction_on with
  | _ n ih =>
    intro buf x c N hx hret
    rw [compressLoop_unfold] at hret ⊢
    simp only [] at hret ⊢
    split_ifs at hret ⊢ with h1 h2 h3 h4 h5 h6
    · have hdec : loopMeasure (wrap32 (x - 1024)) < n := by
        rw [← hx]; exact loopMeasure_decreases x h4
      obtain ⟨hu1, hu2⟩ := retry_unsigned x h4
      have hup := wrap32_upper (x - 1024)
      obtain ⟨hc, hfin, hatt, prev, hprev, hbuf⟩ :=
        ih _ hdec
          (writeBytes buf BLOCK_HEADER_LENGTH
            (z.deflate lvl (readBytes ub 0 (toU32 x)) (availOut cap)).out)
          (wrap32 (x - 1024)) c N rfl hret
      refine ⟨?_, hfin, ?_, prev, ?_, hbuf⟩
      · right
        rcases hc with hc | ⟨hc0, hc1, k, hk, hck, _⟩
        · rw [hc]
          exact ⟨not_lt.mp h4, hup, 1, le_refl _, by omega, hu2⟩
        · exact ⟨hc0, hc1, k + 1, by omega, by omega, hu2⟩
      · show (x :: (compressLoop z lvl ub cap _ (wrap32 (x - 1024))).attempts).getLast? = some c
        rw [List.getLast?_cons, hatt]
        rfl
      · intro j hj
        rw [hprev j hj]
        exact writeBytes_apply_out _ _ _ _ (Or.inl hj)
    · simp only [Except.ok.injEq, Prod.mk.injEq] at hret
      obtain ⟨hcx, hN⟩ := hret
      subst hcx
      refine ⟨Or.inl rfl, ⟨?_, ?_, ?_, ?_, ?_⟩, rfl, buf, fun _ _ => rfl, rfl⟩
      · simpa using h1
      · simpa using h2
      · simpa using h5
      · rw [← hN]; rfl
      · rw [← hN]
        exact not_lt.mp h6

/-! ## Successful calls -/

theorem remaining_first {L : Nat} (hL : L < 4294967296) :
    wrap32 ((toU32 ((L : Int) - wrap32 (L : Int)) : Nat) : Int) = 0 ∧
    toU32 (wrap32 (L : Int)) = L := by
  unfold wrap32 toU32
  omega

/-- The `int` that `remaining` becomes after `k ≥ 1` retries: `1024 k` when that
is below 2^31, and -2^31 otherwise, which is when `1024 k = 2^31`. -/
theorem remaining_shrunk {L k : Nat} {c : Int} (hc0 : 0 ≤ c) (hc1 : c < 2147483648)
    (hck : toU32 c + 1024 * k = L) (hk : 1 ≤ k) (hL : L < 2147483648 + 1024) :
    (toU32 c : Int) = c ∧
    (1024 * k < 2147483648 →
      wrap32 ((toU32 ((L : Int) - c) : Nat) : Int) = 1024 * (k : Int) ∧
      toU32 (1024 * (k : Int)) = 1024 * k) ∧
    (¬ 1024 * k < 2147483648 →
      wrap32 ((toU32 ((L : Int) - c) : Nat) : Int) = -2147483648 ∧
      toU32 (-2147483648) = 1024 * k) := by
  unfold wrap32 toU32 at *
  omega

/-- The tail of the call when the loop has failed. -/
theorem finishBlock_error (z : Zlib) (ub : Mem) (L : Nat) (l : LoopResult) (e : CompressError)
    (hl : l.ret = .error e) :
    finishBlock z ub L l
      = { ret := .error e, uncompressedBlock := ub, uncompressLen := L,
          compressedBlock := l.buffer, attempts := l.attempts, shift := none } := by
  unfold finishBlock
  simp only [hl]

/-- The tail of the call when the loop has ended with `inputLength = c` and
`compressedLength = N`. -/
theorem finishBlock_ok (z : Zlib) (ub : Mem) (L : Nat) (l : LoopResult) (c N : Int)
    (hl : l.ret = .ok (c, N)) :
    finishBlock z ub L l
      = if wrap32 ((toU32 ((L : Int) - c) : Nat) : Int) > 0 then
          if wrap32 ((toU32 ((L : Int) - c) : Nat) : Int) > c then
            { ret := .error .remainderTooLarge, uncompressedBlock := ub, uncompressLen := L,
              compressedBlock := packBlock z ub l.buffer (toU32 c) N, attempts := l.attempts,
              shift := none }
          else
            { ret := .ok N,
              uncompressedBlock :=
                memcpy ub 0 c (wrap32 ((toU32 ((L : Int) - c) : Nat) : Int)).toNat,
              uncompressLen := toU32 (wrap32 ((toU32 ((L : Int) - c) : Nat) : Int)),
              compressedBlock := packBlock z ub l.buffer (toU32 c) N, attempts := l.attempts,
              shift := some (c, wrap32 ((toU32 ((L : Int) - c) : Nat) : Int)) }
        else
          { ret := .ok N, uncompressedBlock := ub,
            uncompressLen := toU32 (wrap32 ((toU32 ((L : Int) - c) : Nat) : Int)),
            compressedBlock := packBlock z ub l.buffer (toU32 c) N, attempts := l.attempts,
            shift := none } := by
  unfold finishBlock
  simp only [hl]
  rfl

/-- The tail of the call when the loop has ended on its first attempt. -/
theorem finishBlock_first (z : Zlib) (ub : Mem) (L : Nat) (l : LoopResult) (N : Int)
    (hL : L < 4294967296) (hl : l.ret = .ok (wrap32 (L : Int), N)) :
    finishBlock z ub L l
      = { ret := .ok N, uncompressedBlock := ub, uncompressLen := 0,
          compressedBlock := packBlock z ub l.buffer L N, attempts := l.attempts,
          shift := none } := by
  obtain ⟨hr, hu⟩ := remaining_first hL
  have h00 : ¬ ((0 : Int) > 0) := by omega
  have hz : toU32 0 = 0 := by unfold toU32; omega
  rw [finishBlock_ok z ub L l _ N hl, hr, if_neg h00, hu, hz]

/-- The tail of the call when the loop has ended after `k ≥ 1` retries with a
remainder `1024 k` below 2^31. -/
theorem finishBlock_shrunk (z : Zlib) (ub : Mem) (L : Nat) (l : LoopResult) (ci N : Int) (k : Nat)
    (hl : l.ret = .ok (ci, N)) (hc0 : 0 ≤ ci) (hc1 : ci < 2147483648)
    (hck : toU32 ci + 1024 * k = L) (hk : 1 ≤ k) (hL : L < 2147483648 + 1024)
    (hrem : 1024 * k < 2147483648) :
    finishBlock z ub L l
      = if 1024 * (k : Int) > ci then
          { ret := .error .remainderTooLarge, uncompressedBlock := ub, uncompressLen := L,
            compressedBlock := packBlock z ub l.buffer (toU32 ci) N, attempts := l.attempts,
            shift := none }
        else
          { ret := .ok N, uncompressedBlock := memcpy ub 0 (toU32 ci : Nat) (1024 * k),
            uncompressLen := 1024 * k,
            compressedBlock := packBlock z ub l.buffer (toU32 ci) N, attempts := l.attempts,
            shift := some ((toU32 ci : Nat), 1024 * (k : Int)) } := by
  obtain ⟨hu, hlow, _⟩ := remaining_shrunk hc0 hc1 hck hk hL
  obtain ⟨hr, hu2⟩ := hlow hrem
  have hpos : (1024 * (k : Int)) > 0 := by omega
  have hcnt : (1024 * (k : Int)).toNat = 1024 * k := by omega
  rw [finishBlock_ok z ub L l ci N hl, hr, if_pos hpos, hu2, hcnt, hu]

/-- The tail of the call when the loop has ended after retries that took 2^31
bytes off: the remainder does not fit the `int` it is assigned to, the test of
line 98 fails, and nothing is checked or copied. -/
theorem finishBlock_wrapped (z : Zlib) (ub : Mem) (L : Nat) (l : LoopResult) (ci N : Int) (k : Nat)
    (hl : l.ret = .ok (ci, N)) (hc0 : 0 ≤ ci) (hc1 : ci < 2147483648)
    (hck : toU32 ci + 1024 * k = L) (hk : 1 ≤ k) (hL : L < 2147483648 + 1024)
    (hrem : ¬ 1024 * k < 2147483648) :
    finishBlock z ub L l
      = { ret := .ok N, uncompressedBlock := ub, uncompressLen := 1024 * k,
          compressedBlock := packBlock z ub l.buffer (toU32 ci) N, attempts := l.attempts,
          shift := none } := by
  obtain ⟨_, _, hhigh⟩ := remaining_shrunk hc0 hc1 hck hk hL
  obtain ⟨hr, hu2⟩ := hhigh hrem
  have hneg : ¬ ((-2147483648 : Int) > 0) := by omega
  rw [finishBlock_ok z ub L l ci N hl, hr, if_neg hneg, hu2]

theorem CompressBlock_eq (z : Zlib) (ub : Mem) (L : Nat) (cb : Mem) (cap : Nat) (lvl : Int) :
    CompressBlock z ub L cb cap lvl
      = finishBlock z ub L (compressLoop z lvl ub cap (initHeader cb) (wrap32 (L : Int))) := rfl

/-- A call returns a block length only when the loop has ended with one. -/
theorem finishBlock_ret_ok (z : Zlib) (ub : Mem) (L : Nat) (l : LoopResult) (N : Int)
    (h : (finishBlock z ub L l).ret = .ok N) : ∃ ci : Int, l.ret = .ok (ci, N) := by
  cases hl : l.ret with
  | error e => rw [finishBlock_error z ub L l e hl] at h; simp at h
  | ok p =>
    obtain ⟨ci, Ni⟩ := p
    rw [finishBlock_ok z ub L l ci Ni hl] at h
    refine ⟨ci, ?_⟩
    split_ifs at h <;> simp at h
    · rw [h]
    · rw [h]

/-- A successful call consumed either all `L` bytes or, after `k ≥ 1` retries,
`c = L - 1024 k` bytes, with `L < 2^31 + 1024`; the attempt on `c` bytes is
final, the output buffer is the packed buffer of that attempt and the length
written back is `L - c`. When the remainder `L - c` is below 2^31 it is at most
`c` and has been copied to the front; a remainder of 2^31 (which takes
`L ≥ 2^31`) is not copied. -/
theorem CompressBlock_success (z : Zlib) (ub : Mem) (L : Nat) (cb : Mem) (cap : Nat) (lvl : Int)
    (N : Int) (hL : L < 4294967296) (h : (CompressBlock z ub L cb cap lvl).ret = .ok N) :
    ∃ (c : Nat) (prev : Mem),
      (c = L ∨ ∃ k : Nat, 1 ≤ k ∧ c + 1024 * k = L ∧ L < 2147483648 + 1024 ∧
        (1024 * k < 2147483648 → 1024 * k ≤ c)) ∧
      FinalAttempt z lvl ub cap c N ∧
      (CompressBlock z ub L cb cap lvl).attempts.getLast?.map toU32 = some c ∧
      (∀ j : Int, j < 18 → prev j = initHeader cb j) ∧
      (CompressBlock z ub L cb cap lvl).compressedBlock
        = packBlock z ub
            (writeBytes prev 18 (z.deflate lvl (readBytes ub 0 c) (availOut cap)).out) c N ∧
      (CompressBlock z ub L cb cap lvl).uncompressLen = L - c ∧
      (CompressBlock z ub L cb cap lvl).uncompressedBlock
        = (if c = L ∨ ¬ (L - c < 2147483648) then ub else memcpy ub 0 c (L - c)) ∧
      (CompressBlock z ub L cb cap lvl).shift
        = (if c = L ∨ ¬ (L - c < 2147483648) then none
           else some ((c : Int), ((L - c : Nat) : Int))) := by
  rw [CompressBlock_eq] at h ⊢
  obtain ⟨ci, hl⟩ := finishBlock_ret_ok z ub L _ N h
  obtain ⟨hc, hfin, hatt, prev, hprev, hbuf⟩ := compressLoop_ok z lvl ub cap _ _ _ _ _ rfl hl
  obtain ⟨hr, hu⟩ := remaining_first hL
  rcases hc with hc | ⟨hc0, hc1, k, hk, hck, hL31⟩
  · rw [hc] at hl hfin hbuf hatt
    rw [hu] at hfin hbuf
    rw [finishBlock_first z ub L _ N hL hl]
    refine ⟨L, prev, Or.inl rfl, hfin, ?_, hprev, ?_, ?_, ?_, ?_⟩
    · show Option.map toU32 (List.getLast? _) = some L
      rw [hatt, Option.map_some', hu]
    · show packBlock z ub _ L N = _
      rw [hbuf]
    · show 0 = L - L
      omega
    · rw [if_pos (Or.inl (Eq.refl L))]
    · rw [if_pos (Or.inl (Eq.refl L))]
  · rw [hu] at hck hL31
    obtain ⟨hcu, _, _⟩ := remaining_shrunk hc0 hc1 hck hk hL31
    by_cases hrem : 1024 * k < 2147483648
    · rw [finishBlock_shrunk z ub L _ ci N k hl hc0 hc1 hck hk hL31 hrem] at h ⊢
      by_cases hgt : 1024 * (k : Int) > ci
      · rw [if_pos hgt] at h; simp at h
      · rw [if_neg hgt]
        have hne : ¬ (toU32 ci = L ∨ ¬ (L - toU32 ci < 2147483648)) := by omega
        have hlen : 1024 * k = L - toU32 ci := by omega
        have hlenI : 1024 * (k : Int) = ((L - toU32 ci : Nat) : Int) := by omega
        refine ⟨toU32 ci, prev, Or.inr ⟨k, hk, hck, hL31, fun _ => by omega⟩, hfin, ?_, hprev,
          ?_, hlen, ?_, ?_⟩
        · show Option.map toU32 (List.getLast? _) = some (toU32 ci)
          rw [hatt, Option.map_some']
        · show packBlock z ub _ (toU32 ci) N = _
          rw [hbuf]
        · rw [if_neg hne]
          show memcpy ub 0 (toU32 ci : Nat) (1024 * k) = _
          rw [hlen]
        · rw [if_neg hne]
          show some (((toU32 ci : Nat) : Int), 1024 * (k : Int)) = _
          rw [hlenI]
    · rw [finishBlock_wrapped z ub L _ ci N k hl hc0 hc1 hck hk hL31 hrem]
      have hpos : toU32 ci = L ∨ ¬ (L - toU32 ci < 2147483648) := by omega
      have hlen : 1024 * k = L - toU32 ci := by omega
      refine ⟨toU32 ci, prev, Or.inr ⟨k, hk, hck, hL31, fun h5 => absurd h5 hrem⟩, hfin, ?_,
        hprev, ?_, hlen, ?_, ?_⟩
      · show Option.map toU32 (List.getLast? _) = some (toU32 ci)
        rw [hatt, Option.map_some']
      · show packBlock z ub _ (toU32 ci) N = _
        rw [hbuf]
      · rw [if_pos hpos]
      · rw [if_pos hpos]

/-! ## Bytes of the packed integers -/

theorem PackUnsignedInt_byte (b : Mem) (off : Int) (v : Nat) (i : Nat) (hi : i < 4) :
    PackUnsignedInt b off v (off + (i : Int)) = (v / 256 ^ i) % 256 := by
  rw [PackUnsignedInt_apply]
  simp only [Nat.shiftRight_eq_div_pow]
  interval_cases i
  · rw [if_neg (by omega), if_neg (by omega), if_neg (by omega), if_pos (by omega)]
    norm_num
  · rw [if_neg (by omega), if_neg (by omega), if_pos (by omega)]
    norm_num
  · rw [if_neg (by omega), if_pos (by omega)]
    norm_num
  · rw [if_pos (by omega)]
    norm_num

theorem PackUnsignedInt_other (b : Mem) (off : Int) (v : Nat) (j : Int)
    (hj : j < off ∨ off + 4 ≤ j) : PackUnsignedInt b off v j = b j := by
  rw [PackUnsignedInt_apply]
  rw [if_neg (by omega), if_neg (by omega), if_neg (by omega), if_neg (by omega)]

theorem PackUnsignedShort_byte (b : Mem) (off : Int) (v : Nat) (i : Nat) (hi : i < 2) :
    PackUnsignedShort b off v (off + (i : Int)) = (v / 256 ^ i) % 256 := by
  rw [PackUnsignedShort_apply]
  simp only [Nat.shiftRight_eq_div_pow]
  interval_cases i
  · rw [if_neg (by omega), if_pos (by omega)]
    norm_num
  · rw [if_pos (by omega)]
    norm_num

theorem PackUnsignedShort_other (b : Mem) (off : Int) (v : Nat) (j : Int)
    (hj : j < off ∨ off + 2 ≤ j) : PackUnsignedShort b off v j = b j := by
  rw [PackUnsignedShort_apply]
  rw [if_neg (by omega), if_neg (by omega)]

/-- C5. `PackUnsignedInt` stores the four bytes `(v >> 8 i) mod 256` of a 32-bit
value at positions `i = 0, 1, 2, 3` and `PackUnsignedShort` stores `w mod 256`
and `w >> 8` of a 16-bit value at positions 0 and 1; the stored bytes, read as
the sum of `byte i * 256 ^ i`, give the value back, and no other position of the
buffer changes. -/
theorem C5_pack_little_endian (buffer : Mem) (off : Int) (v w : Nat)
    (hv : v < 4294967296) (hw : w < 65536) :
    (∀ i : Nat, i < 4 → PackUnsignedInt buffer off v (off + (i : Int)) = (v >>> (8 * i)) % 256) ∧
    (PackUnsignedInt buffer off v off + 256 * PackUnsignedInt buffer off v (off + 1)
      + 65536 * PackUnsignedInt buffer off v (off + 2)
      + 16777216 * PackUnsignedInt buffer off v (off + 3) = v) ∧
    (∀ j : Int, (j < off ∨ off + 4 ≤ j) → PackUnsignedInt buffer off v j = buffer j) ∧
    PackUnsignedShort buffer off w off = w % 256 ∧
    PackUnsignedShort buffer off w (off + 1) = w >>> 8 ∧
    (PackUnsignedShort buffer off w off + 256 * PackUnsignedShort buffer off w (off + 1) = w) ∧
    (∀ j : Int, (j < off ∨ off + 2 ≤ j) → PackUnsignedShort buffer off w j = buffer j) := by
  have h0 := PackUnsignedInt_byte buffer off v 0 (by omega)
  have h1 := PackUnsignedInt_byte buffer off v 1 (by omega)
  have h2 := PackUnsignedInt_byte buffer off v 2 (by omega)
  have h3 := PackUnsignedInt_byte buffer off v 3 (by omega)
  have s0 := PackUnsignedShort_byte buffer off w 0 (by omega)
  have s1 := PackUnsignedShort_byte buffer off w 1 (by omega)
  norm_num at h0 h1 h2 h3 s0 s1
  refine ⟨?_, ?_, PackUnsignedInt_other buffer off v, ?_, ?_, ?_, PackUnsignedShort_other buffer off w⟩
  · intro i hi
    rw [PackUnsignedInt_byte buffer off v i hi, Nat.shiftRight_eq_div_pow, pow_mul]
    norm_num
  · rw [h0, h1, h2, h3]
    omega
  · exact s0
  · rw [s1, Nat.shiftRight_eq_div_pow]
    omega
  · rw [s0, s1]
    omega

/-- C5 at the value `0x12345678` and the short `0xABCD`, packed at offset 5 of
an all-zero buffer. -/
theorem C5_pack_little_endian_witness :
    (∀ i : Nat, i < 4 →
      PackUnsignedInt (fun _ => 0) 5 305419896 (5 + (i : Int)) = (305419896 >>> (8 * i)) % 256) ∧
    (PackUnsignedInt (fun _ => 0) 5 305419896 5 + 256 * PackUnsignedInt (fun _ => 0) 5 305419896 (5 + 1)
      + 65536 * PackUnsignedInt (fun _ => 0) 5 305419896 (5 + 2)
      + 16777216 * PackUnsignedInt (fun _ => 0) 5 305419896 (5 + 3) = 305419896) ∧
    (∀ j : Int, (j < 5 ∨ 5 + 4 ≤ j) → PackUnsignedInt (fun _ => 0) 5 305419896 j = (fun _ => 0) j) ∧
    PackUnsignedShort (fun _ => 0) 5 43981 5 = 43981 % 256 ∧
    PackUnsignedShort (fun _ => 0) 5 43981 (5 + 1) = 43981 >>> 8 ∧
    (PackUnsignedShort (fun _ => 0) 5 43981 5 + 256 * PackUnsignedShort (fun _ => 0) 5 43981 (5 + 1)
      = 43981) ∧
    (∀ j : Int, (j < 5 ∨ 5 + 2 ≤ j) → PackUnsignedShort (fun _ => 0) 5 43981 j = (fun _ => 0) j) :=
  C5_pack_little_endian (fun _ => 0) 5 305419896 43981 (by decide) (by decide)

/-! ## Bytes of a block -/

theorem initHeader_bytes (cb : Mem) :
    readBytes (initHeader cb) 0 16 = [31, 139, 8, 4, 0, 0, 0, 0, 0, 255, 6, 0, 66, 67, 2, 0] := by
  apply List.ext_getElem
  · simp
  · intro k h1 h2
    rw [readBytes_getElem]
    simp only [readBytes_length] at h1
    interval_cases k <;>
      simp [initHeader, memset, GZIP_ID1, GZIP_ID2, CM_DEFLATE, FLG_FEXTRA, OS_UNKNOWN,
        BGZF_XLEN, BGZF_ID1, BGZF_ID2, BGZF_LEN]

theorem packBlock_low (z : Zlib) (ub buf : Mem) (c : Nat) (N : Int) (hN : 26 ≤ N) (j : Int)
    (hj : j < 16) : packBlock z ub buf c N j = buf j := by
  unfold packBlock
  rw [PackUnsignedInt_other _ _ _ _ (by omega), PackUnsignedInt_other _ _ _ _ (by omega),
    PackUnsignedShort_other _ _ _ _ (by omega)]

theorem packBlock_size (z : Zlib) (ub buf : Mem) (c : Nat) (N : Int) (hN : 26 ≤ N) (i : Nat)
    (hi : i < 2) : packBlock z ub buf c N (16 + (i : Int)) = (toU16 (N - 1) / 256 ^ i) % 256 := by
  unfold packBlock
  rw [PackUnsignedInt_other _ _ _ _ (by omega), PackUnsignedInt_other _ _ _ _ (by omega),
    PackUnsignedShort_byte _ _ _ _ hi]

theorem packBlock_payload (z : Zlib) (ub buf : Mem) (c : Nat) (N : Int) (j : Int)
    (h1 : 18 ≤ j) (h2 : j < N - 8) : packBlock z ub buf c N j = buf j := by
  unfold packBlock
  rw [PackUnsignedInt_other _ _ _ _ (by omega), PackUnsignedInt_other _ _ _ _ (by omega),
    PackUnsignedShort_other _ _ _ _ (by omega)]

theorem byte_of_mod (a i : Nat) (hi : i < 4) :
    (a % 4294967296 / 256 ^ i) % 256 = (a / 256 ^ i) % 256 := by
  interval_cases i <;> omega

theorem packBlock_crc (z : Zlib) (ub buf : Mem) (c : Nat) (N : Int) (i : Nat) (hi : i < 4) :
    packBlock z ub buf c N (N - 8 + (i : Int))
      = (z.crc32 z.crc32Null (readBytes ub 0 c) / 256 ^ i) % 256 := by
  unfold packBlock
  rw [PackUnsignedInt_other _ _ _ _ (by omega), PackUnsignedInt_byte _ _ _ _ hi,
    byte_of_mod _ _ hi]

theorem packBlock_isize (z : Zlib) (ub buf : Mem) (c : Nat) (N : Int) (i : Nat) (hi : i < 4) :
    packBlock z ub buf c N (N - 4 + (i : Int)) = (c / 256 ^ i) % 256 := by
  unfold packBlock
  rw [PackUnsignedInt_byte _ _ _ _ hi]

/-! ## The storing engine on 2048 bytes with room for 1024 -/

theorem storeDeflate_fits (lvl : Int) (input : List Nat) (avail : Nat)
    (h : input.length + 4 ≤ avail) :
    storeZlib.deflate lvl input avail
      = { initStatus := Z_OK, status := Z_STREAM_END, out := le32 input.length ++ input,
          endStatus := Z_OK } := by
  show storeDeflate lvl input avail = _
  unfold storeDeflate
  rw [if_pos h]

theorem storeDeflate_full (lvl : Int) (input : List Nat) (avail : Nat)
    (h : ¬ input.length + 4 ≤ avail) :
    storeZlib.deflate lvl input avail
      = { initStatus := Z_OK, status := Z_OK, out := [], endStatus := -3 } := by
  show storeDeflate lvl input avail = _
  unfold storeDeflate
  rw [if_neg h]

theorem le32_length (n : Nat) : (le32 n).length = 4 := rfl

/-- The space the engine is offered at an output capacity of 1054. -/
theorem availOut_1054 : availOut 1054 = 1028 := by decide

/-- The storing engine with room for 1024 bytes, on more than that. -/
theorem storeFull (ub : Mem) (x : Int) (h0 : 1024 < toU32 x) :
    storeZlib.deflate 6 (readBytes ub 0 (toU32 x)) (availOut 1054)
      = { initStatus := Z_OK, status := Z_OK, out := [], endStatus := -3 } :=
  storeDeflate_full _ _ _ (by rw [readBytes_length, availOut_1054]; omega)

/-- The storing engine with room for 1024 bytes, on at most that. -/
theorem storeFits (ub : Mem) (x : Int) (h0 : toU32 x ≤ 1024) :
    storeZlib.deflate 6 (readBytes ub 0 (toU32 x)) (availOut 1054)
      = { initStatus := Z_OK, status := Z_STREAM_END,
          out := le32 (toU32 x) ++ readBytes ub 0 (toU32 x), endStatus := Z_OK } := by
  have h := storeDeflate_fits 6 (readBytes ub 0 (toU32 x)) (availOut 1054)
    (by rw [readBytes_length, availOut_1054]; omega)
  rw [readBytes_length] at h
  exact h

theorem store_block_len (n : Nat) (x : Int) (hn : (n : Int) = x) (h1 : x ≤ 1024) :
    wrap32 (wrap32 ((4 + n : Nat) : Int) + 26) = x + 30 := by
  unfold wrap32
  omega

/-- The loop of the storing engine, with room for 1024 bytes, entered with at
most 1024 bytes: one attempt, and a block of 30 bytes more. -/
theorem storeLoop_fits (ub buf : Mem) (x : Int) (h0 : 0 ≤ x) (h1 : x ≤ 1024) :
    compressLoop storeZlib 6 ub 1054 buf x
      = { ret := .ok (x, x + 30),
          buffer := writeBytes buf 18 (le32 (toU32 x) ++ readBytes ub 0 (toU32 x)),
          attempts := [x] } := by
  have hu : (toU32 x : Int) = x := toU32_of_nonneg h0 (by omega)
  have hf := storeFits ub x (by omega)
  have hlen : wrap32 (wrap32 (((le32 (toU32 x) ++ readBytes ub 0 (toU32 x)).length : Nat) : Int)
      + 26) = x + 30 := by
    rw [List.length_append, le32_length, readBytes_length]
    exact store_block_len _ x hu h1
  rw [compressLoop_stream_end _ _ _ _ _ _ (by rw [hf]) (by rw [hf]) (by rw [hf])
    (by rw [hf, hlen]; omega), hf, hlen]

/-- The loop of the storing engine, with room for 1024 bytes, entered with more
than that: the attempt is followed by one on 1024 bytes fewer, if that is not
negative. -/
theorem storeLoop_retry (ub buf : Mem) (x : Int) (h0 : 1024 < toU32 x)
    (h1 : ¬ wrap32 (x - 1024) < 0) :
    ∃ buf1 : Mem,
      (compressLoop storeZlib 6 ub 1054 buf x).ret
        = (compressLoop storeZlib 6 ub 1054 buf1 (wrap32 (x - 1024))).ret ∧
      (compressLoop storeZlib 6 ub 1054 buf x).attempts
        = x :: (compressLoop storeZlib 6 ub 1054 buf1 (wrap32 (x - 1024))).attempts := by
  have hf := storeFull ub x h0
  refine ⟨writeBytes buf 18 [], ?_⟩
  rw [compressLoop_retry _ _ _ _ _ _ (by rw [hf]) (by rw [hf]), if_neg h1, hf]
  exact ⟨rfl, rfl⟩

theorem descend_step (r : Int) (k : Nat) (hr0 : 0 < r)
    (hx : r + 1024 * ((k + 1 : Nat) : Int) < 2147483648) :
    wrap32 (r + 1024 * ((k + 1 : Nat) : Int) - 1024) = r + 1024 * (k : Int) ∧
    1024 < toU32 (r + 1024 * ((k + 1 : Nat) : Int)) := by
  unfold wrap32 toU32
  push_cast
  omega

/-- The loop of the storing engine, with room for 1024 bytes, entered with
`r + 1024 k` bytes, `0 < r ≤ 1024`: after `k` retries it ends on `r` bytes. -/
theorem storeLoop_descend (ub : Mem) (r : Int) (hr0 : 0 < r) (hr1 : r ≤ 1024) :
    ∀ (k : Nat) (buf : Mem), r + 1024 * (k : Int) < 2147483648 →
      (compressLoop storeZlib 6 ub 1054 buf (r + 1024 * (k : Int))).ret = .ok (r, r + 30) ∧
      (compressLoop storeZlib 6 ub 1054 buf (r + 1024 * (k : Int))).attempts.getLast? = some r ∧
      (compressLoop storeZlib 6 ub 1054 buf (r + 1024 * (k : Int))).attempts.length = k + 1 := by
  intro k
  induction k with
  | zero =>
    intro buf _
    have h0 : r + 1024 * ((0 : Nat) : Int) = r := by omega
    rw [h0, storeLoop_fits ub buf r (by omega) hr1]
    exact ⟨rfl, rfl, rfl⟩
  | succ k ih =>
    intro buf hx
    obtain ⟨hw, hbig⟩ := descend_step r k hr0 hx
    obtain ⟨buf1, h1, h2⟩ := storeLoop_retry ub buf (r + 1024 * ((k + 1 : Nat) : Int)) hbig
      (by rw [hw]; omega)
    rw [hw] at h1 h2
    obtain ⟨i1, i2, i3⟩ := ih buf1 (by omega)
    rw [h1, h2, List.getLast?_cons, i2, List.length_cons, i3]
    exact ⟨i1, rfl, rfl⟩

/-- The loop on 2048 bytes with an output capacity of 1054: the first attempt
needs more output, the second, on 1024 bytes, gives a block of 1054 bytes. -/
theorem shrinkExample_loop (ub buf : Mem) :
    (compressLoop storeZlib 6 ub 1054 buf (wrap32 ((2048 : Nat) : Int))).ret = .ok (1024, 1054) ∧
    (compressLoop storeZlib 6 ub 1054 buf (wrap32 ((2048 : Nat) : Int))).attempts
      = [2048, 1024] := by
  have hw : wrap32 ((2048 : Nat) : Int) = 2048 := by decide
  have hw2 : wrap32 ((2048 : Int) - 1024) = 1024 := by decide
  obtain ⟨buf1, h1, h2⟩ := storeLoop_retry ub buf 2048 (by decide) (by decide)
  rw [hw2, storeLoop_fits ub buf1 1024 (by decide) (by decide)] at h1 h2
  rw [hw, h1, h2]
  exact ⟨rfl, rfl⟩

/-- The loop on 3072 bytes with an output capacity of 1054 needs two retries and
ends on 1024 bytes. -/
theorem remainderExample_loop (ub buf : Mem) :
    (compressLoop storeZlib 6 ub 1054 buf (wrap32 ((3072 : Nat) : Int))).ret
      = .ok (1024, 1054) := by
  have hw : wrap32 ((3072 : Nat) : Int) = 1024 + 1024 * ((2 : Nat) : Int) := by decide
  rw [hw]
  exact (storeLoop_descend ub 1024 (by decide) (by decide) 2 buf (by decide)).1

/-- The availability offered to the engine when the capacity is below 26. -/
theorem availOut_underflow (cap : Nat) (h : cap < 26) : availOut cap = 4294967270 + cap := by
  unfold availOut toU32 BLOCK_HEADER_LENGTH BLOCK_FOOTER_LENGTH
  omega

/-- The call on 2048 bytes with an output capacity of 1054 consumes 1024 bytes
into a block of 1054 bytes. -/
theorem shrinkExample_ret :
    (CompressBlock storeZlib ramp 2048 zeros 1054 6).ret = .ok 1054 := by
  rw [CompressBlock_eq,
    finishBlock_shrunk storeZlib ramp 2048 _ 1024 1054 1
      (shrinkExample_loop _ _).1 (by decide) (by decide) (by decide) (by decide) (by decide)
      (by decide)]
  rw [if_neg (by decide)]

/-- A first attempt that terminates the stream, or fails, is the only pass. -/
theorem compressLoop_attempts_stream_end (z : Zlib) (lvl : Int) (ub : Mem) (cap : Nat) (buf : Mem)
    (x : Int)
    (h : (z.deflate lvl (readBytes ub 0 (toU32 x)) (availOut cap)).status = Z_STREAM_END) :
    (compressLoop z lvl ub cap buf x).attempts = [x] := by
  rw [compressLoop_unfold]
  simp only []
  split_ifs with h1 h2 h3 h4 h5 h6
  · rfl
  · rfl
  · exact absurd h h2
  · rfl
  · rfl
  · rfl
  · rfl

/-- The tail of the call keeps the record of the attempts. -/
theorem finishBlock_attempts (z : Zlib) (ub : Mem) (L : Nat) (l : LoopResult) :
    (finishBlock z ub L l).attempts = l.attempts := by
  cases hl : l.ret with
  | error e => rw [finishBlock_error z ub L l e hl]
  | ok p =>
    obtain ⟨ci, Ni⟩ := p
    rw [finishBlock_ok z ub L l ci Ni hl]
    split_ifs <;> rfl

/-- The call when the first attempt, on all `L` bytes, terminates the stream
with a payload of `p` bytes and `(int) p + 26` is within `MAX_BLOCK_SIZE`. -/
theorem CompressBlock_first_attempt (z : Zlib) (ub : Mem) (L : Nat) (cb : Mem) (cap : Nat)
    (lvl : Int) (hL : L < 4294967296)
    (h1 : (z.deflate lvl (readBytes ub 0 L) (availOut cap)).initStatus = Z_OK)
    (h2 : (z.deflate lvl (readBytes ub 0 L) (availOut cap)).status = Z_STREAM_END)
    (h3 : (z.deflate lvl (readBytes ub 0 L) (availOut cap)).endStatus = Z_OK)
    (h4 : wrap32 (wrap32 ((z.deflate lvl (readBytes ub 0 L) (availOut cap)).out.length : Int)
            + 26) ≤ 65536) :
    CompressBlock z ub L cb cap lvl
      = { ret := .ok (wrap32 (wrap32
            ((z.deflate lvl (readBytes ub 0 L) (availOut cap)).out.length : Int) + 26)),
          uncompressedBlock := ub, uncompressLen := 0,
          compressedBlock := packBlock z ub
            (writeBytes (initHeader cb) 18 (z.deflate lvl (readBytes ub 0 L) (availOut cap)).out)
            L (wrap32 (wrap32
              ((z.deflate lvl (readBytes ub 0 L) (availOut cap)).out.length : Int) + 26)),
          attempts := [wrap32 (L : Int)], shift := none } := by
  obtain ⟨_, hu⟩ := remaining_first hL
  have hloop := compressLoop_stream_end z lvl ub cap (initHeader cb) (wrap32 (L : Int))
    (by rw [hu]; exact h1) (by rw [hu]; exact h2) (by rw [hu]; exact h3) (by rw [hu]; exact h4)
  rw [hu] at hloop
  rw [CompressBlock_eq, finishBlock_first z ub L _ _ hL (by rw [hloop]), hloop]

/-- The loop itself never reports the remainder failure. -/
theorem compressLoop_ret_ne (z : Zlib) (lvl : Int) (ub : Mem) (cap : Nat) :
    ∀ (n : Nat) (buf : Mem) (x : Int), loopMeasure x = n →
      (compressLoop z lvl ub cap buf x).ret ≠ .error .remainderTooLarge := by
  intro n
  induction n using Nat.strong_induction_on with
  | _ n ih =>
    intro buf x hx
    rw [compressLoop_unfold]
    simp only []
    split_ifs with h1 h2 h3 h4 h5 h6
    · simp
    · simp
    · exact ih _ (by rw [← hx]; exact loopMeasure_decreases x h4) _ _ rfl
    · simp
    · simp
    · simp
    · simp

theorem size_bytes (N : Int) (h1 : 26 ≤ N) (h2 : N ≤ 65536) :
    (toU16 (N - 1) / 256 ^ 0) % 256 = ((N - 1) % 256).toNat ∧
    (toU16 (N - 1) / 256 ^ 1) % 256 = ((N - 1) / 256).toNat := by
  unfold toU16
  omega

theorem wrap32_small (p : Nat) (hp : (p : Int) + 26 < 2147483648) :
    wrap32 (wrap32 (p : Int) + 26) = 18 + (p : Int) + 8 := by
  unfold wrap32
  omega

/-- The record of the attempts of the call on 2048 bytes ends with 1024. -/
theorem shrinkExample_attempts :
    (CompressBlock storeZlib ramp 2048 zeros 1054 6).attempts.getLast?.map toU32 = some 1024 := by
  rw [CompressBlock_eq, finishBlock_attempts, (shrinkExample_loop _ _).2]
  decide

/-- The payload of the final attempt of the call on 2048 bytes has 1028 bytes. -/
theorem shrinkExample_payload :
    (((storeZlib.deflate 6 (readBytes ramp 0 1024) (availOut 1054)).out.length : Nat) : Int) + 26
      < 2147483648 := by
  rw [storeDeflate_fits _ _ _ (by rw [readBytes_length]; decide), List.length_append,
    readBytes_length]
  decide

/-! ## Decompression of a block -/

/-- The call when the engine reports a clean end of stream. -/
theorem UncompressBlock_stream_end (z : Zlib) (cb : Mem) (n : Nat) (out : Mem) (outLen : Nat)
    (bytes : List Nat)
    (h : z.inflate (readBytes cb 18 (availIn n)) outLen
      = { initStatus := Z_OK, status := Z_STREAM_END, out := bytes, endStatus := Z_OK }) :
    UncompressBlock z cb n out outLen
      = { ret := some (wrap32 (bytes.length : Int)), uncompressedBlock := writeBytes out 0 bytes } := by
  unfold UncompressBlock
  simp only [h, ne_eq, not_true_eq_false, if_false]

theorem window_size (p : Nat) (N : Int) (hN : N = 18 + (p : Int) + 8) (hp : (p : Int) + 26 < 2147483648) :
    availIn (toU32 N) = p + 10 := by
  unfold availIn toU32
  omega

/-- A block decompresses to the bytes it consumed: after a successful call that
returned `N`, whose final attempt consumed `c` bytes into a payload of `p` bytes
with `p + 26 < 2^31`, an inflate engine that inverts that attempt, whatever
follows the payload, makes `UncompressBlock` on the `N` bytes of the block
return `(int) c` and write the `c` consumed bytes. -/
theorem block_round_trip (z : Zlib) (ub : Mem) (L : Nat) (cb : Mem) (cap : Nat) (lvl : Int)
    (N : Int) (c : Nat) (out : Mem) (outLen : Nat)
    (hL : L < 4294967296) (h : (CompressBlock z ub L cb cap lvl).ret = .ok N)
    (hc : (CompressBlock z ub L cb cap lvl).attempts.getLast?.map toU32 = some c)
    (hp : (((z.deflate lvl (readBytes ub 0 c) (availOut cap)).out.length : Nat) : Int) + 26
            < 2147483648)
    (hinv : ∀ (rest : List Nat) (avail : Nat), c ≤ avail →
      z.inflate ((z.deflate lvl (readBytes ub 0 c) (availOut cap)).out ++ rest) avail
        = { initStatus := Z_OK, status := Z_STREAM_END, out := readBytes ub 0 c,
            endStatus := Z_OK })
    (hout : c ≤ outLen) :
    UncompressBlock z (CompressBlock z ub L cb cap lvl).compressedBlock (toU32 N) out outLen
      = { ret := some (wrap32 (c : Int)), uncompressedBlock := writeBytes out 0 (readBytes ub 0 c) } := by
  obtain ⟨c1, prev, _, hfin, hatt, _, hblock, _, _⟩ :=
    CompressBlock_success z ub L cb cap lvl N hL h
  have hcc : c1 = c := by
    rw [hatt] at hc
    exact Option.some.inj hc
  rw [hcc] at hfin hblock
  obtain ⟨_, _, _, hN, _⟩ := hfin
  rw [wrap32_small _ hp] at hN
  have hwin := window_size _ N hN hp
  have hpay : readBytes (CompressBlock z ub L cb cap lvl).compressedBlock 18
      (z.deflate lvl (readBytes ub 0 c) (availOut cap)).out.length
      = (z.deflate lvl (readBytes ub 0 c) (availOut cap)).out := by
    rw [← readBytes_writeBytes prev 18 (z.deflate lvl (readBytes ub 0 c) (availOut cap)).out,
      readBytes_length, hblock]
    apply readBytes_congr
    intro k hk
    rw [packBlock_payload _ _ _ _ _ _ (by omega) (by omega)]
  have h5 := UncompressBlock_stream_end z (CompressBlock z ub L cb cap lvl).compressedBlock
    (toU32 N) out outLen (readBytes ub 0 c)
    (by rw [hwin, readBytes_add, hpay]; exact hinv _ _ hout)
  rw [h5, readBytes_length]

theorem readBytes_zeros (off : Int) (n : Nat) : readBytes zeros off n = List.replicate n 0 := by
  apply List.ext_getElem
  · simp
  · intro k h1 h2
    rw [readBytes_getElem, List.getElem_replicate]
    rfl

theorem attempts_first (L : Nat) (hL : L < 4294967296) :
    ([wrap32 (L : Int)] : List Int).getLast?.map toU32 = some L := by
  rw [List.getLast?_singleton, Option.map_some', (remaining_first hL).2]

theorem wrap32_natCast {L : Nat} (hL : L < 2147483648) : wrap32 (L : Int) = L := by
  unfold wrap32
  omega

theorem le32_decode (n : Nat) (h : n < 4294967296) :
    n % 256 + 256 * (n / 256 % 256) + 65536 * (n / 65536 % 256)
      + 16777216 * (n / 16777216 % 256) = n := by
  omega

/-- The storing engine inverts itself: what `storeDeflate` has stored, followed
by anything, inflates to the input. -/
theorem storeZlib_inverts (lvl : Int) (input : List Nat) (availO : Nat) (rest : List Nat)
    (avail : Nat) (hfit : input.length + 4 ≤ availO) (h32 : input.length < 4294967296)
    (havail : input.length ≤ avail) :
    storeZlib.inflate ((storeZlib.deflate lvl input availO).out ++ rest) avail
      = { initStatus := Z_OK, status := Z_STREAM_END, out := input, endStatus := Z_OK } := by
  rw [storeDeflate_fits lvl input availO hfit]
  show storeInflate ((le32 input.length ++ input) ++ rest) avail = _
  unfold le32
  simp only [List.cons_append, List.nil_append, storeInflate]
  rw [le32_decode _ h32, if_pos ⟨by rw [List.length_append]; omega, havail⟩,
    List.take_left']
  rfl

theorem runDeflate_fits (lvl : Int) (input : List Nat) (avail : Nat) (h : 4 ≤ avail) :
    runZlib.deflate lvl input avail
      = { initStatus := Z_OK, status := Z_STREAM_END, out := le32 input.length,
          endStatus := Z_OK } := by
  show runDeflate lvl input avail = _
  unfold runDeflate
  rw [if_pos h]

/-- The run-length engine gives the zero bytes back. -/
theorem runZlib_inverts (n : Nat) (rest : List Nat) (avail : Nat)
    (h32 : n < 4294967296) (havail : n ≤ avail) :
    runZlib.inflate (le32 n ++ rest) avail
      = { initStatus := Z_OK, status := Z_STREAM_END, out := readBytes zeros 0 n,
          endStatus := Z_OK } := by
  show runInflate (le32 n ++ rest) avail = _
  unfold le32
  simp only [List.cons_append, List.nil_append, runInflate]
  rw [le32_decode _ h32, if_pos havail, readBytes_zeros]

theorem readBytes_zero (m : Mem) (off : Int) : readBytes m off 0 = [] := rfl

/-- The call when the first attempt terminates the stream with a block longer
than `MAX_BLOCK_SIZE`. -/
theorem CompressBlock_overflow (z : Zlib) (ub : Mem) (L : Nat) (cb : Mem) (cap : Nat)
    (lvl : Int) (hL : L < 4294967296)
    (h1 : (z.deflate lvl (readBytes ub 0 L) (availOut cap)).initStatus = Z_OK)
    (h2 : (z.deflate lvl (readBytes ub 0 L) (availOut cap)).status = Z_STREAM_END)
    (h3 : (z.deflate lvl (readBytes ub 0 L) (availOut cap)).endStatus = Z_OK)
    (h4 : wrap32 (wrap32 ((z.deflate lvl (readBytes ub 0 L) (availOut cap)).out.length : Int)
            + 26) > 65536) :
    (CompressBlock z ub L cb cap lvl).ret = .error .overflow := by
  obtain ⟨_, hu⟩ := remaining_first hL
  have hloop : (compressLoop z lvl ub cap (initHeader cb) (wrap32 (L : Int))).ret
      = .error .overflow := by
    rw [compressLoop_unfold]
    simp only [hu, h1, h2, h3, ne_eq, not_true_eq_false, if_false, BLOCK_HEADER_LENGTH,
      BLOCK_FOOTER_LENGTH, MAX_BLOCK_SIZE]
    norm_num
    rw [if_pos (by omega)]
  rw [CompressBlock_eq, finishBlock_error z ub L _ _ hloop]

/-- The call when the first attempt needs more output and fewer than 1024 bytes
were attempted. -/
theorem CompressBlock_reduction (z : Zlib) (ub : Mem) (L : Nat) (cb : Mem) (cap : Nat)
    (lvl : Int) (hL : L < 1024)
    (h1 : (z.deflate lvl (readBytes ub 0 L) (availOut cap)).initStatus = Z_OK)
    (h2 : (z.deflate lvl (readBytes ub 0 L) (availOut cap)).status = Z_OK) :
    (CompressBlock z ub L cb cap lvl).ret = .error .reductionFailed ∧
    (CompressBlock z ub L cb cap lvl).attempts = [(L : Int)] := by
  have hL32 : L < 4294967296 := by omega
  have hw : wrap32 (L : Int) = L := wrap32_natCast (by omega)
  obtain ⟨_, hu⟩ := remaining_first hL32
  have hloop := compressLoop_retry z lvl ub cap (initHeader cb) (wrap32 (L : Int))
    (by rw [hu]; exact h1) (by rw [hu]; exact h2)
  rw [if_pos (by rw [hw]; unfold wrap32; omega)] at hloop
  rw [CompressBlock_eq, finishBlock_error z ub L _ .reductionFailed (by rw [hloop]), hloop, hw]
  exact ⟨rfl, rfl⟩

/-! ## Conservation of the bytes -/

/-- What a successful call consumed, followed by what it left at the front of
the buffer, is the input. -/
theorem call_conservation (z : Zlib) (ub : Mem) (L : Nat) (cb : Mem) (cap : Nat) (lvl : Int)
    (N : Int) (hL : L < 2147483648) (h : (CompressBlock z ub L cb cap lvl).ret = .ok N) :
    readBytes ub 0 (L - (CompressBlock z ub L cb cap lvl).uncompressLen)
      ++ readBytes (CompressBlock z ub L cb cap lvl).uncompressedBlock 0
          (CompressBlock z ub L cb cap lvl).uncompressLen
      = readBytes ub 0 L := by
  obtain ⟨c, prev, hc, _, _, _, _, hlen, hub, _⟩ :=
    CompressBlock_success z ub L cb cap lvl N (by omega) h
  rw [hlen, hub]
  rcases hc with hc | ⟨k, hk, hsum, _, hle⟩
  · rw [hc, Nat.sub_self, readBytes_zero, List.append_nil, Nat.sub_zero]
  · have hne : ¬ (c = L ∨ ¬ (L - c < 2147483648)) := by omega
    have h1 : L - (L - c) = c := by omega
    have h2 : L = c + (L - c) := by omega
    have hle2 : L - c ≤ c := by omega
    rw [if_neg hne, h1]
    conv_rhs => rw [h2, readBytes_add]
    congr 1
    apply readBytes_congr
    intro i hi
    rw [memcpy_apply _ _ _ _ (by omega), if_pos (by omega)]
    congr 1
    omega

/-- The buffer the caller hands over: the bytes left, then the new chunk. -/
theorem readBytes_append_chunk (ub : Mem) (len : Nat) (chunk : List Nat) :
    readBytes (writeBytes ub len chunk) 0 (len + chunk.length)
      = readBytes ub 0 len ++ chunk := by
  rw [readBytes_add]
  congr 1
  · apply readBytes_congr
    intro k hk
    rw [writeBytes_apply_out _ _ _ _ (Or.inl (by omega))]
  · rw [zero_add]
    exact readBytes_writeBytes ub len chunk

theorem availOut_of_le {cap : Nat} (h1 : 26 ≤ cap) (h2 : cap < 4294967296) :
    availOut cap = cap - 26 := by
  unfold availOut toU32 BLOCK_HEADER_LENGTH BLOCK_FOOTER_LENGTH
  omega

/-- A block of a successful call decompresses to what the call consumed, for an
engine that stays within the output space it is offered and whose inflate side
inverts every terminated stream, at an output capacity from 26 to `2^31 - 1`. -/
theorem step_decompress (z : Zlib) (ub : Mem) (L : Nat) (cb : Mem) (cap : Nat) (lvl : Int)
    (N : Int) (out : Mem) (outLen : Nat)
    (hL : L < 4294967296) (h : (CompressBlock z ub L cb cap lvl).ret = .ok N)
    (hcap1 : 26 ≤ cap) (hcap2 : cap < 2147483648)
    (hresp : ∀ input : List Nat, (z.deflate lvl input (availOut cap)).out.length ≤ availOut cap)
    (hinv : ∀ (input rest : List Nat) (avail : Nat),
      (z.deflate lvl input (availOut cap)).status = Z_STREAM_END → input.length ≤ avail →
      z.inflate ((z.deflate lvl input (availOut cap)).out ++ rest) avail
        = { initStatus := Z_OK, status := Z_STREAM_END, out := input, endStatus := Z_OK })
    (hout : L - (CompressBlock z ub L cb cap lvl).uncompressLen ≤ outLen) :
    UncompressBlock z (CompressBlock z ub L cb cap lvl).compressedBlock (toU32 N) out outLen
      = { ret := some (wrap32 ((L - (CompressBlock z ub L cb cap lvl).uncompressLen : Nat) : Int)),
          uncompressedBlock := writeBytes out 0
            (readBytes ub 0 (L - (CompressBlock z ub L cb cap lvl).uncompressLen)) } := by
  obtain ⟨c, prev, hc, hfin, hatt, _, _, hlen, _⟩ := CompressBlock_success z ub L cb cap lvl N hL h
  have hcL : c ≤ L := by
    rcases hc with hc | ⟨k, _, hk, _, _⟩ <;> omega
  have hcc : L - (CompressBlock z ub L cb cap lvl).uncompressLen = c := by
    rw [hlen]
    omega
  rw [hcc] at hout ⊢
  have hav := availOut_of_le hcap1 (by omega : cap < 4294967296)
  have hp : (((z.deflate lvl (readBytes ub 0 c) (availOut cap)).out.length : Nat) : Int) + 26
      < 2147483648 := by
    have h5 := hresp (readBytes ub 0 c)
    omega
  exact block_round_trip z ub L cb cap lvl N c out outLen hL h hatt hp
    (fun rest avail hav2 => hinv (readBytes ub 0 c) rest avail hfin.2.1
      (by rw [readBytes_length]; exact hav2))
    hout

/-- The first call of a sequence that goes through. -/
theorem chain_cons (z : Zlib) (lvl : Int) (cap : Nat) (chunk : List Nat)
    (rest : List (List Nat)) (ub : Mem) (len : Nat) (cb : Mem)
    (res : List ChainStep × Mem × Nat)
    (h : chain z lvl cap (chunk :: rest) ub len cb = some res) :
    len + chunk.length < 4294967296 ∧
    ∃ (N : Int) (steps : List ChainStep) (ubF : Mem) (lenF : Nat),
      (CompressBlock z (writeBytes ub len chunk) (len + chunk.length) cb cap lvl).ret = .ok N ∧
      chain z lvl cap rest
        (CompressBlock z (writeBytes ub len chunk) (len + chunk.length) cb cap
          lvl).uncompressedBlock
        (CompressBlock z (writeBytes ub len chunk) (len + chunk.length) cb cap lvl).uncompressLen
        (CompressBlock z (writeBytes ub len chunk) (len + chunk.length) cb cap
          lvl).compressedBlock = some (steps, ubF, lenF) ∧
      res = ({ consumed := readBytes (writeBytes ub len chunk) 0
                  (len + chunk.length
                    - (CompressBlock z (writeBytes ub len chunk) (len + chunk.length) cb cap
                        lvl).uncompressLen),
               block := (CompressBlock z (writeBytes ub len chunk) (len + chunk.length) cb cap
                  lvl).compressedBlock,
               blockLen := N } :: steps, ubF, lenF) := by
  rw [chain] at h
  split_ifs at h with hlt
  refine ⟨hlt, ?_⟩
  split at h
  · exact absurd h (by simp)
  · rename_i N hN
    split at h
    · exact absurd h (by simp)
    · rename_i steps ubF lenF hrest
      exact ⟨N, steps, ubF, lenF, hN, hrest, (Option.some.inj h).symm⟩

/-- The storing engine stays within the output space it is offered. -/
theorem storeZlib_respects (lvl : Int) (input : List Nat) (avail : Nat) :
    (storeZlib.deflate lvl input avail).out.length ≤ avail := by
  by_cases h : input.length + 4 ≤ avail
  · rw [storeDeflate_fits lvl input avail h]
    show (le32 input.length ++ input).length ≤ avail
    rw [List.length_append]
    show 4 + input.length ≤ avail
    omega
  · rw [storeDeflate_full lvl input avail h]
    exact Nat.zero_le _

/-- The storing engine inverts every stream it has terminated. -/
theorem storeZlib_inverts_end (lvl : Int) (input : List Nat) (availO : Nat) (rest : List Nat)
    (avail : Nat) (h32 : availO < 4294967296)
    (hend : (storeZlib.deflate lvl input availO).status = Z_STREAM_END)
    (havail : input.length ≤ avail) :
    storeZlib.inflate ((storeZlib.deflate lvl input availO).out ++ rest) avail
      = { initStatus := Z_OK, status := Z_STREAM_END, out := input, endStatus := Z_OK } := by
  by_cases h : input.length + 4 ≤ availO
  · exact storeZlib_inverts lvl input availO rest avail h (by omega) havail
  · rw [storeDeflate_full lvl input availO h] at hend
    exact absurd hend (by decide)

/-! ## The claims -/

/-- C3. Footer: after a successful call that returned `N`, with `c` the input
length of the last attempt (the bytes consumed, `c ≤ L`, and `L - c` is written
back), the output bytes `N-8 .. N-5` are the little-endian bytes of the
`crc32` of the first `c` bytes of the uncompressed buffer as it was at entry,
and the bytes `N-4 .. N-1` are the little-endian bytes of `c`. -/
theorem C3_footer (z : Zlib) (ub : Mem) (L : Nat) (cb : Mem) (cap : Nat) (lvl : Int) (N : Int)
    (hL : L < 4294967296) (h : (CompressBlock z ub L cb cap lvl).ret = .ok N) :
    ∃ c : Nat,
      (CompressBlock z ub L cb cap lvl).attempts.getLast?.map toU32 = some c ∧
      c ≤ L ∧ (CompressBlock z ub L cb cap lvl).uncompressLen = L - c ∧
      (∀ i : Nat, i < 4 →
        (CompressBlock z ub L cb cap lvl).compressedBlock (N - 8 + (i : Int))
          = (z.crc32 z.crc32Null (readBytes ub 0 c) / 256 ^ i) % 256) ∧
      (∀ i : Nat, i < 4 →
        (CompressBlock z ub L cb cap lvl).compressedBlock (N - 4 + (i : Int))
          = (c / 256 ^ i) % 256) := by
  obtain ⟨c, prev, hc, _, hatt, _, hblock, hlen, _⟩ := CompressBlock_success z ub L cb cap lvl N hL h
  refine ⟨c, hatt, ?_, hlen, ?_, ?_⟩
  · rcases hc with hc | ⟨k, _, hk, _, _⟩ <;> omega
  · intro i hi
    rw [hblock, packBlock_crc _ _ _ _ _ _ hi]
  · intro i hi
    rw [hblock, packBlock_isize _ _ _ _ _ _ hi]

/-- C3 on 2048 bytes and an output capacity of 1054: the storing engine has
room for 1024 bytes only, and the footer holds their checksum and 1024. -/
theorem C3_footer_witness :
    ∃ c : Nat,
      (CompressBlock storeZlib ramp 2048 zeros 1054 6).attempts.getLast?.map toU32 = some c ∧
      c ≤ 2048 ∧ (CompressBlock storeZlib ramp 2048 zeros 1054 6).uncompressLen = 2048 - c ∧
      (∀ i : Nat, i < 4 →
        (CompressBlock storeZlib ramp 2048 zeros 1054 6).compressedBlock (1054 - 8 + (i : Int))
          = (storeZlib.crc32 storeZlib.crc32Null (readBytes ramp 0 c) / 256 ^ i) % 256) ∧
      (∀ i : Nat, i < 4 →
        (CompressBlock storeZlib ramp 2048 zeros 1054 6).compressedBlock (1054 - 4 + (i : Int))
          = (c / 256 ^ i) % 256) :=
  C3_footer storeZlib ramp 2048 zeros 1054 6 1054 (by decide) shrinkExample_ret

/-- Shrink, for a length below 2^31 (one that the `int inputLength` holds):
when the first attempt, on all `L` bytes, needs more output space and the call
then succeeds, the consumed length is `L - 1024 k` for some `k ≥ 1`, the length
written back is the remainder `1024 k`, strictly less than `L`, and the first
`1024 k` bytes of the uncompressed buffer after the call are the bytes
`[L - 1024 k, L)` of the buffer before it. -/
theorem shrink_in_range (z : Zlib) (ub : Mem) (L : Nat) (cb : Mem) (cap : Nat) (lvl : Int)
    (N : Int) (hL : L < 2147483648)
    (hfirst : (z.deflate lvl (readBytes ub 0 L) (availOut cap)).status = Z_OK)
    (h : (CompressBlock z ub L cb cap lvl).ret = .ok N) :
    ∃ k : Nat, 1 ≤ k ∧ 1024 * k ≤ L ∧
      (CompressBlock z ub L cb cap lvl).attempts.getLast?.map toU32 = some (L - 1024 * k) ∧
      (CompressBlock z ub L cb cap lvl).uncompressLen = 1024 * k ∧
      (CompressBlock z ub L cb cap lvl).uncompressLen < L ∧
      ∀ i : Nat, i < 1024 * k →
        (CompressBlock z ub L cb cap lvl).uncompressedBlock (i : Int)
          = ub (((L - 1024 * k : Nat) : Int) + (i : Int)) := by
  obtain ⟨c, prev, hc, hfin, hatt, _, _, hlen, hub, _⟩ :=
    CompressBlock_success z ub L cb cap lvl N (by omega) h
  rcases hc with hc | ⟨k, hk, hsum, _, hle⟩
  · rw [hc] at hfin
    have h2 := hfin.2.1
    rw [hfirst] at h2
    exact absurd h2 (by decide)
  · have hle2 : 1024 * k ≤ c := hle (by omega)
    have hcL : c = L - 1024 * k := by omega
    have hne : ¬ (c = L ∨ ¬ (L - c < 2147483648)) := by omega
    have hrem : L - c = 1024 * k := by omega
    refine ⟨k, hk, by omega, by rw [hatt, hcL], by rw [hlen, hrem], by rw [hlen]; omega, ?_⟩
    intro i hi
    rw [hub, if_neg hne, hrem, memcpy_apply _ _ _ _ (by omega)]
    rw [if_pos (by omega), ← hcL, sub_zero]

/-- Remainder check, for a length below 2^31 (one that the `int inputLength`
holds): the call fails with "remainder too large" exactly when the loop has
ended with a final attempt consuming `c` of the `L` bytes (and a block within
`MAX_BLOCK_SIZE`) and `L - c > c`; hence every successful call leaves a
remainder `L - c ≤ c`. -/
theorem remainder_in_range (z : Zlib) (ub : Mem) (L : Nat) (cb : Mem) (cap : Nat) (lvl : Int)
    (hL31 : L < 2147483648) :
    ((CompressBlock z ub L cb cap lvl).ret = .error .remainderTooLarge ↔
      ∃ (ci N : Int),
        (compressLoop z lvl ub cap (initHeader cb) (wrap32 (L : Int))).ret = .ok (ci, N) ∧
        toU32 ci ≤ L ∧ L - toU32 ci > toU32 ci) ∧
    (∀ N : Int, (CompressBlock z ub L cb cap lvl).ret = .ok N →
      ∃ c : Nat, (CompressBlock z ub L cb cap lvl).attempts.getLast?.map toU32 = some c ∧
        c ≤ L ∧ (CompressBlock z ub L cb cap lvl).uncompressLen = L - c ∧ L - c ≤ c) := by
  have hL : L < 4294967296 := by omega
  constructor
  · rw [CompressBlock_eq]
    cases hl : (compressLoop z lvl ub cap (initHeader cb) (wrap32 (L : Int))).ret with
    | error e =>
      rw [finishBlock_error z ub L _ e hl]
      constructor
      · intro h
        simp only [Except.error.injEq] at h
        rw [h] at hl
        exact absurd hl (compressLoop_ret_ne z lvl ub cap _ _ _ rfl)
      · rintro ⟨ci, N, h, _⟩
        simp at h
    | ok p =>
      obtain ⟨ci, Ni⟩ := p
      obtain ⟨hc, _, _, _⟩ := compressLoop_ok z lvl ub cap _ _ _ _ _ rfl hl
      obtain ⟨_, hu⟩ := remaining_first hL
      rcases hc with hc | ⟨hc0, hc1, k, hk, hck, hLw⟩
      · rw [hc] at hl
        rw [finishBlock_first z ub L _ Ni hL hl]
        constructor
        · intro h
          simp at h
        · rintro ⟨ci2, N2, h, hle, hgt⟩
          simp only [Except.ok.injEq, Prod.mk.injEq] at h
          rw [← h.1, hc, hu] at hgt
          omega
      · rw [hu] at hck hLw
        obtain ⟨hcu, _, _⟩ := remaining_shrunk hc0 hc1 hck hk hLw
        have hrem : 1024 * k < 2147483648 := by omega
        rw [finishBlock_shrunk z ub L _ ci Ni k hl hc0 hc1 hck hk hLw hrem]
        by_cases hgt : 1024 * (k : Int) > ci
        · rw [if_pos hgt]
          constructor
          · intro _
            exact ⟨ci, Ni, rfl, by omega, by omega⟩
          · intro _
            rfl
        · rw [if_neg hgt]
          constructor
          · intro h
            simp at h
          · rintro ⟨ci2, N2, h, hle, hgt2⟩
            simp only [Except.ok.injEq, Prod.mk.injEq] at h
            rw [← h.1] at hgt2 hle
            omega
  · intro N h
    obtain ⟨c, prev, hc, _, hatt, _, _, hlen, _⟩ := CompressBlock_success z ub L cb cap lvl N hL h
    refine ⟨c, hatt, ?_, hlen, ?_⟩
    · rcases hc with hc | ⟨k, _, hk, _, _⟩ <;> omega
    · rcases hc with hc | ⟨k, _, hk, _, hle⟩
      · omega
      · have hle2 := hle (by omega)
        omega

/-- The call on 3072 bytes with an output capacity of 1054: the storing engine
has room for 1024 bytes, which leaves 2048, and the call fails with "remainder
too large". -/
theorem remainderExample_ret :
    (CompressBlock storeZlib ramp 3072 zeros 1054 6).ret = .error .remainderTooLarge :=
  (remainder_in_range storeZlib ramp 3072 zeros 1054 6 (by decide)).1.mpr
    ⟨1024, 1054, remainderExample_loop _ _, by decide, by decide⟩

/-- Header, for a payload count that the `int compressedLength` holds: after a
successful call that returned `N`, whose
final attempt consumed `c` bytes and produced a payload of `p` bytes with
`p + 26 < 2^31`, the first 16 bytes of the output buffer are 31, 139, 8, 4, 0,
0, 0, 0, 0, 255, 6, 0, 66, 67, 2, 0, byte 16 is `(N - 1) mod 256`, byte 17 is
`(N - 1) div 256`, whatever the buffer held before, and `26 ≤ N ≤ 65536`. -/
theorem header_small_payload (z : Zlib) (ub : Mem) (L : Nat) (cb : Mem) (cap : Nat) (lvl : Int)
    (N : Int)
    (c : Nat) (hL : L < 4294967296) (h : (CompressBlock z ub L cb cap lvl).ret = .ok N)
    (hc : (CompressBlock z ub L cb cap lvl).attempts.getLast?.map toU32 = some c)
    (hp : (((z.deflate lvl (readBytes ub 0 c) (availOut cap)).out.length : Nat) : Int) + 26
            < 2147483648) :
    readBytes (CompressBlock z ub L cb cap lvl).compressedBlock 0 16
      = [31, 139, 8, 4, 0, 0, 0, 0, 0, 255, 6, 0, 66, 67, 2, 0] ∧
    (CompressBlock z ub L cb cap lvl).compressedBlock 16 = ((N - 1) % 256).toNat ∧
    (CompressBlock z ub L cb cap lvl).compressedBlock 17 = ((N - 1) / 256).toNat ∧
    26 ≤ N ∧ N ≤ 65536 := by
  obtain ⟨c1, prev, _, hfin, hatt, hprev, hblock, _, _⟩ :=
    CompressBlock_success z ub L cb cap lvl N hL h
  have hcc : c1 = c := by
    rw [hatt] at hc
    exact Option.some.inj hc
  rw [hcc] at hfin hblock
  obtain ⟨_, _, _, hN, hN2⟩ := hfin
  rw [wrap32_small _ hp] at hN
  have hN1 : 26 ≤ N := by omega
  obtain ⟨hb0, hb1⟩ := size_bytes N hN1 hN2
  refine ⟨?_, ?_, ?_, hN1, hN2⟩
  · rw [← initHeader_bytes cb, hblock]
    apply readBytes_congr
    intro k hk
    rw [packBlock_low _ _ _ _ _ hN1 _ (by omega), writeBytes_apply_out _ _ _ _ (Or.inl (by omega)),
      hprev _ (by omega)]
  · rw [hblock, ← hb0]
    exact packBlock_size z ub _ c N hN1 0 (by omega)
  · rw [hblock, ← hb1]
    exact packBlock_size z ub _ c N hN1 1 (by omega)

/-- C2 fails on 2147483644 input bytes (fewer than 2^31) and an output capacity
of 4294967295: the storing engine writes 2^31 payload bytes, within the space
it is offered; `compressedLength = zs.total_out` turns the count into the `int`
-2^31, which passes the test against `MAX_BLOCK_SIZE`, and the call succeeds
with the return value -2147483622, which is below 26; the first byte of the
length field of the footer is written at the index -2147483626, before the
output buffer. -/
theorem C2_negative_length_run :
    (CompressBlock storeZlib zeros 2147483644 zeros 4294967295 6).ret = .ok (-2147483622) ∧
    (storeZlib.deflate 6 (readBytes zeros 0 2147483644) (availOut 4294967295)).out.length
      ≤ availOut 4294967295 ∧
    ¬ ((26 : Int) ≤ -2147483622) ∧
    (CompressBlock storeZlib zeros 2147483644 zeros 4294967295 6).compressedBlock (-2147483626)
      = 252 := by
  have hd := storeDeflate_fits 6 (readBytes zeros 0 2147483644) (availOut 4294967295)
    (by rw [readBytes_length]; decide)
  have hlen : (le32 (readBytes zeros 0 2147483644).length ++ readBytes zeros 0 2147483644).length
      = 2147483648 := by
    rw [List.length_append, readBytes_length]
    rfl
  have hN : wrap32 (wrap32 ((2147483648 : Nat) : Int) + 26) = -2147483622 := by decide
  have hcall := CompressBlock_first_attempt storeZlib zeros 2147483644 zeros 4294967295 6
    (by decide) (by rw [hd]) (by rw [hd]) (by rw [hd]) (by rw [hd, hlen, hN]; decide)
  rw [hd, hlen, hN] at hcall
  refine ⟨?_, ?_, by decide, ?_⟩
  · rw [hcall]
  · rw [hd, hlen]
    decide
  · rw [hcall]
    have hi := packBlock_isize storeZlib zeros
      (writeBytes (initHeader zeros) 18
        (le32 (readBytes zeros 0 2147483644).length ++ readBytes zeros 0 2147483644))
      2147483644 (-2147483622) 0 (by decide)
    have h0 : (-2147483622 : Int) - 4 + ((0 : Nat) : Int) = -2147483626 := by decide
    rw [h0] at hi
    exact hi.trans (by decide)

/-- Return value and out-parameter, for a payload count that the
`int compressedLength` holds: after a successful call
that returned `N`, whose final attempt consumed `c` of the `L` bytes and
produced a payload of `p` bytes with `p + 26 < 2^31`, `N = 18 + p + 8` and the
length written back is `L - c`; when the first attempt, on all `L` bytes,
terminates the stream, `c = L`, the length written back is 0 and the
uncompressed buffer is unchanged. -/
theorem return_small_payload (z : Zlib) (ub : Mem) (L : Nat) (cb : Mem) (cap : Nat) (lvl : Int)
    (N : Int)
    (c : Nat) (hL : L < 4294967296) (h : (CompressBlock z ub L cb cap lvl).ret = .ok N)
    (hc : (CompressBlock z ub L cb cap lvl).attempts.getLast?.map toU32 = some c)
    (hp : (((z.deflate lvl (readBytes ub 0 c) (availOut cap)).out.length : Nat) : Int) + 26
            < 2147483648) :
    N = 18 + (((z.deflate lvl (readBytes ub 0 c) (availOut cap)).out.length : Nat) : Int) + 8 ∧
    c ≤ L ∧ (CompressBlock z ub L cb cap lvl).uncompressLen = L - c ∧
    ((z.deflate lvl (readBytes ub 0 L) (availOut cap)).status = Z_STREAM_END →
      c = L ∧ (CompressBlock z ub L cb cap lvl).uncompressLen = 0 ∧
      (CompressBlock z ub L cb cap lvl).uncompressedBlock = ub) := by
  obtain ⟨c1, prev, hcase, hfin, hatt, _, _, hlen, hub, _⟩ :=
    CompressBlock_success z ub L cb cap lvl N hL h
  have hcc : c1 = c := by
    rw [hatt] at hc
    exact Option.some.inj hc
  rw [hcc] at hfin hlen hub hcase
  obtain ⟨_, _, _, hN, _⟩ := hfin
  rw [wrap32_small _ hp] at hN
  refine ⟨hN, ?_, hlen, ?_⟩
  · rcases hcase with hcase | ⟨k, _, hk, _, _⟩ <;> omega
  · intro hend
    obtain ⟨_, hu⟩ := remaining_first hL
    have hone := compressLoop_attempts_stream_end z lvl ub cap (initHeader cb) (wrap32 (L : Int))
      (by rw [hu]; exact hend)
    rw [CompressBlock_eq, finishBlock_attempts, hone, List.getLast?_singleton,
      Option.map_some', hu] at hc
    have hcL : c = L := (Option.some.inj hc).symm
    refine ⟨hcL, ?_, ?_⟩
    · rw [hlen, hcL]
      omega
    · rw [hub, if_pos (Or.inl hcL)]

/-- C7 fails on 2147483645 input bytes and an output capacity of 4294967295: the
storing engine writes `p = 2147483649` payload bytes on the first attempt;
`compressedLength = zs.total_out` turns the count into a negative `int`, which
passes the test against `MAX_BLOCK_SIZE`, and the call succeeds with the return
value -2147483621, not `18 + p + 8`. -/
theorem C7_negative_return_run :
    (CompressBlock storeZlib zeros 2147483645 zeros 4294967295 6).ret = .ok (-2147483621) ∧
    (CompressBlock storeZlib zeros 2147483645 zeros 4294967295 6).attempts.getLast?.map toU32
      = some 2147483645 ∧
    (storeZlib.deflate 6 (readBytes zeros 0 2147483645) (availOut 4294967295)).out.length
      = 2147483649 ∧
    (-2147483621 : Int) ≠ 18 + ((2147483649 : Nat) : Int) + 8 := by
  have hd := storeDeflate_fits 6 (readBytes zeros 0 2147483645) (availOut 4294967295)
    (by rw [readBytes_length]; decide)
  have hlen : (le32 (readBytes zeros 0 2147483645).length ++ readBytes zeros 0 2147483645).length
      = 2147483649 := by
    rw [List.length_append, readBytes_length]
    rfl
  have hcall := CompressBlock_first_attempt storeZlib zeros 2147483645 zeros 4294967295 6
    (by decide) (by rw [hd]) (by rw [hd]) (by rw [hd]) (by rw [hd, hlen]; decide)
  rw [hd, hlen] at hcall
  refine ⟨?_, ?_, ?_, by decide⟩
  · rw [hcall]
    decide
  · rw [hcall]
    decide
  · rw [hd, hlen]

/-- C1 (as amended). Round trip: for a buffer of `L < 2^31` bytes that the
engine compresses on the first attempt into a block of at most 65536 bytes that
fits the output capacity, and an inflate engine that gives those `L` bytes back
from the payload whatever follows it, `CompressBlock` succeeds with some `N`
and `UncompressBlock` on the block, with `compressedLen = N` and an output
buffer of at least `L` bytes, returns `L` and writes exactly the `L` bytes. -/
theorem C1_round_trip (z : Zlib) (ub : Mem) (L : Nat) (cb : Mem) (cap : Nat) (lvl : Int)
    (out : Mem) (outLen : Nat) (hL : L < 2147483648)
    (h1 : (z.deflate lvl (readBytes ub 0 L) (availOut cap)).initStatus = Z_OK)
    (h2 : (z.deflate lvl (readBytes ub 0 L) (availOut cap)).status = Z_STREAM_END)
    (h3 : (z.deflate lvl (readBytes ub 0 L) (availOut cap)).endStatus = Z_OK)
    (hblock : (z.deflate lvl (readBytes ub 0 L) (availOut cap)).out.length + 26 ≤ 65536)
    (_hfit : (z.deflate lvl (readBytes ub 0 L) (availOut cap)).out.length + 26 ≤ cap)
    (hinv : ∀ (rest : List Nat) (avail : Nat), L ≤ avail →
      z.inflate ((z.deflate lvl (readBytes ub 0 L) (availOut cap)).out ++ rest) avail
        = { initStatus := Z_OK, status := Z_STREAM_END, out := readBytes ub 0 L,
            endStatus := Z_OK })
    (hout : L ≤ outLen) :
    ∃ N : Int, (CompressBlock z ub L cb cap lvl).ret = .ok N ∧
      (UncompressBlock z (CompressBlock z ub L cb cap lvl).compressedBlock (toU32 N)
        out outLen).ret = some (L : Int) ∧
      readBytes (UncompressBlock z (CompressBlock z ub L cb cap lvl).compressedBlock (toU32 N)
        out outLen).uncompressedBlock 0 L = readBytes ub 0 L := by
  have hL32 : L < 4294967296 := by omega
  have hp : (((z.deflate lvl (readBytes ub 0 L) (availOut cap)).out.length : Nat) : Int) + 26
      < 2147483648 := by omega
  have h4 : wrap32 (wrap32 ((z.deflate lvl (readBytes ub 0 L) (availOut cap)).out.length : Int)
      + 26) ≤ 65536 := by
    rw [wrap32_small _ hp]
    omega
  have hcall := CompressBlock_first_attempt z ub L cb cap lvl hL32 h1 h2 h3 h4
  have hret : (CompressBlock z ub L cb cap lvl).ret = .ok (wrap32 (wrap32
      ((z.deflate lvl (readBytes ub 0 L) (availOut cap)).out.length : Int) + 26)) := by
    rw [hcall]
  have hatt : (CompressBlock z ub L cb cap lvl).attempts.getLast?.map toU32 = some L := by
    rw [hcall]
    exact attempts_first L hL32
  have hrt := block_round_trip z ub L cb cap lvl _ L out outLen hL32 hret hatt hp hinv hout
  refine ⟨_, hret, ?_, ?_⟩
  · rw [hrt, wrap32_natCast hL]
  · rw [hrt]
    have h5 := readBytes_writeBytes out 0 (readBytes ub 0 L)
    rw [readBytes_length] at h5
    exact h5

/-- C1 (as amended) on the three bytes 0, 1, 2 with the storing engine and an
output capacity of 100. -/
theorem C1_round_trip_witness :
    ∃ N : Int, (CompressBlock storeZlib ramp 3 zeros 100 6).ret = .ok N ∧
      (UncompressBlock storeZlib (CompressBlock storeZlib ramp 3 zeros 100 6).compressedBlock
        (toU32 N) zeros 10).ret = some ((3 : Nat) : Int) ∧
      readBytes (UncompressBlock storeZlib
        (CompressBlock storeZlib ramp 3 zeros 100 6).compressedBlock (toU32 N)
        zeros 10).uncompressedBlock 0 3 = readBytes ramp 0 3 :=
  C1_round_trip storeZlib ramp 3 zeros 100 6 zeros 10 (by decide) (by decide) (by decide)
    (by decide) (by decide) (by decide)
    (fun rest avail h => storeZlib_inverts 6 (readBytes ramp 0 3) (availOut 100) rest avail
      (by decide) (by decide) (by rw [readBytes_length]; exact h))
    (by decide)

/-- C1 as stated fails for a buffer of 2^31 bytes: the run-length engine
compresses 2147483648 zero bytes on the first attempt into a block of 30 bytes,
its inflate side gives them back, and `UncompressBlock` on the block, with
output room for all of them, returns -2147483648 and not 2147483648, the
length not fitting the `int` it returns. -/
theorem C1_counterexample :
    (runZlib.deflate 6 (readBytes zeros 0 2147483648) (availOut 100)).initStatus = Z_OK ∧
    (runZlib.deflate 6 (readBytes zeros 0 2147483648) (availOut 100)).status = Z_STREAM_END ∧
    (runZlib.deflate 6 (readBytes zeros 0 2147483648) (availOut 100)).endStatus = Z_OK ∧
    (runZlib.deflate 6 (readBytes zeros 0 2147483648) (availOut 100)).out.length + 26 ≤ 100 ∧
    (∀ (rest : List Nat) (avail : Nat), 2147483648 ≤ avail →
      runZlib.inflate ((runZlib.deflate 6 (readBytes zeros 0 2147483648) (availOut 100)).out
          ++ rest) avail
        = { initStatus := Z_OK, status := Z_STREAM_END, out := readBytes zeros 0 2147483648,
            endStatus := Z_OK }) ∧
    (CompressBlock runZlib zeros 2147483648 zeros 100 6).ret = .ok 30 ∧
    (UncompressBlock runZlib (CompressBlock runZlib zeros 2147483648 zeros 100 6).compressedBlock
      (toU32 30) zeros 2147483648).ret = some (-2147483648) ∧
    (-2147483648 : Int) ≠ ((2147483648 : Nat) : Int) := by
  have hd := runDeflate_fits 6 (readBytes zeros 0 2147483648) (availOut 100) (by decide)
  rw [readBytes_length] at hd
  have hinv : ∀ (rest : List Nat) (avail : Nat), 2147483648 ≤ avail →
      runZlib.inflate ((runZlib.deflate 6 (readBytes zeros 0 2147483648) (availOut 100)).out
          ++ rest) avail
        = { initStatus := Z_OK, status := Z_STREAM_END, out := readBytes zeros 0 2147483648,
            endStatus := Z_OK } := by
    intro rest avail h
    rw [hd]
    exact runZlib_inverts 2147483648 rest avail (by decide) h
  have hcall := CompressBlock_first_attempt runZlib zeros 2147483648 zeros 100 6
    (by decide) (by rw [hd]) (by rw [hd]) (by rw [hd]) (by rw [hd]; decide)
  have hret : (CompressBlock runZlib zeros 2147483648 zeros 100 6).ret = .ok 30 := by
    rw [hcall, hd]
    decide
  have hatt : (CompressBlock runZlib zeros 2147483648 zeros 100 6).attempts.getLast?.map toU32
      = some 2147483648 := by
    rw [hcall]
    exact attempts_first 2147483648 (by decide)
  have hrt := block_round_trip runZlib zeros 2147483648 zeros 100 6 30 2147483648 zeros
    2147483648 (by decide) hret hatt (by rw [hd]; decide) hinv (le_refl _)
  refine ⟨by rw [hd], by rw [hd], by rw [hd], by rw [hd]; decide, hinv, hret, ?_, by decide⟩
  rw [hrt]
  decide

/-- C10 (as amended). Zero length: for `inputLength = 0`, when the engine
terminates the empty stream on the first attempt with `p` payload bytes,
`26 + p ≤ 65536`, and the inflate engine gives the empty sequence back from
that payload, the call returns `26 + p`, the header is the standard one with
`25 + p` in bytes 16 and 17, the ISIZE bytes are 0, the CRC bytes are those of
`crc32` of the empty sequence (0 when that value is 0), the length written
back is 0 and `UncompressBlock` on the block returns 0. When instead the engine
needs more output on the empty input, the call fails with "input reduction
failed" after that single attempt. -/
theorem C10_zero_length (z : Zlib) (ub : Mem) (cb : Mem) (cap : Nat) (lvl : Int)
    (out : Mem) (outLen : Nat) :
    ((z.deflate lvl [] (availOut cap)).initStatus = Z_OK →
      (z.deflate lvl [] (availOut cap)).status = Z_STREAM_END →
      (z.deflate lvl [] (availOut cap)).endStatus = Z_OK →
      (z.deflate lvl [] (availOut cap)).out.length + 26 ≤ 65536 →
      (∀ (rest : List Nat) (avail : Nat),
        z.inflate ((z.deflate lvl [] (availOut cap)).out ++ rest) avail
          = { initStatus := Z_OK, status := Z_STREAM_END, out := [], endStatus := Z_OK }) →
      (CompressBlock z ub 0 cb cap lvl).ret
        = .ok (26 + (((z.deflate lvl [] (availOut cap)).out.length : Nat) : Int)) ∧
      readBytes (CompressBlock z ub 0 cb cap lvl).compressedBlock 0 16
        = [31, 139, 8, 4, 0, 0, 0, 0, 0, 255, 6, 0, 66, 67, 2, 0] ∧
      (CompressBlock z ub 0 cb cap lvl).compressedBlock 16
        = (25 + (z.deflate lvl [] (availOut cap)).out.length) % 256 ∧
      (CompressBlock z ub 0 cb cap lvl).compressedBlock 17
        = (25 + (z.deflate lvl [] (availOut cap)).out.length) / 256 ∧
      (∀ i : Nat, i < 4 →
        (CompressBlock z ub 0 cb cap lvl).compressedBlock
          (26 + (((z.deflate lvl [] (availOut cap)).out.length : Nat) : Int) - 4 + (i : Int)) = 0) ∧
      (∀ i : Nat, i < 4 →
        (CompressBlock z ub 0 cb cap lvl).compressedBlock
          (26 + (((z.deflate lvl [] (availOut cap)).out.length : Nat) : Int) - 8 + (i : Int))
          = (z.crc32 z.crc32Null [] / 256 ^ i) % 256) ∧
      (z.crc32 z.crc32Null [] = 0 → ∀ i : Nat, i < 4 →
        (CompressBlock z ub 0 cb cap lvl).compressedBlock
          (26 + (((z.deflate lvl [] (availOut cap)).out.length : Nat) : Int) - 8 + (i : Int)) = 0) ∧
      (CompressBlock z ub 0 cb cap lvl).uncompressLen = 0 ∧
      (UncompressBlock z (CompressBlock z ub 0 cb cap lvl).compressedBlock
        (26 + (z.deflate lvl [] (availOut cap)).out.length) out outLen).ret = some 0) ∧
    ((z.deflate lvl [] (availOut cap)).initStatus = Z_OK →
      (z.deflate lvl [] (availOut cap)).status = Z_OK →
      (CompressBlock z ub 0 cb cap lvl).ret = .error .reductionFailed ∧
      (CompressBlock z ub 0 cb cap lvl).attempts = [0]) := by
  constructor
  · intro h1 h2 h3 hp hinv
    have hp31 : (((z.deflate lvl (readBytes ub 0 0) (availOut cap)).out.length : Nat) : Int) + 26
        < 2147483648 := by
      rw [readBytes_zero]
      omega
    have hN := wrap32_small _ hp31
    rw [readBytes_zero] at hN
    have hN26 : (26 : Int) ≤ 18 + (((z.deflate lvl [] (availOut cap)).out.length : Nat) : Int) + 8 := by
      omega
    have hN64 : 18 + (((z.deflate lvl [] (availOut cap)).out.length : Nat) : Int) + 8 ≤ 65536 := by
      omega
    have hcall := CompressBlock_first_attempt z ub 0 cb cap lvl (by omega)
      (by rw [readBytes_zero]; exact h1) (by rw [readBytes_zero]; exact h2)
      (by rw [readBytes_zero]; exact h3) (by rw [readBytes_zero, hN]; exact hN64)
    rw [readBytes_zero, hN] at hcall
    have hNeq : (26 : Int) + (((z.deflate lvl [] (availOut cap)).out.length : Nat) : Int)
        = 18 + (((z.deflate lvl [] (availOut cap)).out.length : Nat) : Int) + 8 := by omega
    have hret : (CompressBlock z ub 0 cb cap lvl).ret
        = .ok (18 + (((z.deflate lvl [] (availOut cap)).out.length : Nat) : Int) + 8) := by
      rw [hcall]
    have hatt : (CompressBlock z ub 0 cb cap lvl).attempts.getLast?.map toU32 = some 0 := by
      rw [hcall]
      exact attempts_first 0 (by omega)
    have hrt := block_round_trip z ub 0 cb cap lvl _ 0 out outLen (by omega) hret hatt hp31
      (by rw [readBytes_zero]; intro rest avail _; exact hinv rest avail) (Nat.zero_le _)
    have hlenU : toU32 (18 + (((z.deflate lvl [] (availOut cap)).out.length : Nat) : Int) + 8)
        = 26 + (z.deflate lvl [] (availOut cap)).out.length := by
      unfold toU32
      omega
    obtain ⟨hb0, hb1⟩ := size_bytes _ hN26 hN64
    have hcb : (CompressBlock z ub 0 cb cap lvl).compressedBlock
        = packBlock z ub (writeBytes (initHeader cb) 18 (z.deflate lvl [] (availOut cap)).out) 0
            (18 + (((z.deflate lvl [] (availOut cap)).out.length : Nat) : Int) + 8) := by
      rw [hcall]
    rw [hNeq]
    refine ⟨hret, ?_, ?_, ?_, ?_, ?_, ?_, by rw [hcall], ?_⟩
    · rw [← initHeader_bytes cb, hcb]
      apply readBytes_congr
      intro k hk
      rw [packBlock_low _ _ _ _ _ hN26 _ (by omega),
        writeBytes_apply_out _ _ _ _ (Or.inl (by omega))]
    · rw [hcb]
      have h5 := packBlock_size z ub
        (writeBytes (initHeader cb) 18 (z.deflate lvl [] (availOut cap)).out) 0 _ hN26 0 (by omega)
      rw [hb0] at h5
      rw [show ((16 : Int) = 16 + ((0 : Nat) : Int)) by norm_num, h5]
      omega
    · rw [hcb]
      have h5 := packBlock_size z ub
        (writeBytes (initHeader cb) 18 (z.deflate lvl [] (availOut cap)).out) 0 _ hN26 1 (by omega)
      rw [hb1] at h5
      rw [show ((17 : Int) = 16 + ((1 : Nat) : Int)) by norm_num, h5]
      omega
    · intro i hi
      rw [hcb, packBlock_isize _ _ _ _ _ _ hi]
      simp
    · intro i hi
      rw [hcb, packBlock_crc _ _ _ _ _ _ hi, readBytes_zero]
    · intro hcrc i hi
      rw [hcb, packBlock_crc _ _ _ _ _ _ hi, readBytes_zero, hcrc]
      simp
    · rw [hlenU] at hrt
      rw [hrt]
      rfl
  · intro h1 h2
    have h5 := CompressBlock_reduction z ub 0 cb cap lvl (by omega)
      (by rw [readBytes_zero]; exact h1) (by rw [readBytes_zero]; exact h2)
    exact h5

/-- C10 (as amended) with the storing engine: on an output capacity of 100 the
empty input gives a block of 30 bytes that decompresses to nothing; on an
output capacity of 29 the engine has no room and the call fails on its single
attempt. -/
theorem C10_zero_length_witness :
    ((CompressBlock storeZlib ramp 0 zeros 100 6).ret
        = .ok (26 + (((storeZlib.deflate 6 [] (availOut 100)).out.length : Nat) : Int)) ∧
      readBytes (CompressBlock storeZlib ramp 0 zeros 100 6).compressedBlock 0 16
        = [31, 139, 8, 4, 0, 0, 0, 0, 0, 255, 6, 0, 66, 67, 2, 0] ∧
      (CompressBlock storeZlib ramp 0 zeros 100 6).compressedBlock 16
        = (25 + (storeZlib.deflate 6 [] (availOut 100)).out.length) % 256 ∧
      (CompressBlock storeZlib ramp 0 zeros 100 6).compressedBlock 17
        = (25 + (storeZlib.deflate 6 [] (availOut 100)).out.length) / 256 ∧
      (∀ i : Nat, i < 4 →
        (CompressBlock storeZlib ramp 0 zeros 100 6).compressedBlock
          (26 + (((storeZlib.deflate 6 [] (availOut 100)).out.length : Nat) : Int) - 4 + (i : Int)) = 0) ∧
      (∀ i : Nat, i < 4 →
        (CompressBlock storeZlib ramp 0 zeros 100 6).compressedBlock
          (26 + (((storeZlib.deflate 6 [] (availOut 100)).out.length : Nat) : Int) - 8 + (i : Int))
          = (storeZlib.crc32 storeZlib.crc32Null [] / 256 ^ i) % 256) ∧
      (storeZlib.crc32 storeZlib.crc32Null [] = 0 → ∀ i : Nat, i < 4 →
        (CompressBlock storeZlib ramp 0 zeros 100 6).compressedBlock
          (26 + (((storeZlib.deflate 6 [] (availOut 100)).out.length : Nat) : Int) - 8 + (i : Int)) = 0) ∧
      (CompressBlock storeZlib ramp 0 zeros 100 6).uncompressLen = 0 ∧
      (UncompressBlock storeZlib (CompressBlock storeZlib ramp 0 zeros 100 6).compressedBlock
        (26 + (storeZlib.deflate 6 [] (availOut 100)).out.length) zeros 10).ret = some 0) ∧
    ((CompressBlock storeZlib ramp 0 zeros 29 6).ret = .error .reductionFailed ∧
      (CompressBlock storeZlib ramp 0 zeros 29 6).attempts = [0]) :=
  ⟨(C10_zero_length storeZlib ramp zeros 100 6 zeros 10).1 (by decide) (by decide) (by decide)
      (by decide)
      (fun rest avail => storeZlib_inverts 6 [] (availOut 100) rest avail (by decide) (by decide)
        (Nat.zero_le _)),
   (C10_zero_length storeZlib ramp zeros 29 6 zeros 10).2 (by decide) (by decide)⟩

/-- C10 as stated fails: with an output capacity of 70000 the padding engine
terminates the empty stream on the first attempt with `p = 65511` payload
bytes, within the space it is offered, and the call does not return `26 + p`
but fails with "deflate overflow". -/
theorem C10_counterexample :
    (padZlib.deflate 6 [] (availOut 70000)).initStatus = Z_OK ∧
    (padZlib.deflate 6 [] (availOut 70000)).status = Z_STREAM_END ∧
    (padZlib.deflate 6 [] (availOut 70000)).endStatus = Z_OK ∧
    (padZlib.deflate 6 [] (availOut 70000)).out.length = 65511 ∧
    (padZlib.deflate 6 [] (availOut 70000)).out.length ≤ availOut 70000 ∧
    (∀ (rest : List Nat) (avail : Nat),
      padZlib.inflate ((padZlib.deflate 6 [] (availOut 70000)).out ++ rest) avail
        = { initStatus := Z_OK, status := Z_STREAM_END, out := [], endStatus := Z_OK }) ∧
    (CompressBlock padZlib zeros 0 zeros 70000 6).ret = .error .overflow := by
  have hlen : (padZlib.deflate 6 [] (availOut 70000)).out.length = 65511 :=
    List.length_replicate 65511 0
  refine ⟨rfl, rfl, rfl, hlen, by rw [hlen]; decide, fun _ _ => rfl, ?_⟩
  exact CompressBlock_overflow padZlib zeros 0 zeros 70000 6 (by decide) rfl rfl rfl
    (by rw [readBytes_zero, hlen]; decide)

/-- C8, the code at an output capacity of 0 with an empty input and the storing
engine: the output space offered to the engine is 4294967270 bytes, not at most
0, and the call does not fail: it returns 30 after writing the 30 bytes of a
block at the indices 0 to 29 of the output buffer. -/
theorem C8_small_capacity_run :
    availOut 0 = 4294967270 ∧ ¬ (availOut 0 ≤ 0) ∧
    (CompressBlock storeZlib zeros 0 zeros 0 6).ret = .ok 30 ∧
    readBytes (CompressBlock storeZlib zeros 0 zeros 0 6).compressedBlock 0 30
      = [31, 139, 8, 4, 0, 0, 0, 0, 0, 255, 6, 0, 66, 67, 2, 0, 29, 0,
         0, 0, 0, 0, 0, 0, 0, 0, 0, 0, 0, 0] ∧
    (CompressBlock storeZlib zeros 0 zeros 0 6).compressedBlock 0 ≠ zeros 0 := by
  decide

/-- The length a successful call writes back is at most the length it was
given. -/
theorem uncompressLen_le (z : Zlib) (ub : Mem) (L : Nat) (cb : Mem) (cap : Nat) (lvl : Int)
    (N : Int) (hL : L < 4294967296) (h : (CompressBlock z ub L cb cap lvl).ret = .ok N) :
    (CompressBlock z ub L cb cap lvl).uncompressLen ≤ L := by
  obtain ⟨c, prev, _, _, _, _, _, hlen, _⟩ := CompressBlock_success z ub L cb cap lvl N hL h
  rw [hlen]
  exact Nat.sub_le _ _

/-- Remainder chaining, for fewer than 2^31 bytes in all (lengths that the
`int inputLength` holds): when a sequence of calls, each given what the
previous call left at the front of the buffer followed by a fresh chunk, goes
through, the consumed prefixes of the calls in order followed by the final
remainder are the bytes supplied (the initial remainder and all the chunks);
each block decompresses to the prefix its call consumed, for an engine that
stays within the output space and whose inflate side inverts it, at an output
capacity from 26 to `2^31 - 1`; and for a single successful call on fewer than
2^31 bytes the consumed prefix followed by the new front of the buffer is the
input. -/
theorem chaining_in_range (z : Zlib) (lvl : Int) (cap : Nat) :
    (∀ (chunks : List (List Nat)) (ub : Mem) (len : Nat) (cb : Mem) (steps : List ChainStep)
        (ubF : Mem) (lenF : Nat),
      len + chunks.flatten.length < 2147483648 →
      chain z lvl cap chunks ub len cb = some (steps, ubF, lenF) →
      (steps.map ChainStep.consumed).flatten ++ readBytes ubF 0 lenF
        = readBytes ub 0 len ++ chunks.flatten ∧
      steps.length = chunks.length ∧
      (26 ≤ cap → cap < 2147483648 →
        (∀ input : List Nat, (z.deflate lvl input (availOut cap)).out.length ≤ availOut cap) →
        (∀ (input rest : List Nat) (avail : Nat),
          (z.deflate lvl input (availOut cap)).status = Z_STREAM_END → input.length ≤ avail →
          z.inflate ((z.deflate lvl input (availOut cap)).out ++ rest) avail
            = { initStatus := Z_OK, status := Z_STREAM_END, out := input, endStatus := Z_OK }) →
        ∀ s ∈ steps, ∀ (out : Mem) (outLen : Nat), s.consumed.length ≤ outLen →
          UncompressBlock z s.block (toU32 s.blockLen) out outLen
            = { ret := some (wrap32 (s.consumed.length : Int)),
                uncompressedBlock := writeBytes out 0 s.consumed })) ∧
    (∀ (ub : Mem) (L : Nat) (cb : Mem) (N : Int), L < 2147483648 →
      (CompressBlock z ub L cb cap lvl).ret = .ok N →
      readBytes ub 0 (L - (CompressBlock z ub L cb cap lvl).uncompressLen)
        ++ readBytes (CompressBlock z ub L cb cap lvl).uncompressedBlock 0
            (CompressBlock z ub L cb cap lvl).uncompressLen
        = readBytes ub 0 L) := by
  refine ⟨?_, fun ub L cb N hL h => call_conservation z ub L cb cap lvl N hL h⟩
  intro chunks
  induction chunks with
  | nil =>
    intro ub len cb steps ubF lenF _ h
    rw [chain] at h
    have h1 := Option.some.inj h
    simp only [Prod.mk.injEq] at h1
    obtain ⟨hs, hu, hl⟩ := h1
    rw [← hs, ← hu, ← hl]
    refine ⟨by simp, rfl, ?_⟩
    intro _ _ _ _ s hs2
    exact absurd hs2 (List.not_mem_nil s)
  | cons chunk rest ih =>
    intro ub len cb steps ubF lenF htot h
    rw [List.flatten_cons, List.length_append] at htot
    have hlt31 : len + chunk.length < 2147483648 := by omega
    have htot2 : len + chunk.length + rest.flatten.length < 2147483648 := by omega
    obtain ⟨hlt, N, steps1, ubF1, lenF1, hret, hrest, hres⟩ :=
      chain_cons z lvl cap chunk rest ub len cb _ h
    simp only [Prod.mk.injEq] at hres
    obtain ⟨hs, hu, hl⟩ := hres
    obtain ⟨ih1, ih2, ih3⟩ := ih _ _ _ _ _ _
      (Nat.lt_of_le_of_lt (Nat.add_le_add_right (uncompressLen_le z _ _ cb cap lvl N hlt hret) _)
        htot2) hrest
    have hcons := call_conservation z (writeBytes ub len chunk) (len + chunk.length) cb cap lvl N
      hlt31 hret
    rw [hs, hu, hl]
    refine ⟨?_, ?_, ?_⟩
    · rw [List.map_cons, List.flatten_cons, List.append_assoc, ih1, ← List.append_assoc, hcons,
        readBytes_append_chunk, List.flatten_cons, List.append_assoc]
    · rw [List.length_cons, List.length_cons, ih2]
    · intro hc1 hc2 hresp hinv s hs2 out outLen hout
      rcases List.mem_cons.mp hs2 with hs3 | hs3
      · rw [hs3] at hout ⊢
        have h5 := step_decompress z (writeBytes ub len chunk) (len + chunk.length) cb cap lvl N
          out outLen hlt hret hc1 hc2 hresp hinv
          (by rw [readBytes_length] at hout; exact hout)
        rw [readBytes_length]
        exact h5
      · exact ih3 hc1 hc2 hresp hinv s hs3 out outLen hout

/-- The chunks 1, 2, 3 and 4, 5 given to an empty buffer, with the storing
engine and an output capacity of 100. -/
theorem chainExample :
    ∃ (steps : List ChainStep) (ubF : Mem) (lenF : Nat),
      chain storeZlib 6 100 [[1, 2, 3], [4, 5]] zeros 0 zeros = some (steps, ubF, lenF) ∧
      (steps.map ChainStep.consumed).flatten ++ readBytes ubF 0 lenF
        = readBytes zeros 0 0 ++ [[1, 2, 3], [4, 5]].flatten ∧
      steps.length = [[1, 2, 3], [4, 5]].length ∧
      (∀ s ∈ steps, ∀ (out : Mem) (outLen : Nat), s.consumed.length ≤ outLen →
        UncompressBlock storeZlib s.block (toU32 s.blockLen) out outLen
          = { ret := some (wrap32 (s.consumed.length : Int)),
              uncompressedBlock := writeBytes out 0 s.consumed }) := by
  have hs : (chain storeZlib 6 100 [[1, 2, 3], [4, 5]] zeros 0 zeros).isSome = true := by decide
  obtain ⟨res, hres⟩ := Option.isSome_iff_exists.mp hs
  obtain ⟨steps, ubF, lenF⟩ := res
  have h := (chaining_in_range storeZlib 6 100).1 [[1, 2, 3], [4, 5]] zeros 0 zeros steps ubF lenF
    (by decide) hres
  exact ⟨steps, ubF, lenF, hres, h.1, h.2.1,
    h.2.2 (by decide) (by decide) (fun input => storeZlib_respects 6 input (availOut 100))
      (fun input rest avail hend hav =>
        storeZlib_inverts_end 6 input (availOut 100) rest avail (by decide) hend hav)⟩

/-! ## Termination of the loop -/

/-- Enough fuel gives the result of the loop: with one pass for each 1024 bytes
of `inputLength`, and one more, the fuel is never used up. -/
theorem compressLoopFuel_enough (z : Zlib) (lvl : Int) (ub : Mem) (cap : Nat) :
    ∀ (fuel : Nat) (buf : Mem) (x : Int), loopMeasure x / 1024 + 1 ≤ fuel →
      compressLoopFuel z lvl ub cap fuel buf x = compressLoop z lvl ub cap buf x := by
  intro fuel buf x h
  exact compressLoopFuel_indep z lvl ub cap _ _ buf x h (le_refl _)

theorem loopMeasure_natCast {L : Nat} (hL : L < 2147483648) : loopMeasure (L : Int) = L := by
  unfold loopMeasure wrap32
  split_ifs with h
  · omega
  · omega

theorem range_shift (x : Int) (k : Nat) :
    x :: (List.range (k + 1)).map (fun (i : Nat) => x - 1024 - 1024 * (i : Int))
      = (List.range (k + 1 + 1)).map (fun (i : Nat) => x - 1024 * (i : Int)) := by
  rw [List.range_succ_eq_map (k + 1), List.map_cons, List.map_map]
  congr 1
  · simp
  · apply List.map_congr_left
    intro i _
    simp only [Function.comp_apply]
    push_cast
    ring

theorem range_single (x : Int) :
    [x] = (List.range (0 + 1)).map (fun (i : Nat) => x - 1024 * (i : Int)) := by
  simp [List.range_succ]

/-- The attempted lengths of the loop entered with `0 ≤ x < 2^31` are `x`,
`x - 1024`, ..., `x - 1024 k`, for a number `k` of retries with `1024 k ≤ x`. -/
theorem compressLoop_attempts (z : Zlib) (lvl : Int) (ub : Mem) (cap : Nat) :
    ∀ (n : Nat) (buf : Mem) (x : Int), loopMeasure x = n → 0 ≤ x → x < 2147483648 →
      ∃ k : Nat, 1024 * (k : Int) ≤ x ∧
        (compressLoop z lvl ub cap buf x).attempts
          = (List.range (k + 1)).map (fun (i : Nat) => x - 1024 * (i : Int)) := by
  intro n
  induction n using Nat.strong_induction_on with
  | _ n ih =>
    intro buf x hx hx0 hx1
    have hw := retry_exact x hx0 hx1
    rw [compressLoop_unfold]
    simp only []
    rw [hw]
    split_ifs with h1 h2 h3 h4 h5 h6
    · exact ⟨0, by omega, range_single x⟩
    · exact ⟨0, by omega, range_single x⟩
    · have hdec := loopMeasure_decreases x (by rw [hw]; exact h4)
      rw [hw] at hdec
      obtain ⟨k, hk, hatt⟩ := ih _ (by rw [← hx]; exact hdec)
        (writeBytes buf BLOCK_HEADER_LENGTH
          (z.deflate lvl (readBytes ub 0 (toU32 x)) (availOut cap)).out) (x - 1024) rfl
          (by omega) (by omega)
      refine ⟨k + 1, by push_cast; omega, ?_⟩
      show x :: (compressLoop z lvl ub cap _ (x - 1024)).attempts = _
      rw [hatt, range_shift]
    · exact ⟨0, by omega, range_single x⟩
    · exact ⟨0, by omega, range_single x⟩
    · exact ⟨0, by omega, range_single x⟩
    · exact ⟨0, by omega, range_single x⟩

/-! ## The attempts one by one -/

/-- The loop entered with `x` attempts `x` first. -/
theorem compressLoop_attempts_head (z : Zlib) (lvl : Int) (ub : Mem) (cap : Nat) (buf : Mem)
    (x : Int) : ∃ t : List Int, (compressLoop z lvl ub cap buf x).attempts = x :: t := by
  rw [compressLoop_unfold]
  simp only []
  split_ifs
  all_goals exact ⟨_, rfl⟩

/-- An attempt that is not followed by a retry is the only pass. -/
theorem compressLoop_attempts_single (z : Zlib) (lvl : Int) (ub : Mem) (cap : Nat) (buf : Mem)
    (x : Int)
    (h : ¬ ((z.deflate lvl (readBytes ub 0 (toU32 x)) (availOut cap)).initStatus = Z_OK ∧
      (z.deflate lvl (readBytes ub 0 (toU32 x)) (availOut cap)).status = Z_OK ∧
      ¬ wrap32 (x - 1024) < 0)) :
    (compressLoop z lvl ub cap buf x).attempts = [x] := by
  rw [compressLoop_unfold]
  simp only []
  split_ifs with h1 h2 h3 h4 h5 h6
  · rfl
  · rfl
  · exact absurd ⟨not_not.mp h1, h3, h4⟩ h
  · rfl
  · rfl
  · rfl
  · rfl

/-- Every attempt of the loop is the entry of a loop with the same outcome. -/
theorem compressLoop_from_attempt (z : Zlib) (lvl : Int) (ub : Mem) (cap : Nat) :
    ∀ (n : Nat) (buf : Mem) (x a : Int), loopMeasure x = n →
      a ∈ (compressLoop z lvl ub cap buf x).attempts →
      ∃ (pre : List Int) (buf1 : Mem),
        (compressLoop z lvl ub cap buf x).attempts
          = pre ++ (compressLoop z lvl ub cap buf1 a).attempts ∧
        (compressLoop z lvl ub cap buf x).ret = (compressLoop z lvl ub cap buf1 a).ret := by
  intro n
  induction n using Nat.strong_induction_on with
  | _ n ih =>
    intro buf x a hx ha
    by_cases hretry : (z.deflate lvl (readBytes ub 0 (toU32 x)) (availOut cap)).initStatus = Z_OK ∧
      (z.deflate lvl (readBytes ub 0 (toU32 x)) (availOut cap)).status = Z_OK ∧
      ¬ wrap32 (x - 1024) < 0
    · obtain ⟨h1, h2, h3⟩ := hretry
      have hl := compressLoop_retry z lvl ub cap buf x h1 h2
      rw [if_neg h3] at hl
      rw [hl] at ha
      rcases List.mem_cons.mp ha with hax | har
      · rw [hax]
        exact ⟨[], buf, rfl, rfl⟩
      · obtain ⟨pre, buf1, h5, h6⟩ :=
          ih _ (by rw [← hx]; exact loopMeasure_decreases x h3) _ _ a rfl har
        refine ⟨x :: pre, buf1, ?_, ?_⟩
        · rw [hl]
          show x :: _ = x :: pre ++ _
          rw [h5]
          rfl
        · rw [hl]
          exact h6
    · rw [compressLoop_attempts_single z lvl ub cap buf x hretry] at ha
      rw [List.mem_singleton.mp ha]
      exact ⟨[], buf, rfl, rfl⟩

/-- One pass through the body of the loop that ends the call in a failure. -/
theorem compressLoop_step_fail (z : Zlib) (lvl : Int) (ub : Mem) (cap : Nat) (buf : Mem) (x : Int) :
    ((z.deflate lvl (readBytes ub 0 (toU32 x)) (availOut cap)).initStatus ≠ Z_OK →
      (compressLoop z lvl ub cap buf x).ret = .error .initFailed ∧
      (compressLoop z lvl ub cap buf x).attempts = [x]) ∧
    ((z.deflate lvl (readBytes ub 0 (toU32 x)) (availOut cap)).initStatus = Z_OK →
      (z.deflate lvl (readBytes ub 0 (toU32 x)) (availOut cap)).status = Z_OK →
      wrap32 (x - 1024) < 0 →
      (compressLoop z lvl ub cap buf x).ret = .error .reductionFailed ∧
      (compressLoop z lvl ub cap buf x).attempts = [x]) ∧
    ((z.deflate lvl (readBytes ub 0 (toU32 x)) (availOut cap)).initStatus = Z_OK →
      (z.deflate lvl (readBytes ub 0 (toU32 x)) (availOut cap)).status ≠ Z_STREAM_END →
      (z.deflate lvl (readBytes ub 0 (toU32 x)) (availOut cap)).status ≠ Z_OK →
      (compressLoop z lvl ub cap buf x).ret = .error .deflateFailed ∧
      (compressLoop z lvl ub cap buf x).attempts = [x]) ∧
    ((z.deflate lvl (readBytes ub 0 (toU32 x)) (availOut cap)).initStatus = Z_OK →
      (z.deflate lvl (readBytes ub 0 (toU32 x)) (availOut cap)).status = Z_STREAM_END →
      (z.deflate lvl (readBytes ub 0 (toU32 x)) (availOut cap)).endStatus ≠ Z_OK →
      (compressLoop z lvl ub cap buf x).ret = .error .endFailed ∧
      (compressLoop z lvl ub cap buf x).attempts = [x]) ∧
    ((z.deflate lvl (readBytes ub 0 (toU32 x)) (availOut cap)).initStatus = Z_OK →
      (z.deflate lvl (readBytes ub 0 (toU32 x)) (availOut cap)).status = Z_STREAM_END →
      (z.deflate lvl (readBytes ub 0 (toU32 x)) (availOut cap)).endStatus = Z_OK →
      wrap32 (wrap32 ((z.deflate lvl (readBytes ub 0 (toU32 x))
          (availOut cap)).out.length : Int) + 26) > 65536 →
      (compressLoop z lvl ub cap buf x).ret = .error .overflow ∧
      (compressLoop z lvl ub cap buf x).attempts = [x]) := by
  have hu := compressLoop_unfold z lvl ub cap buf x
  simp only [] at hu
  refine ⟨?_, ?_, ?_, ?_, ?_⟩
  · intro h1
    rw [if_pos h1] at hu
    rw [hu]
    exact ⟨rfl, rfl⟩
  · intro h1 h2 h3
    rw [compressLoop_retry z lvl ub cap buf x h1 h2, if_pos h3]
    exact ⟨rfl, rfl⟩
  · intro h1 h2 h3
    rw [if_neg (not_not.mpr h1), if_pos h2, if_neg h3] at hu
    rw [hu]
    exact ⟨rfl, rfl⟩
  · intro h1 h2 h3
    rw [if_neg (not_not.mpr h1), if_neg (not_not.mpr h2), if_pos h3] at hu
    rw [hu]
    exact ⟨rfl, rfl⟩
  · intro h1 h2 h3 h4
    have h5 : wrap32 (wrap32
        ((z.deflate lvl (readBytes ub 0 (toU32 x)) (availOut cap)).out.length : Int) +
        (BLOCK_HEADER_LENGTH + BLOCK_FOOTER_LENGTH))
        > MAX_BLOCK_SIZE := h4
    rw [if_neg (not_not.mpr h1), if_neg (not_not.mpr h2), if_neg (not_not.mpr h3), if_pos h5] at hu
    rw [hu]
    exact ⟨rfl, rfl⟩

/-- A call whose loop ends in a failure on the attempt `n` fails with it, and
`n` is its last attempt. -/
theorem call_fails_at (z : Zlib) (ub : Mem) (L : Nat) (cb : Mem) (cap : Nat) (lvl : Int)
    (pre : List Int) (buf1 : Mem) (n : Int) (e : CompressError)
    (hatt : (compressLoop z lvl ub cap (initHeader cb) (wrap32 (L : Int))).attempts
      = pre ++ (compressLoop z lvl ub cap buf1 n).attempts)
    (hret : (compressLoop z lvl ub cap (initHeader cb) (wrap32 (L : Int))).ret
      = (compressLoop z lvl ub cap buf1 n).ret)
    (hstep : (compressLoop z lvl ub cap buf1 n).ret = .error e ∧
      (compressLoop z lvl ub cap buf1 n).attempts = [n]) :
    (CompressBlock z ub L cb cap lvl).ret = .error e ∧
      (CompressBlock z ub L cb cap lvl).attempts.getLast? = some n := by
  rw [hstep.2] at hatt
  rw [hstep.1] at hret
  rw [CompressBlock_eq, finishBlock_attempts, hatt, finishBlock_error z ub L _ e hret]
  exact ⟨rfl, List.getLast?_concat pre⟩

/-- The record of the attempts of the call on 2048 bytes. -/
theorem shrinkExample_call_attempts :
    (CompressBlock storeZlib ramp 2048 zeros 1054 6).attempts = [2048, 1024] := by
  rw [CompressBlock_eq, finishBlock_attempts]
  exact (shrinkExample_loop _ _).2

/-- C14. Termination of shrink-and-retry: for `0 ≤ L < 2^31` and every engine,
the loop of `CompressBlock` makes the attempts `L, L - 1024, ..., L - 1024 k`
for a number `k ≤ L / 1024` of retries, each 1024 below the one before and at
most `L / 1024 + 1` in all, and then ends, in a block length or in a failure:
the call is total, and with any allowance of at least `L / 1024 + 1` passes
through the loop body it has the same result. -/
theorem C14_termination (z : Zlib) (ub : Mem) (L : Nat) (cb : Mem) (cap : Nat) (lvl : Int)
    (hL : L < 2147483648) :
    (∃ k : Nat, k ≤ L / 1024 ∧
      (CompressBlock z ub L cb cap lvl).attempts
        = (List.range (k + 1)).map (fun (i : Nat) => (L : Int) - 1024 * (i : Int)) ∧
      (CompressBlock z ub L cb cap lvl).attempts.length = k + 1) ∧
    (∀ fuel : Nat, L / 1024 + 1 ≤ fuel →
      finishBlock z ub L
          (compressLoopFuel z lvl ub cap fuel (initHeader cb) (wrap32 (L : Int)))
        = (CompressBlock z ub L cb cap lvl)) ∧
    ((∃ N : Int, (CompressBlock z ub L cb cap lvl).ret = .ok N) ∨
      (∃ e : CompressError, (CompressBlock z ub L cb cap lvl).ret = .error e)) := by
  have hw : wrap32 (L : Int) = L := wrap32_natCast hL
  refine ⟨?_, ?_, ?_⟩
  · obtain ⟨k, hk, hatt⟩ := compressLoop_attempts z lvl ub cap _ (initHeader cb) (L : Int) rfl
      (by omega) (by omega)
    refine ⟨k, by omega, ?_, ?_⟩
    · rw [CompressBlock_eq, finishBlock_attempts, hw, hatt]
    · rw [CompressBlock_eq, finishBlock_attempts, hw, hatt, List.length_map, List.length_range]
  · intro fuel hfuel
    rw [CompressBlock_eq, hw, compressLoopFuel_enough z lvl ub cap fuel _ _
      (by rw [loopMeasure_natCast hL]; exact hfuel)]
  · cases h : (CompressBlock z ub L cb cap lvl).ret with
    | ok N => exact Or.inl ⟨N, rfl⟩
    | error e => exact Or.inr ⟨e, rfl⟩

/-- C14 on 2048 bytes and an output capacity of 1054 with the storing engine,
where the loop makes one retry. -/
theorem C14_termination_witness :
    (∃ k : Nat, k ≤ 2048 / 1024 ∧
      (CompressBlock storeZlib ramp 2048 zeros 1054 6).attempts
        = (List.range (k + 1)).map (fun (i : Nat) => ((2048 : Nat) : Int) - 1024 * (i : Int)) ∧
      (CompressBlock storeZlib ramp 2048 zeros 1054 6).attempts.length = k + 1) ∧
    (∀ fuel : Nat, 2048 / 1024 + 1 ≤ fuel →
      finishBlock storeZlib ramp 2048
          (compressLoopFuel storeZlib 6 ramp 1054 fuel (initHeader zeros)
            (wrap32 ((2048 : Nat) : Int)))
        = CompressBlock storeZlib ramp 2048 zeros 1054 6) ∧
    ((∃ N : Int, (CompressBlock storeZlib ramp 2048 zeros 1054 6).ret = .ok N) ∨
      (∃ e : CompressError, (CompressBlock storeZlib ramp 2048 zeros 1054 6).ret = .error e)) :=
  C14_termination storeZlib ramp 2048 zeros 1054 6 (by decide)

/-- Retry versus fatal failure: on each attempt of a call, with attempted
length `n` as the `int inputLength` holds it, when the engine reports that it
needs more output (`Z_OK` from `deflate`), the next attempt is on `n - 1024` if
`1024 ≤ n` and the call fails with "input reduction failed" if `0 ≤ n < 1024`;
when initialisation fails, or `deflate` reports a status other than `Z_OK` and
`Z_STREAM_END`, or `deflateEnd` fails after `deflate` has reported
`Z_STREAM_END`, the call fails with the message of that exit; in each failure
`n` is the last attempt of the call. -/
theorem retry_or_fail_in_range (z : Zlib) (ub : Mem) (L : Nat) (cb : Mem) (cap : Nat)
    (lvl : Int) (n : Int) (hn1 : n < 2147483648)
    (hn : n ∈ (CompressBlock z ub L cb cap lvl).attempts) :
    ((z.deflate lvl (readBytes ub 0 (toU32 n)) (availOut cap)).initStatus = Z_OK →
      (z.deflate lvl (readBytes ub 0 (toU32 n)) (availOut cap)).status = Z_OK →
      1024 ≤ n →
      ∃ pre post : List Int,
        (CompressBlock z ub L cb cap lvl).attempts = pre ++ n :: (n - 1024) :: post) ∧
    ((z.deflate lvl (readBytes ub 0 (toU32 n)) (availOut cap)).initStatus = Z_OK →
      (z.deflate lvl (readBytes ub 0 (toU32 n)) (availOut cap)).status = Z_OK →
      0 ≤ n → n < 1024 →
      (CompressBlock z ub L cb cap lvl).ret = .error .reductionFailed ∧
        (CompressBlock z ub L cb cap lvl).attempts.getLast? = some n) ∧
    ((z.deflate lvl (readBytes ub 0 (toU32 n)) (availOut cap)).initStatus ≠ Z_OK →
      (CompressBlock z ub L cb cap lvl).ret = .error .initFailed ∧
        (CompressBlock z ub L cb cap lvl).attempts.getLast? = some n) ∧
    ((z.deflate lvl (readBytes ub 0 (toU32 n)) (availOut cap)).initStatus = Z_OK →
      (z.deflate lvl (readBytes ub 0 (toU32 n)) (availOut cap)).status ≠ Z_STREAM_END →
      (z.deflate lvl (readBytes ub 0 (toU32 n)) (availOut cap)).status ≠ Z_OK →
      (CompressBlock z ub L cb cap lvl).ret = .error .deflateFailed ∧
        (CompressBlock z ub L cb cap lvl).attempts.getLast? = some n) ∧
    ((z.deflate lvl (readBytes ub 0 (toU32 n)) (availOut cap)).initStatus = Z_OK →
      (z.deflate lvl (readBytes ub 0 (toU32 n)) (availOut cap)).status = Z_STREAM_END →
      (z.deflate lvl (readBytes ub 0 (toU32 n)) (availOut cap)).endStatus ≠ Z_OK →
      (CompressBlock z ub L cb cap lvl).ret = .error .endFailed ∧
        (CompressBlock z ub L cb cap lvl).attempts.getLast? = some n) := by
  rw [CompressBlock_eq, finishBlock_attempts] at hn
  obtain ⟨pre, buf1, hatt, hret⟩ := compressLoop_from_attempt z lvl ub cap _ _ _ n rfl hn
  obtain ⟨s1, s2, s3, s4, _⟩ := compressLoop_step_fail z lvl ub cap buf1 n
  refine ⟨?_, ?_, ?_, ?_, ?_⟩
  · intro h1 h2 h3
    have hw := retry_exact n (by omega) hn1
    have hl := compressLoop_retry z lvl ub cap buf1 n h1 h2
    rw [hw, if_neg (by omega)] at hl
    obtain ⟨t, ht⟩ := compressLoop_attempts_head z lvl ub cap
      (writeBytes buf1 18 (z.deflate lvl (readBytes ub 0 (toU32 n)) (availOut cap)).out) (n - 1024)
    rw [hl] at hatt
    refine ⟨pre, t, ?_⟩
    rw [CompressBlock_eq, finishBlock_attempts, hatt]
    show pre ++ n :: _ = _
    rw [ht]
  · intro h1 h2 h0 h3
    exact call_fails_at z ub L cb cap lvl pre buf1 n _ hatt hret
      (s2 h1 h2 (by rw [retry_exact n h0 hn1]; omega))
  · intro h1
    exact call_fails_at z ub L cb cap lvl pre buf1 n _ hatt hret (s1 h1)
  · intro h1 h2 h3
    exact call_fails_at z ub L cb cap lvl pre buf1 n _ hatt hret (s3 h1 h2 h3)
  · intro h1 h2 h3
    exact call_fails_at z ub L cb cap lvl pre buf1 n _ hatt hret (s4 h1 h2 h3)

/-! ## The shift of the remainder -/

/-- With the source wholly after the destination, the forward copy gives the
buffer of the overlap-safe move. -/
theorem memcpy_eq_overlapSafeMove (m : Mem) (dst src : Int) (n : Nat)
    (hsep : dst + (n : Int) ≤ src) : memcpy m dst src n = overlapSafeMove m dst src n := by
  funext j
  rw [memcpy_apply m dst src n hsep j]
  unfold overlapSafeMove
  by_cases hj : dst ≤ j ∧ j < dst + (n : Int)
  · rw [if_pos hj]
    obtain ⟨k, hk⟩ : ∃ k : Nat, j = dst + (k : Int) := ⟨(j - dst).toNat, by omega⟩
    rw [hk, writeBytes_apply_in _ _ _ _ (by rw [readBytes_length]; omega), readBytes_getElem]
    congr 1
    omega
  · rw [if_neg hj, writeBytes_apply_out _ _ _ _ (by rw [readBytes_length]; omega)]

/-- The copy of line 103 is recorded only where the tail of the call makes it,
on the way to a successful return: the remainder `r` is positive and at most
the consumed length `c`, and the uncompressed buffer after the call is the
forward copy of `r` bytes from the offset `c` to the front. -/
theorem finishBlock_shift (z : Zlib) (ub : Mem) (L : Nat) (l : LoopResult) (c r : Int)
    (h : (finishBlock z ub L l).shift = some (c, r)) :
    0 < r ∧ r ≤ c ∧ (finishBlock z ub L l).uncompressedBlock = memcpy ub 0 c r.toNat ∧
    ∃ N : Int, (finishBlock z ub L l).ret = .ok N := by
  cases hl : l.ret with
  | error e =>
    rw [finishBlock_error z ub L l e hl] at h
    exact absurd h (by simp)
  | ok p =>
    obtain ⟨ci, N⟩ := p
    rw [finishBlock_ok z ub L l ci N hl] at h ⊢
    split_ifs at h ⊢ with h1 h2
    have h3 : (ci, wrap32 ((toU32 ((L : Int) - ci) : Nat) : Int)) = (c, r) := Option.some.inj h
    obtain ⟨hc, hr⟩ := Prod.mk.inj h3
    rw [← hc, ← hr]
    refine ⟨h1, not_lt.mp h2, ?_, N, ?_⟩
    · simp only []
    · simp only []

theorem shift_sum (c1 L : Nat) (h : c1 ≤ L) : (c1 : Int) + ((L - c1 : Nat) : Int) = L := by
  omega

/-- C16. The remainder shift is overlap-safe: whenever a call makes the copy of
line 103, of `r` bytes from the offset `c` of the uncompressed buffer to its
front, `c` is the length of the last attempt (the bytes consumed), `r` is the
length written back, `c + r = L` (the `r` bytes are the unconsumed tail) and
`0 < r ≤ c`, so the source range `[c, c + r)` and the destination range
`[0, r)` have no offset in common; the uncompressed buffer after the call is
the forward copy of those `r` bytes, and that is the buffer an overlap-safe
move of the same bytes gives. -/
theorem C16_shift_overlap_safe (z : Zlib) (ub : Mem) (L : Nat) (cb : Mem) (cap : Nat) (lvl : Int)
    (c r : Int) (hL : L < 4294967296)
    (h : (CompressBlock z ub L cb cap lvl).shift = some (c, r)) :
    (CompressBlock z ub L cb cap lvl).attempts.getLast?.map toU32 = some c.toNat ∧
    (CompressBlock z ub L cb cap lvl).uncompressLen = r.toNat ∧
    c + r = L ∧ 0 < r ∧ r ≤ c ∧
    (∀ i j : Int, c ≤ i → i < c + r → 0 ≤ j → j < r → i ≠ j) ∧
    (CompressBlock z ub L cb cap lvl).uncompressedBlock = memcpy ub 0 c r.toNat ∧
    memcpy ub 0 c r.toNat = overlapSafeMove ub 0 c r.toNat := by
  have hfin := h
  rw [CompressBlock_eq] at hfin
  obtain ⟨h1, h2, h3, N, hN⟩ := finishBlock_shift z ub L _ c r hfin
  rw [← CompressBlock_eq] at h3 hN
  obtain ⟨c1, prev, hcase, _, hatt, _, _, hlen, _, hsh⟩ :=
    CompressBlock_success z ub L cb cap lvl N hL hN
  have hcL : c1 ≤ L := by
    rcases hcase with hcase | ⟨k, _, hk, _, _⟩
    · omega
    · omega
  rw [h] at hsh
  split_ifs at hsh with hcond
  obtain ⟨hc, hr⟩ := Prod.mk.inj (Option.some.inj hsh)
  refine ⟨?_, ?_, ?_, h1, h2, ?_, h3, ?_⟩
  · rw [hatt, hc, Int.toNat_natCast]
  · rw [hlen, hr, Int.toNat_natCast]
  · rw [hc, hr]
    exact shift_sum c1 L hcL
  · intro i j hi1 _ _ hj2
    omega
  · exact memcpy_eq_overlapSafeMove ub 0 c r.toNat (by omega)

/-- The copy the call on 2048 bytes with an output capacity of 1054 makes: 1024
bytes from the offset 1024. -/
theorem shrinkExample_shift :
    (CompressBlock storeZlib ramp 2048 zeros 1054 6).shift = some (1024, 1024) := by
  rw [CompressBlock_eq,
    finishBlock_shrunk storeZlib ramp 2048 _ 1024 1054 1
      (shrinkExample_loop _ _).1 (by decide) (by decide) (by decide) (by decide) (by decide)
      (by decide)]
  rw [if_neg (by decide)]
  decide

/-- C16 on 2048 bytes and an output capacity of 1054: the storing engine takes
1024 bytes and the other 1024 are copied to the front. -/
theorem C16_shift_overlap_safe_witness :
    (CompressBlock storeZlib ramp 2048 zeros 1054 6).shift = some (1024, 1024) ∧
    (CompressBlock storeZlib ramp 2048 zeros 1054 6).attempts.getLast?.map toU32
      = some (1024 : Int).toNat ∧
    (CompressBlock storeZlib ramp 2048 zeros 1054 6).uncompressLen = (1024 : Int).toNat ∧
    (1024 : Int) + 1024 = ((2048 : Nat) : Int) ∧ (0 : Int) < 1024 ∧ (1024 : Int) ≤ 1024 ∧
    (∀ i j : Int, 1024 ≤ i → i < 1024 + 1024 → 0 ≤ j → j < 1024 → i ≠ j) ∧
    (CompressBlock storeZlib ramp 2048 zeros 1054 6).uncompressedBlock
      = memcpy ramp 0 1024 (1024 : Int).toNat ∧
    memcpy ramp 0 1024 (1024 : Int).toNat = overlapSafeMove ramp 0 1024 (1024 : Int).toNat :=
  ⟨shrinkExample_shift,
   C16_shift_overlap_safe storeZlib ramp 2048 zeros 1054 6 1024 1024 (by decide)
     shrinkExample_shift⟩

/-! ## Failed calls -/

/-- C17. Failure atomicity on the input side: a call that fails, by whichever
of its failure exits, leaves `*pUncompressLen` at its entry value `L` and the
uncompressed buffer as it was, byte for byte. -/
theorem C17_failure_atomic (z : Zlib) (ub : Mem) (L : Nat) (cb : Mem) (cap : Nat) (lvl : Int)
    (e : CompressError) (h : (CompressBlock z ub L cb cap lvl).ret = .error e) :
    (CompressBlock z ub L cb cap lvl).uncompressLen = L ∧
    (CompressBlock z ub L cb cap lvl).uncompressedBlock = ub ∧
    ∀ j : Int, (CompressBlock z ub L cb cap lvl).uncompressedBlock j = ub j := by
  rw [CompressBlock_eq] at h ⊢
  cases hl : (compressLoop z lvl ub cap (initHeader cb) (wrap32 (L : Int))).ret with
  | error e1 =>
    rw [finishBlock_error z ub L _ e1 hl]
    exact ⟨rfl, rfl, fun _ => rfl⟩
  | ok p =>
    obtain ⟨ci, Ni⟩ := p
    rw [finishBlock_ok z ub L _ ci Ni hl] at h ⊢
    split_ifs at h ⊢ with h1 h2
    exact ⟨rfl, rfl, fun _ => rfl⟩

/-- C17 on 3072 bytes and an output capacity of 1054: the call fails with
"remainder too large" after two retries, and the 3072 bytes and their count are
as before; and on 5 bytes and an output capacity of 26: the call fails with
"input reduction failed", the 5 bytes and their count are as before, and the
output buffer has changed (its first byte is 31). -/
theorem C17_failure_atomic_witness :
    ((CompressBlock storeZlib ramp 3072 zeros 1054 6).uncompressLen = 3072 ∧
      (CompressBlock storeZlib ramp 3072 zeros 1054 6).uncompressedBlock = ramp ∧
      ∀ j : Int, (CompressBlock storeZlib ramp 3072 zeros 1054 6).uncompressedBlock j = ramp j) ∧
    ((CompressBlock storeZlib ramp 5 zeros 26 6).uncompressLen = 5 ∧
      (CompressBlock storeZlib ramp 5 zeros 26 6).uncompressedBlock = ramp ∧
      ∀ j : Int, (CompressBlock storeZlib ramp 5 zeros 26 6).uncompressedBlock j = ramp j) ∧
    (CompressBlock storeZlib ramp 5 zeros 26 6).compressedBlock 0 = 31 ∧
    (CompressBlock storeZlib ramp 5 zeros 26 6).compressedBlock 0 ≠ zeros 0 :=
  ⟨C17_failure_atomic storeZlib ramp 3072 zeros 1054 6 .remainderTooLarge remainderExample_ret,
   C17_failure_atomic storeZlib ramp 5 zeros 26 6 .reductionFailed (by decide),
   by decide, by decide⟩

/-! ## The input window and the result of `UncompressBlock` -/

/-- The input offered to the inflate engine ends two bytes after the
`compressedLen` bytes of the block. -/
theorem window_overrun (n : Nat) (h1 : 16 ≤ n) (h2 : n < 4294967296) :
    18 + availIn n = n + 2 := by
  unfold availIn toU32
  omega

theorem availIn_block (p : Nat) (hp : p + 26 < 4294967296) : availIn (p + 26) = p + 10 := by
  unfold availIn toU32
  omega

/-- The call depends on the block through what the engine makes of the window. -/
theorem UncompressBlock_congr (z : Zlib) (cb cb2 : Mem) (n : Nat) (out : Mem) (outLen : Nat)
    (h : z.inflate (readBytes cb2 18 (availIn n)) outLen
      = z.inflate (readBytes cb 18 (availIn n)) outLen) :
    UncompressBlock z cb2 n out outLen = UncompressBlock z cb n out outLen := by
  unfold UncompressBlock
  rw [h]

/-- Two blocks with the same `p` payload bytes give the same call, for an engine
whose result is settled by a stream of `p` bytes. -/
theorem UncompressBlock_payload (z : Zlib) (cb cb2 : Mem) (p : Nat) (out : Mem) (outLen : Nat)
    (hp : p + 26 < 4294967296)
    (hdep : ∀ rest rest2 : List Nat,
      z.inflate (readBytes cb 18 p ++ rest) outLen = z.inflate (readBytes cb 18 p ++ rest2) outLen)
    (hsame : ∀ j : Int, 18 ≤ j → j < 18 + (p : Int) → cb2 j = cb j) :
    UncompressBlock z cb2 (p + 26) out outLen = UncompressBlock z cb (p + 26) out outLen := by
  apply UncompressBlock_congr
  have hpay : readBytes cb2 18 p = readBytes cb 18 p :=
    readBytes_congr (fun k hk => hsame _ (by omega) (by omega))
  rw [availIn_block p hp, readBytes_add, readBytes_add, hpay]
  exact hdep _ _

/-- C11. The footer is not validated: for a block of `p + 26` bytes, `p` of them
payload, that decompresses with the result `n`, and an inflate engine whose
result on a stream that starts with that payload does not depend on what
follows it, a block that differs only in the four CRC bytes (offsets `18 + p`
to `18 + p + 3`) decompresses with the same result `n` and the same output
bytes; and so does every block with the same payload bytes, whatever its CRC
and ISIZE bytes are. -/
theorem C11_footer_unchecked (z : Zlib) (cb cb1 : Mem) (p : Nat) (out : Mem) (outLen : Nat)
    (n : Int) (hp : p + 26 < 4294967296)
    (hdep : ∀ rest rest2 : List Nat,
      z.inflate (readBytes cb 18 p ++ rest) outLen = z.inflate (readBytes cb 18 p ++ rest2) outLen)
    (hvalid : (UncompressBlock z cb (p + 26) out outLen).ret = some n)
    (hcrc : ∀ j : Int, (j < 18 + (p : Int) ∨ 18 + (p : Int) + 4 ≤ j) → cb1 j = cb j) :
    (UncompressBlock z cb1 (p + 26) out outLen).ret = some n ∧
    (UncompressBlock z cb1 (p + 26) out outLen).uncompressedBlock
      = (UncompressBlock z cb (p + 26) out outLen).uncompressedBlock ∧
    (∀ cb2 : Mem, (∀ j : Int, 18 ≤ j → j < 18 + (p : Int) → cb2 j = cb j) →
      UncompressBlock z cb2 (p + 26) out outLen = UncompressBlock z cb (p + 26) out outLen) := by
  have h1 := UncompressBlock_payload z cb cb1 p out outLen hp hdep
    (fun j _ h2 => hcrc j (Or.inl h2))
  refine ⟨by rw [h1]; exact hvalid, by rw [h1], ?_⟩
  intro cb2 hsame
  exact UncompressBlock_payload z cb cb2 p out outLen hp hdep hsame

/-- The payload of the block that the storing engine makes of the bytes 0, 1, 2. -/
theorem smallBlock_payload :
    readBytes (CompressBlock storeZlib ramp 3 zeros 100 6).compressedBlock 18 7
      = (storeZlib.deflate 6 (readBytes ramp 0 3) (availOut 100)).out := by
  decide

/-- C11 on the block of 33 bytes that the storing engine makes of the bytes 0,
1, 2: with 305419896 packed over its CRC bytes, which changes them, the block
still decompresses to three bytes. -/
theorem C11_footer_unchecked_witness :
    PackUnsignedInt (CompressBlock storeZlib ramp 3 zeros 100 6).compressedBlock 25 305419896 25
      ≠ (CompressBlock storeZlib ramp 3 zeros 100 6).compressedBlock 25 ∧
    (UncompressBlock storeZlib
      (PackUnsignedInt (CompressBlock storeZlib ramp 3 zeros 100 6).compressedBlock 25 305419896)
      (7 + 26) zeros 10).ret = some 3 ∧
    (UncompressBlock storeZlib
      (PackUnsignedInt (CompressBlock storeZlib ramp 3 zeros 100 6).compressedBlock 25 305419896)
      (7 + 26) zeros 10).uncompressedBlock
      = (UncompressBlock storeZlib (CompressBlock storeZlib ramp 3 zeros 100 6).compressedBlock
          (7 + 26) zeros 10).uncompressedBlock ∧
    (∀ cb2 : Mem,
      (∀ j : Int, 18 ≤ j → j < 18 + ((7 : Nat) : Int) →
        cb2 j = (CompressBlock storeZlib ramp 3 zeros 100 6).compressedBlock j) →
      UncompressBlock storeZlib cb2 (7 + 26) zeros 10
        = UncompressBlock storeZlib (CompressBlock storeZlib ramp 3 zeros 100 6).compressedBlock
            (7 + 26) zeros 10) :=
  ⟨by decide,
   C11_footer_unchecked storeZlib (CompressBlock storeZlib ramp 3 zeros 100 6).compressedBlock
    (PackUnsignedInt (CompressBlock storeZlib ramp 3 zeros 100 6).compressedBlock 25 305419896)
    7 zeros 10 3 (by decide)
    (fun rest rest2 => by
      rw [smallBlock_payload,
        storeZlib_inverts 6 (readBytes ramp 0 3) (availOut 100) rest 10 (by decide) (by decide)
          (by decide),
        storeZlib_inverts 6 (readBytes ramp 0 3) (availOut 100) rest2 10 (by decide) (by decide)
          (by decide)])
    (by decide)
    (fun j hj => PackUnsignedInt_other _ _ _ j (by omega))⟩

/-- C12 (as amended). Result of `UncompressBlock`: when the engine has produced
fewer than 2^31 bytes, the call returns their number if and only if
`inflateInit2` succeeds, `inflate` reports `Z_STREAM_END` and `inflateEnd`
succeeds; and whatever the number of bytes, in every other case (an `inflate`
that stops for lack of output space or of input among them, its status not
being `Z_STREAM_END`) the call returns -1. -/
theorem C12_uncompress_result (z : Zlib) (cb : Mem) (n : Nat) (out : Mem) (outLen : Nat) :
    ((z.inflate (readBytes cb 18 (availIn n)) outLen).out.length < 2147483648 →
      ((UncompressBlock z cb n out outLen).value
          = (((z.inflate (readBytes cb 18 (availIn n)) outLen).out.length : Nat) : Int) ↔
        (z.inflate (readBytes cb 18 (availIn n)) outLen).initStatus = Z_OK ∧
          (z.inflate (readBytes cb 18 (availIn n)) outLen).status = Z_STREAM_END ∧
          (z.inflate (readBytes cb 18 (availIn n)) outLen).endStatus = Z_OK)) ∧
    (¬ ((z.inflate (readBytes cb 18 (availIn n)) outLen).initStatus = Z_OK ∧
      (z.inflate (readBytes cb 18 (availIn n)) outLen).status = Z_STREAM_END ∧
      (z.inflate (readBytes cb 18 (availIn n)) outLen).endStatus = Z_OK) →
      (UncompressBlock z cb n out outLen).ret = none ∧
        (UncompressBlock z cb n out outLen).value = -1) := by
  unfold UncompressResult.value UncompressBlock
  simp only []
  split_ifs with h1 h2 h3
  · refine ⟨fun _ => ⟨fun h => ?_, fun h => absurd h.1 h1⟩, fun _ => ⟨rfl, rfl⟩⟩
    simp only at h
    omega
  · refine ⟨fun _ => ⟨fun h => ?_, fun h => absurd h.2.1 h2⟩, fun _ => ⟨rfl, rfl⟩⟩
    simp only at h
    omega
  · refine ⟨fun _ => ⟨fun h => ?_, fun h => absurd h.2.2 h3⟩, fun _ => ⟨rfl, rfl⟩⟩
    simp only at h
    omega
  · refine ⟨fun hlen => ⟨fun _ => ⟨not_not.mp h1, not_not.mp h2, not_not.mp h3⟩,
      fun _ => wrap32_natCast hlen⟩, fun h => ?_⟩
    exact absurd ⟨not_not.mp h1, not_not.mp h2, not_not.mp h3⟩ h

/-- C12 (as amended) with the storing engine: on a stream of two bytes the call
returns 2, the three steps of the engine having succeeded; on a stream that
announces two bytes and holds one, `inflate` stops for lack of input and the
call returns -1. -/
theorem C12_uncompress_result_witness :
    ((UncompressBlock storeZlib twoByteStream 32 zeros 10).value
        = (((storeZlib.inflate (readBytes twoByteStream 18
            (availIn 32)) 10).out.length : Nat) : Int) ↔
      (storeZlib.inflate (readBytes twoByteStream 18 (availIn 32)) 10).initStatus = Z_OK ∧
      (storeZlib.inflate (readBytes twoByteStream 18 (availIn 32)) 10).status = Z_STREAM_END ∧
      (storeZlib.inflate (readBytes twoByteStream 18 (availIn 32)) 10).endStatus = Z_OK) ∧
    ((UncompressBlock storeZlib twoByteStream 21 zeros 10).ret = none ∧
      (UncompressBlock storeZlib twoByteStream 21 zeros 10).value = -1) :=
  ⟨(C12_uncompress_result storeZlib twoByteStream 32 zeros 10).1 (by decide),
   (C12_uncompress_result storeZlib twoByteStream 21 zeros 10).2 (by decide)⟩

/-- The window of the block whose payload announces 4294967295 zero bytes. -/
theorem longRun_window :
    readBytes longRunStream 18 (availIn 30) = le32 4294967295 ++ List.replicate 10 0 := by
  decide

theorem value_of_ret (r : UncompressResult) (v : Int) (h : r.ret = some v) : r.value = v := by
  unfold UncompressResult.value
  rw [h]

theorem wrap32_max : wrap32 ((4294967295 : Nat) : Int) = -1 := by
  unfold wrap32
  omega

/-- The engine on the block whose payload announces 4294967295 zero bytes. -/
theorem longRun_inflate :
    runZlib.inflate (readBytes longRunStream 18 (availIn 30)) 4294967295
      = { initStatus := Z_OK, status := Z_STREAM_END, out := readBytes zeros 0 4294967295,
          endStatus := Z_OK } := by
  rw [longRun_window]
  exact runZlib_inverts 4294967295 _ 4294967295 (by decide) (le_refl _)

/-- C12 as stated fails: on a stream that announces 4294967295 zero bytes, with
output space for all of them, the three steps of the run-length engine
succeed and it produces the 4294967295 bytes, but the call returns -1, their
number not fitting the `int` it returns. -/
theorem C12_counterexample :
    (runZlib.inflate (readBytes longRunStream 18 (availIn 30)) 4294967295).initStatus = Z_OK ∧
    (runZlib.inflate (readBytes longRunStream 18 (availIn 30)) 4294967295).status = Z_STREAM_END ∧
    (runZlib.inflate (readBytes longRunStream 18 (availIn 30)) 4294967295).endStatus = Z_OK ∧
    (runZlib.inflate (readBytes longRunStream 18 (availIn 30)) 4294967295).out.length = 4294967295 ∧
    (UncompressBlock runZlib longRunStream 30 zeros 4294967295).value = -1 ∧
    (-1 : Int) ≠ ((4294967295 : Nat) : Int) := by
  have hu := UncompressBlock_stream_end runZlib longRunStream 30 zeros 4294967295 _ longRun_inflate
  rw [readBytes_length, wrap32_max] at hu
  refine ⟨by rw [longRun_inflate], by rw [longRun_inflate], by rw [longRun_inflate], ?_, ?_,
    by decide⟩
  · rw [longRun_inflate]
    simp only [readBytes_length]
  · exact value_of_ret _ _ (by rw [hu])

/-- C13, the code on the block of 33 bytes that the storing engine makes of the
bytes 0, 1, 2 in an output buffer that held `j mod 251` at offset `j`: with
`compressedLen = 33` the inflate engine is offered 17 bytes from offset 18 on,
which end at offset 35 and not at 33; the copying engine gives them back, and
the last two are the bytes 33 and 34 that the buffer holds after the block. -/
theorem C13_window_run :
    (CompressBlock storeZlib ramp 3 ramp 100 6).ret = .ok 33 ∧
    availIn 33 = 17 ∧ ¬ (18 + availIn 33 ≤ 33) ∧
    (UncompressBlock echoZlib (CompressBlock storeZlib ramp 3 ramp 100 6).compressedBlock 33
      zeros 64).ret = some 17 ∧
    readBytes (UncompressBlock echoZlib (CompressBlock storeZlib ramp 3 ramp 100 6).compressedBlock
      33 zeros 64).uncompressedBlock 15 2
      = [(CompressBlock storeZlib ramp 3 ramp 100 6).compressedBlock 33,
         (CompressBlock storeZlib ramp 3 ramp 100 6).compressedBlock 34] ∧
    readBytes (UncompressBlock echoZlib (CompressBlock storeZlib ramp 3 ramp 100 6).compressedBlock
      33 zeros 64).uncompressedBlock 15 2 = [33, 34] := by
  decide

/-! ## The bound on the output -/

/-- The header bytes are written at the offsets 0 to 17 only. -/
theorem initHeader_frame (cb : Mem) (j : Int) (hj : j < 0 ∨ 18 ≤ j) : initHeader cb j = cb j := by
  unfold initHeader
  rw [Mem.set_apply, if_neg (by omega), Mem.set_apply, if_neg (by omega), Mem.set_apply,
    if_neg (by omega), Mem.set_apply, if_neg (by omega), Mem.set_apply, if_neg (by omega),
    Mem.set_apply, if_neg (by omega), Mem.set_apply, if_neg (by omega), Mem.set_apply,
    if_neg (by omega), Mem.set_apply, if_neg (by omega)]
  unfold memset
  rw [if_neg (by omega)]

/-- The packed fields lie at the offsets 16, 17 and `N - 8` to `N - 1`. -/
theorem packBlock_frame (z : Zlib) (ub buf : Mem) (c : Nat) (N : Int) (hN : 26 ≤ N) (j : Int)
    (hj : j < 16 ∨ N ≤ j) : packBlock z ub buf c N j = buf j := by
  unfold packBlock
  rw [PackUnsignedInt_other _ _ _ _ (by omega), PackUnsignedInt_other _ _ _ _ (by omega),
    PackUnsignedShort_other _ _ _ _ (by omega)]

/-- With an engine that stays within the output space it is offered, no attempt
writes before offset 18 or from offset `18 + avail_out` on. -/
theorem compressLoop_buffer_frame (z : Zlib) (lvl : Int) (ub : Mem) (cap : Nat)
    (hresp : ∀ input : List Nat, (z.deflate lvl input (availOut cap)).out.length ≤ availOut cap)
    (j : Int) (hj : j < 18 ∨ 18 + (availOut cap : Int) ≤ j) :
    ∀ (n : Nat) (buf : Mem) (x : Int), loopMeasure x = n →
      (compressLoop z lvl ub cap buf x).buffer j = buf j := by
  intro n
  induction n using Nat.strong_induction_on with
  | _ n ih =>
    intro buf x hx
    have hout : j < 18 ∨ 18 + ((z.deflate lvl (readBytes ub 0 (toU32 x))
        (availOut cap)).out.length : Int) ≤ j := by
      have h5 := hresp (readBytes ub 0 (toU32 x))
      omega
    rw [compressLoop_unfold]
    simp only []
    split_ifs with h1 h2 h3 h4 h5 h6
    · rfl
    · exact writeBytes_apply_out _ _ _ _ hout
    · show (compressLoop z lvl ub cap _ (wrap32 (x - 1024))).buffer j = buf j
      rw [ih _ (by rw [← hx]; exact loopMeasure_decreases x h4) _ _ rfl]
      exact writeBytes_apply_out _ _ _ _ hout
    · exact writeBytes_apply_out _ _ _ _ hout
    · exact writeBytes_apply_out _ _ _ _ hout
    · exact writeBytes_apply_out _ _ _ _ hout
    · exact writeBytes_apply_out _ _ _ _ hout

/-- A payload within the space offered at a capacity from 26 to 65536 gives a
block length from 26 to the capacity. -/
theorem block_len_bound (p cap : Nat) (N : Int) (h1 : 26 ≤ cap) (h2 : cap ≤ 65536)
    (hp : p ≤ availOut cap) (hN : N = wrap32 (wrap32 (p : Int) + 26)) :
    N = 18 + (p : Int) + 8 ∧ 26 ≤ N ∧ N ≤ cap := by
  rw [availOut_of_le h1 (by omega)] at hp
  unfold wrap32 at hN
  omega

/-- A payload within the space offered at a capacity of at least 26 makes a
block of more than 65536 bytes only if the capacity is above 65536. -/
theorem overflow_needs_room (p cap : Nat) (h1 : 26 ≤ cap) (h2 : cap < 4294967296)
    (hp : p ≤ availOut cap) (h : wrap32 (wrap32 (p : Int) + 26) > 65536) : 65536 < cap := by
  rw [availOut_of_le h1 h2] at hp
  unfold wrap32 at h
  omega

/-- A loop that ends in "deflate overflow" ends on an attempt that terminated
the stream with a block longer than `MAX_BLOCK_SIZE`. -/
theorem compressLoop_overflow (z : Zlib) (lvl : Int) (ub : Mem) (cap : Nat) :
    ∀ (n : Nat) (buf : Mem) (x : Int), loopMeasure x = n →
      (compressLoop z lvl ub cap buf x).ret = .error .overflow →
      ∃ a : Int, (compressLoop z lvl ub cap buf x).attempts.getLast? = some a ∧
        (z.deflate lvl (readBytes ub 0 (toU32 a)) (availOut cap)).status = Z_STREAM_END ∧
        wrap32 (wrap32
          ((z.deflate lvl (readBytes ub 0 (toU32 a)) (availOut cap)).out.length : Int) + 26)
          > 65536 := by
  intro n
  induction n using Nat.strong_induction_on with
  | _ n ih =>
    intro buf x hx hret
    rw [compressLoop_unfold] at hret ⊢
    simp only [] at hret ⊢
    split_ifs at hret ⊢ with h1 h2 h3 h4 h5 h6
    · exact absurd hret (by simp)
    · exact absurd hret (by simp)
    · obtain ⟨a, hlast, hend, hbig⟩ :=
        ih _ (by rw [← hx]; exact loopMeasure_decreases x h4) _ _ rfl hret
      refine ⟨a, ?_, hend, hbig⟩
      show (x :: (compressLoop z lvl ub cap _ (wrap32 (x - 1024))).attempts).getLast? = some a
      rw [List.getLast?_cons, hlast]
      rfl
    · exact absurd hret (by simp)
    · exact absurd hret (by simp)
    · exact ⟨x, rfl, not_not.mp h2, h6⟩

/-- The output buffer after the tail of a call whose loop has ended with
`inputLength = c` and `compressedLength = N`. -/
theorem finishBlock_block_ok (z : Zlib) (ub : Mem) (L : Nat) (l : LoopResult) (c N : Int)
    (hl : l.ret = .ok (c, N)) :
    (finishBlock z ub L l).compressedBlock = packBlock z ub l.buffer (toU32 c) N := by
  rw [finishBlock_ok z ub L l c N hl]
  split_ifs <;> rfl

/-- At a capacity from 26 to 65536, with an engine that stays within the output
space it is offered, a call changes no byte of the output buffer before offset
0 or from offset `cap` on, whatever its outcome. -/
theorem CompressBlock_frame (z : Zlib) (ub : Mem) (L : Nat) (cb : Mem) (cap : Nat) (lvl : Int)
    (h1 : 26 ≤ cap) (h2 : cap ≤ 65536)
    (hresp : ∀ input : List Nat, (z.deflate lvl input (availOut cap)).out.length ≤ availOut cap)
    (j : Int) (hj : j < 0 ∨ (cap : Int) ≤ j) :
    (CompressBlock z ub L cb cap lvl).compressedBlock j = cb j := by
  have hav := availOut_of_le h1 (by omega : cap < 4294967296)
  have hj2 : j < 18 ∨ 18 + (availOut cap : Int) ≤ j := by
    rw [hav]
    omega
  have hj3 : j < 0 ∨ 18 ≤ j := by omega
  rw [CompressBlock_eq]
  cases hl : (compressLoop z lvl ub cap (initHeader cb) (wrap32 (L : Int))).ret with
  | error e =>
    rw [finishBlock_error z ub L _ e hl]
    show (compressLoop z lvl ub cap (initHeader cb) (wrap32 (L : Int))).buffer j = cb j
    rw [compressLoop_buffer_frame z lvl ub cap hresp j hj2 _ _ _ rfl, initHeader_frame cb j hj3]
  | ok p =>
    obtain ⟨ci, Ni⟩ := p
    obtain ⟨_, hfin, _, _⟩ := compressLoop_ok z lvl ub cap _ _ _ _ _ rfl hl
    obtain ⟨_, _, _, hN, _⟩ := hfin
    obtain ⟨_, hN26, hNcap⟩ := block_len_bound _ cap Ni h1 h2 (hresp _) hN
    have hjN : j < 16 ∨ Ni ≤ j := by omega
    rw [finishBlock_block_ok z ub L _ ci Ni hl, packBlock_frame _ _ _ _ _ hN26 j hjN,
      compressLoop_buffer_frame z lvl ub cap hresp j hj2 _ _ _ rfl, initHeader_frame cb j hj3]

/-- A call fails with "deflate overflow" only when its loop has. -/
theorem CompressBlock_overflow_inv (z : Zlib) (ub : Mem) (L : Nat) (cb : Mem) (cap : Nat)
    (lvl : Int) (h : (CompressBlock z ub L cb cap lvl).ret = .error .overflow) :
    (compressLoop z lvl ub cap (initHeader cb) (wrap32 (L : Int))).ret = .error .overflow := by
  rw [CompressBlock_eq] at h
  cases hl : (compressLoop z lvl ub cap (initHeader cb) (wrap32 (L : Int))).ret with
  | error e =>
    rw [finishBlock_error z ub L _ e hl] at h
    simp only [Except.error.injEq] at h
    rw [h]
  | ok p =>
    obtain ⟨ci, Ni⟩ := p
    rw [finishBlock_ok z ub L _ ci Ni hl] at h
    split_ifs at h
    simp at h

/-- Output bound, at an output capacity of at least 26, with an engine that
never writes more than the output space it is offered: when the capacity is at
most 65536, a successful call returns a length `N` with `26 ≤ N ≤ cap`, the
18 header bytes, the `p` payload bytes of the final attempt and the 8 footer
bytes making up the offsets below `N = 18 + p + 8`; no call changes an output
byte at an offset of `cap` or more (or below 0); and no call fails with
"deflate overflow". A call that does fail with "deflate overflow" therefore
has a capacity above 65536, and its last attempt is one that terminated the
stream with more than 65536 bytes for the block: the call fails on it and does
not go on to a shorter input. -/
theorem output_bound_with_room (z : Zlib) (ub : Mem) (L : Nat) (cb : Mem) (cap : Nat)
    (lvl : Int)
    (hL : L < 4294967296) (hcap1 : 26 ≤ cap) (hcap2 : cap < 4294967296)
    (hresp : ∀ input : List Nat, (z.deflate lvl input (availOut cap)).out.length ≤ availOut cap) :
    (cap ≤ 65536 →
      (∀ N : Int, (CompressBlock z ub L cb cap lvl).ret = .ok N →
        26 ≤ N ∧ N ≤ cap ∧
        ∃ c : Nat, (CompressBlock z ub L cb cap lvl).attempts.getLast?.map toU32 = some c ∧
          N = 18 + (((z.deflate lvl (readBytes ub 0 c) (availOut cap)).out.length : Nat) : Int)
            + 8) ∧
      (∀ j : Int, (j < 0 ∨ (cap : Int) ≤ j) →
        (CompressBlock z ub L cb cap lvl).compressedBlock j = cb j) ∧
      (CompressBlock z ub L cb cap lvl).ret ≠ .error .overflow) ∧
    ((CompressBlock z ub L cb cap lvl).ret = .error .overflow →
      65536 < cap ∧
      ∃ a : Int, (CompressBlock z ub L cb cap lvl).attempts.getLast? = some a ∧
        (z.deflate lvl (readBytes ub 0 (toU32 a)) (availOut cap)).status = Z_STREAM_END ∧
        wrap32 (wrap32
          ((z.deflate lvl (readBytes ub 0 (toU32 a)) (availOut cap)).out.length : Int) + 26)
          > 65536) := by
  have htail : (CompressBlock z ub L cb cap lvl).ret = .error .overflow →
      65536 < cap ∧
      ∃ a : Int, (CompressBlock z ub L cb cap lvl).attempts.getLast? = some a ∧
        (z.deflate lvl (readBytes ub 0 (toU32 a)) (availOut cap)).status = Z_STREAM_END ∧
        wrap32 (wrap32
          ((z.deflate lvl (readBytes ub 0 (toU32 a)) (availOut cap)).out.length : Int) + 26)
          > 65536 := by
    intro h
    obtain ⟨a, hlast, hend, hbig⟩ := compressLoop_overflow z lvl ub cap _ _ _ rfl
      (CompressBlock_overflow_inv z ub L cb cap lvl h)
    refine ⟨overflow_needs_room _ cap hcap1 hcap2 (hresp _) hbig, a, ?_, hend, hbig⟩
    rw [CompressBlock_eq, finishBlock_attempts]
    exact hlast
  refine ⟨fun hcap3 => ⟨?_, ?_, ?_⟩, htail⟩
  · intro N h
    obtain ⟨c, _, _, hfin, hatt, _, _, _, _⟩ := CompressBlock_success z ub L cb cap lvl N hL h
    obtain ⟨_, _, _, hN, _⟩ := hfin
    obtain ⟨hN1, hN26, hNcap⟩ := block_len_bound _ cap N hcap1 hcap3 (hresp _) hN
    exact ⟨hN26, hNcap, c, hatt, hN1⟩
  · intro j hj
    exact CompressBlock_frame z ub L cb cap lvl hcap1 hcap3 hresp j hj
  · intro h
    have h5 := (htail h).1
    omega

/-- The filling engine stays within the output space it is offered. -/
theorem fillZlib_respects (lvl : Int) (input : List Nat) (avail : Nat) :
    (fillZlib.deflate lvl input avail).out.length ≤ avail := by
  show (List.replicate (min avail 65511) 0).length ≤ avail
  rw [List.length_replicate]
  exact Nat.min_le_left _ _

/-- The filling engine writes 65511 bytes when it has room for them. -/
theorem fillZlib_length (lvl : Int) (input : List Nat) (avail : Nat) (h : 65511 ≤ avail) :
    (fillZlib.deflate lvl input avail).out.length = 65511 := by
  show (List.replicate (min avail 65511) 0).length = 65511
  rw [List.length_replicate]
  exact Nat.min_eq_right h

/-- The call on the empty input with the filling engine and an output capacity
of 65537 fails with "deflate overflow". -/
theorem fillExample_ret : (CompressBlock fillZlib zeros 0 zeros 65537 6).ret = .error .overflow :=
  CompressBlock_overflow fillZlib zeros 0 zeros 65537 6 (by decide) rfl rfl rfl
    (by rw [fillZlib_length _ _ _ (by decide)]; decide)

/-- C18 fails at the output capacity 0, which is not above 65536: the space
offered to the engine is `0 - 18 - 8` in `unsigned int`, 4294967270 bytes; the
filling engine writes 65511 bytes, within the space it is offered, and
terminates the stream; the block length 65537 is more than `MAX_BLOCK_SIZE`
and the call, on the empty input, fails with "deflate overflow". -/
theorem C18_small_capacity_overflow_run :
    availOut 0 = 4294967270 ∧
    (∀ input : List Nat, (fillZlib.deflate 6 input (availOut 0)).out.length ≤ availOut 0) ∧
    (fillZlib.deflate 6 (readBytes zeros 0 0) (availOut 0)).out.length = 65511 ∧
    ¬ (65536 < 0) ∧
    (CompressBlock fillZlib zeros 0 zeros 0 6).ret = .error .overflow :=
  ⟨by decide, fun input => fillZlib_respects 6 input (availOut 0),
   fillZlib_length _ _ _ (by decide), by decide,
   CompressBlock_overflow fillZlib zeros 0 zeros 0 6 (by decide) rfl rfl rfl
    (by rw [fillZlib_length _ _ _ (by decide)]; decide)⟩

/-! ## Lengths from 2^31 on

`int inputLength = *pUncompressLen` holds a length of 2^31 bytes or more as a
negative number. For the lengths from 2^31 to 2^31 + 1023 the first
`inputLength -= 1024` wraps to a positive number, which passes the test
`inputLength < 0`, and the loop goes on. -/

theorem readBytes_get (m : Mem) (off : Int) (n k : Nat) (h : k < n) :
    (readBytes m off n)[k]? = some (m (off + (k : Int))) := by
  rw [List.getElem?_eq_getElem (by rw [readBytes_length]; exact h), readBytes_getElem]

theorem append_ne_of_get (l1 l2 l3 : List Nat) (i x y : Nat) (ha : l1.length ≤ i)
    (hb : l2[i - l1.length]? = some x) (hc : l3[i]? = some y) (hxy : x ≠ y) :
    l1 ++ l2 ≠ l3 := by
  intro h
  have h2 : (l1 ++ l2)[i]? = l3[i]? := by rw [h]
  rw [List.getElem?_append_right ha, hb, hc] at h2
  exact hxy (Option.some.inj h2)

theorem wrapped_retries (k : Nat) (h : 2147483648 = 1024 * k) : k = 2097152 := by
  omega

/-- The loop on 2^31 + 512 bytes with an output capacity of 1054 and the storing
engine: the first attempt, on `(int) -2147483136`, needs more output, the
second is on 2147483136 bytes, and after 2097152 retries in all the attempt on
512 bytes gives a block of 542 bytes. -/
theorem wrapExample_loop (ub buf : Mem) :
    (compressLoop storeZlib 6 ub 1054 buf (wrap32 ((2147484160 : Nat) : Int))).ret
      = .ok (512, 542) ∧
    (compressLoop storeZlib 6 ub 1054 buf (wrap32 ((2147484160 : Nat) : Int))).attempts.getLast?
      = some 512 ∧
    (compressLoop storeZlib 6 ub 1054 buf (wrap32 ((2147484160 : Nat) : Int))).attempts.length
      = 2097153 ∧
    ∃ post : List Int,
      (compressLoop storeZlib 6 ub 1054 buf (wrap32 ((2147484160 : Nat) : Int))).attempts
        = -2147483136 :: 2147483136 :: post := by
  have hw : wrap32 ((2147484160 : Nat) : Int) = -2147483136 := by decide
  have hw2 : wrap32 ((-2147483136 : Int) - 1024) = 512 + 1024 * ((2097151 : Nat) : Int) := by
    decide
  have hw3 : (512 : Int) + 1024 * ((2097151 : Nat) : Int) = 2147483136 := by decide
  obtain ⟨buf1, h1, h2⟩ := storeLoop_retry ub buf (-2147483136) (by decide) (by decide)
  rw [hw2] at h1 h2
  obtain ⟨i1, i2, i3⟩ := storeLoop_descend ub 512 (by decide) (by decide) 2097151 buf1
    (by decide)
  obtain ⟨t, ht⟩ := compressLoop_attempts_head storeZlib 6 ub 1054 buf1
    (512 + 1024 * ((2097151 : Nat) : Int))
  rw [hw, h1, h2]
  refine ⟨i1, ?_, ?_, t, ?_⟩
  · rw [List.getLast?_cons, i2]
    rfl
  · rw [List.length_cons, i3]
  · rw [ht, hw3]

/-- The call on 2^31 + 512 bytes with an output capacity of 1054 and the storing
engine succeeds with a block of 542 bytes for the first 512 bytes; the
remainder, 2^31, is a negative `int`, so the test `remaining > 0` fails: no
byte of the uncompressed buffer is moved, and 2^31 is written back. -/
theorem wrapExample_call (ub cb : Mem) :
    (CompressBlock storeZlib ub 2147484160 cb 1054 6).ret = .ok 542 ∧
    (CompressBlock storeZlib ub 2147484160 cb 1054 6).uncompressedBlock = ub ∧
    (CompressBlock storeZlib ub 2147484160 cb 1054 6).uncompressLen = 2147483648 ∧
    (CompressBlock storeZlib ub 2147484160 cb 1054 6).shift = none ∧
    (CompressBlock storeZlib ub 2147484160 cb 1054 6).attempts.getLast?.map toU32 = some 512 ∧
    (CompressBlock storeZlib ub 2147484160 cb 1054 6).attempts.length = 2097153 ∧
    ∃ post : List Int,
      (CompressBlock storeZlib ub 2147484160 cb 1054 6).attempts
        = -2147483136 :: 2147483136 :: post := by
  obtain ⟨l1, l2, l3, l4⟩ := wrapExample_loop ub (initHeader cb)
  have hk : 1024 * 2097152 = 2147483648 := by decide
  rw [CompressBlock_eq, finishBlock_attempts,
    finishBlock_wrapped storeZlib ub 2147484160 _ 512 542 2097152 l1 (by decide) (by decide)
      (by decide) (by decide) (by decide) (by decide)]
  refine ⟨by simp only [], by simp only [], hk, by simp only [], ?_, l3, l4⟩
  rw [l2]
  decide

/-- The call on 2^31 + 1024 bytes with an output capacity of 1054 and the storing
engine: the first attempt needs more output, `inputLength -= 1024` gives
-2^31 and the call fails with "input reduction failed" without a second
attempt. -/
theorem wrapExample_no_retry (ub cb : Mem) :
    (storeZlib.deflate 6 (readBytes ub 0 2147484672) (availOut 1054)).initStatus = Z_OK ∧
    (storeZlib.deflate 6 (readBytes ub 0 2147484672) (availOut 1054)).status = Z_OK ∧
    (CompressBlock storeZlib ub 2147484672 cb 1054 6).ret = .error .reductionFailed ∧
    (CompressBlock storeZlib ub 2147484672 cb 1054 6).attempts = [-2147482624] := by
  have hw : wrap32 ((2147484672 : Nat) : Int) = -2147482624 := by decide
  have hu : toU32 (-2147482624) = 2147484672 := by decide
  have hf := storeFull ub (-2147482624) (by decide)
  have hloop := compressLoop_retry storeZlib 6 ub 1054 (initHeader cb) (-2147482624)
    (by rw [hf]) (by rw [hf])
  rw [if_pos (by decide)] at hloop
  rw [hu] at hf
  refine ⟨by rw [hf], by rw [hf], ?_, ?_⟩
  · rw [CompressBlock_eq, hw,
      finishBlock_error storeZlib ub _ _ .reductionFailed (by rw [hloop])]
  · rw [CompressBlock_eq, finishBlock_attempts, hw, hloop]

/-- C4 fails on 2^31 + 512 bytes with an output capacity of 1054 and the storing
engine, which has room for 1024 bytes: the first attempt, on all the bytes,
needs more output and the call then succeeds; the consumed length is
`512 = L - 1024 k` and the length written back is `1024 k = 2^31 < L` for
`k = 2097152`, but the uncompressed buffer is unchanged, so that its byte 0 is
not the byte `L - 1024 k` of the buffer before the call: no `k` is as the claim
says. -/
theorem C4_wrapped_shrink_run :
    (storeZlib.deflate 6 (readBytes ramp 0 2147484160) (availOut 1054)).status = Z_OK ∧
    (CompressBlock storeZlib ramp 2147484160 zeros 1054 6).ret = .ok 542 ∧
    (CompressBlock storeZlib ramp 2147484160 zeros 1054 6).attempts.getLast?.map toU32
      = some (2147484160 - 1024 * 2097152) ∧
    (CompressBlock storeZlib ramp 2147484160 zeros 1054 6).uncompressLen = 1024 * 2097152 ∧
    (CompressBlock storeZlib ramp 2147484160 zeros 1054 6).uncompressedBlock = ramp ∧
    ¬ ∃ k : Nat, 1 ≤ k ∧ 1024 * k ≤ 2147484160 ∧
      (CompressBlock storeZlib ramp 2147484160 zeros 1054 6).attempts.getLast?.map toU32
        = some (2147484160 - 1024 * k) ∧
      (CompressBlock storeZlib ramp 2147484160 zeros 1054 6).uncompressLen = 1024 * k ∧
      (CompressBlock storeZlib ramp 2147484160 zeros 1054 6).uncompressLen < 2147484160 ∧
      ∀ i : Nat, i < 1024 * k →
        (CompressBlock storeZlib ramp 2147484160 zeros 1054 6).uncompressedBlock (i : Int)
          = ramp (((2147484160 - 1024 * k : Nat) : Int) + (i : Int)) := by
  obtain ⟨hret, hub, hlen, _, hlast, _, _⟩ := wrapExample_call ramp zeros
  have hf := storeFull ramp (-2147483136) (by decide)
  have hu : toU32 (-2147483136) = 2147484160 := by decide
  rw [hu] at hf
  refine ⟨by rw [hf], hret, hlast, hlen, hub, ?_⟩
  rw [hlen, hub]
  rintro ⟨k, _, _, _, hk, _, hall⟩
  have hk2 := wrapped_retries k hk
  rw [hk2] at hall
  exact absurd (hall 0 (by decide)) (by decide)

/-- C9 fails on 2^31 + 512 bytes with an output capacity of 1054 and the storing
engine: the final attempt consumes `c = 512` of the `L` bytes, `L - c = 2^31`
is more than `c`, and the call does not fail with "remainder too large": it
succeeds, with 2^31 written back. -/
theorem C9_wrapped_remainder_run :
    (CompressBlock storeZlib ramp 2147484160 zeros 1054 6).ret = .ok 542 ∧
    (CompressBlock storeZlib ramp 2147484160 zeros 1054 6).attempts.getLast?.map toU32
      = some 512 ∧
    (CompressBlock storeZlib ramp 2147484160 zeros 1054 6).uncompressLen = 2147484160 - 512 ∧
    2147484160 - 512 > 512 ∧
    (CompressBlock storeZlib ramp 2147484160 zeros 1054 6).ret ≠ .error .remainderTooLarge := by
  obtain ⟨hret, _, hlen, _, hlast, _, _⟩ := wrapExample_call ramp zeros
  refine ⟨hret, hlast, hlen, by decide, ?_⟩
  rw [hret]
  exact fun h => Except.noConfusion h

/-- C6 fails on 2^31 + 512 bytes with an output capacity of 1054 and the storing
engine: the call succeeds, and the prefix it consumed (512 bytes) followed by
what it leaves at the front of the buffer (2^31 bytes, which it has not moved)
is not the input. -/
theorem C6_wrapped_conservation_run :
    (CompressBlock storeZlib ramp 2147484160 zeros 1054 6).ret = .ok 542 ∧
    readBytes ramp 0 (2147484160 - (CompressBlock storeZlib ramp 2147484160 zeros 1054
        6).uncompressLen)
      ++ readBytes (CompressBlock storeZlib ramp 2147484160 zeros 1054 6).uncompressedBlock 0
          (CompressBlock storeZlib ramp 2147484160 zeros 1054 6).uncompressLen
      ≠ readBytes ramp 0 2147484160 := by
  obtain ⟨hret, hub, hlen, _⟩ := wrapExample_call ramp zeros
  refine ⟨hret, ?_⟩
  have e : 2147484160 - 2147483648 = 512 := by decide
  rw [hlen, hub, e]
  exact append_ne_of_get _ _ _ 512 (ramp (0 + ((0 : Nat) : Int))) (ramp (0 + ((512 : Nat) : Int)))
    (le_of_eq (readBytes_length _ _ _))
    (by rw [readBytes_length, Nat.sub_self]; exact readBytes_get ramp 0 2147483648 0 (by decide))
    (readBytes_get ramp 0 2147484160 512 (by decide)) (by decide)

/-- C15 fails for the lengths from 2^31 on. On 2^31 + 512 bytes with an output
capacity of 1054 and the storing engine, the first attempt has the length
`n = (int) -2147483136`, below 1024, and the engine reports that it needs more
output; the call does not fail with "input reduction failed":
`inputLength -= 1024` wraps to 2147483136, the next attempt is on that, and the
call succeeds. On 2^31 + 1024 bytes the engine is handed 2147484672 bytes, at
least 1024, and reports that it needs more output; the call does not retry: it
fails with "input reduction failed" after that one attempt. -/
theorem C15_wrapped_retry_run :
    ((storeZlib.deflate 6 (readBytes ramp 0 (toU32 (-2147483136))) (availOut 1054)).initStatus
        = Z_OK ∧
      (storeZlib.deflate 6 (readBytes ramp 0 (toU32 (-2147483136))) (availOut 1054)).status
        = Z_OK ∧
      (-2147483136 : Int) < 1024 ∧
      (∃ post : List Int, (CompressBlock storeZlib ramp 2147484160 zeros 1054 6).attempts
        = -2147483136 :: 2147483136 :: post) ∧
      (CompressBlock storeZlib ramp 2147484160 zeros 1054 6).ret = .ok 542) ∧
    ((storeZlib.deflate 6 (readBytes ramp 0 2147484672) (availOut 1054)).initStatus = Z_OK ∧
      (storeZlib.deflate 6 (readBytes ramp 0 2147484672) (availOut 1054)).status = Z_OK ∧
      1024 ≤ 2147484672 ∧
      (CompressBlock storeZlib ramp 2147484672 zeros 1054 6).ret = .error .reductionFailed ∧
      (CompressBlock storeZlib ramp 2147484672 zeros 1054 6).attempts = [-2147482624]) := by
  obtain ⟨hret, _, _, _, _, _, hatt⟩ := wrapExample_call ramp zeros
  obtain ⟨n1, n2, n3, n4⟩ := wrapExample_no_retry ramp zeros
  have hf := storeFull ramp (-2147483136) (by decide)
  exact ⟨⟨by rw [hf], by rw [hf], by decide, hatt, hret⟩, n1, n2, by decide, n3, n4⟩

end BGZF
